import Mathlib

/-!
# The blend display (`src/video_display/blend.cpp`)

A shallow embedding of the consumer loop of the blend display,
`display_blend_run`, of the helpers it calls and of the producer side
`display_blend_putf`, followed by theorems about source selection, debouncing,
eviction, the crossfade arithmetic, the ingress queue and the invariants of
the loop.

Conventions of the embedding.

* `uint32_t` source identifiers are `Nat`; the `int` counters `transition`
  and `skipped` are `Int`; bytes of a tile are `Nat` (a well-formed frame has
  all of them below 256) and the store into the `unsigned char` of the output
  buffer is an explicit `% 256`.
* `map<uint32_t, list<video_frame *>>` is only ever read through
  `operator[]`, which yields the empty list for an absent key, and
  `unordered_map<uint32_t, time_point>` only through `find`, so both are
  total functions on identifiers (`[]`, respectively `none`, for absent keys).
* A `time_point` is its count of clock ticks; `ticks_per_ms` is the
  (implementation defined) number of ticks of `system_clock` per millisecond
  and `duration_cast<milliseconds>` is the truncating division by it.
* Calls into the real display and `vf_free` are recorded, in program order,
  in a list of `event`s returned next to the new state.
-/

namespace Blend

/-! ## Constants (blend.cpp, lines 64-68) -/

def TRANSITION_COUNT : Int := 10

def BUFFER_LEN : Nat := 5

/-- Milliseconds. -/
def SOURCE_TIMEOUT : Int := 500

def IN_QUEUE_MAX_BUFFER_LEN : Nat := 5

def SKIP_FIRST_N_FRAMES_IN_STREAM : Int := 5

/-! ## Data model -/

/-- Modelled from the spec: `struct video_desc` is declared in `video.h`, which
is not among the sources; the spec gives a descriptor the fields width, height,
pixel format tag, interlacing mode and nominal frame rate. -/
structure video_desc where
  width : Nat
  height : Nat
  color_spec : Nat
  interlacing : Nat
  fps : Nat
deriving DecidableEq, Repr

/-- Modelled from the spec: `video_desc_eq` is defined outside the sources; by
the spec two descriptors are equal iff all fields match exactly. -/
def video_desc_eq (a b : video_desc) : Bool := decide (a = b)

/-- A `struct video_frame` as far as the blend display looks at it: the source
identifier, the descriptor `video_desc_from_frame` yields, and the bytes
`tiles[0].data[0 .. tiles[0].data_len)`. -/
structure video_frame where
  ssrc : Nat
  desc : video_desc
  data : List Nat
deriving DecidableEq, Repr

/-- The property `tiles[0].data` has by its type: every element is a byte. -/
def video_frame.wf (f : video_frame) : Prop := ∀ b ∈ f.data, b < 256

instance (f : video_frame) : Decidable f.wf := by
  unfold video_frame.wf; exact inferInstance

/-- What the loop writes into a frame obtained from `display_get_frame`
before handing it to `display_put_frame`: its `ssrc` and the first
`data_len` bytes of `tiles[0].data`. -/
structure display_frame where
  ssrc : Nat
  data : List Nat
deriving DecidableEq, Repr

/-- The diagnostics the loop prints to `stderr`. -/
inductive message where
  | RECONFIGURED
  | SMOLIK1
  | SMOLIK2
  | SMOLIK3
  | SMOLIK4
  | QUEUE_FULL
deriving DecidableEq, Repr

/-- The externally visible actions of one iteration, in program order.
`display_put_frame` is always called with `PUTF_BLOCKING`; its argument
`none` is the `NULL` frame that ends the stream. `vf_free_null` is `vf_free`
called with the `NULL` frame. -/
inductive event where
  | vf_free (f : video_frame)
  | vf_free_null
  | fprintf (m : message)
  | display_reconfigure (d : video_desc)
  | display_get_frame
  | display_put_frame (f : Option display_frame)
deriving DecidableEq, Repr

/-- The fields of `struct state_blend_common` the loop works on (the queue and
its locks are apart), together with the two locals `prefill` and `skipped` of
`display_blend_run`, which live across iterations. -/
structure state_blend_common where
  display_desc : video_desc
  current_ssrc : Nat
  old_ssrc : Nat
  transition : Int
  frames : Nat → List video_frame
  disabled_ssrc : Nat → Option Int
  prefill : Bool
  skipped : Int

/-- What one iteration reads from outside: the two readings of
`chrono::system_clock::now()` (line 188 and line 317) and the value
`display_reconfigure` returns, should it be called. -/
structure environment where
  now : Int
  now_end : Int
  reconf_ret : Int

/-- State after `new state_blend_common()` (value initialisation zeroes the
scalar members) and the initialisers `prefill = false`, `skipped = 0`. -/
def init_state : state_blend_common :=
  { display_desc := ⟨0, 0, 0, 0, 0⟩
    current_ssrc := 0
    old_ssrc := 0
    transition := 0
    frames := fun _ => []
    disabled_ssrc := fun _ => none
    prefill := false
    skipped := 0 }

/-! ## The code -/

/-- Function `check_reconf` (lines 158-165). The value returned by
`display_reconfigure` is not looked at. -/
def check_reconf (s : state_blend_common) (desc : video_desc) (_reconf_ret : Int) :
    state_blend_common × List event :=
  if !video_desc_eq desc s.display_desc then
    ({ s with display_desc := desc },
      [event.fprintf message.RECONFIGURED, event.display_reconfigure desc])
  else
    (s, [])

/-- Lines 196-204: erase every entry of `disabled_ssrc` whose age, cast to
milliseconds, is greater than `SOURCE_TIMEOUT`. -/
def sweep_disabled (ticks_per_ms : Nat) (now : Int) (d : Nat → Option Int) :
    Nat → Option Int :=
  fun k =>
    match d k with
    | some t => if Int.tdiv (now - t) ticks_per_ms > SOURCE_TIMEOUT then none else some t
    | none => none

/-- Lines 206-216. The Boolean tells whether the iteration goes on (`false`
is the `continue` of line 214). -/
def select_source (s : state_blend_common) (ssrc : Nat) : state_blend_common × Bool :=
  if ssrc ≠ s.current_ssrc ∧ ssrc ≠ s.old_ssrc then
    if s.skipped ≥ SKIP_FIRST_N_FRAMES_IN_STREAM then
      ({ s with old_ssrc := s.current_ssrc, current_ssrc := ssrc, prefill := true, skipped := 0 },
        true)
    else
      ({ s with skipped := s.skipped + 1 }, false)
  else
    (s, true)

/-- Lines 218-222: `push_back` of the frame and the test that ends
prefilling. -/
def buffer_frame (s : state_blend_common) (frame : video_frame) : state_blend_common :=
  let s1 := { s with frames := Function.update s.frames frame.ssrc (s.frames frame.ssrc ++ [frame]) }
  if (s1.frames s1.current_ssrc).length ≥ BUFFER_LEN then { s1 with prefill := false } else s1

/-- The copy-out common to lines 239-245 and 299-305: `check_reconf`,
`display_get_frame`, `memcpy` of `data_len` bytes, `vf_free`, setting the
`ssrc` and `display_put_frame`. -/
def put_copy (s : state_blend_common) (frame : video_frame) (reconf_ret : Int) :
    state_blend_common × List event :=
  let r := check_reconf s frame.desc reconf_ret
  (r.1, r.2 ++ [event.display_get_frame, event.vf_free frame,
    event.display_put_frame (some ⟨s.current_ssrc, frame.data⟩)])

/-- Lines 231-246: the old source is shown while the new one prefills. -/
def output_prefill (s : state_blend_common) (reconf_ret : Int) :
    state_blend_common × List event :=
  match s.frames s.old_ssrc with
  | [] => (s, [event.fprintf message.SMOLIK1])
  | frame :: rest =>
    put_copy { s with frames := Function.update s.frames s.old_ssrc rest } frame reconf_ret

/-- Line 277 for one byte: `int` arithmetic, division truncating toward zero,
conversion of the result to `unsigned char`. -/
def blend_byte (transition : Int) (old_val new_val : Nat) : Nat :=
  (Int.tdiv ((new_val : Int) * transition + (old_val : Int) * (TRANSITION_COUNT - transition))
    TRANSITION_COUNT % 256).toNat

/-- The loop of lines 273-278 over `i < new_frame->tiles[0].data_len`; the
arguments are the old and the new tile. Where the old tile is shorter than the
new one the C++ reads past its end; the embedding reads 0 there. -/
def blend_data (transition : Int) : List Nat → List Nat → List Nat
  | _, [] => []
  | [], n :: ns => blend_byte transition 0 n :: blend_data transition [] ns
  | o :: os, n :: ns => blend_byte transition o n :: blend_data transition os ns

/-- Lines 251 and 256: the transition counter is advanced; this is the state
in which the rest of the crossfade branch runs. -/
def advance_transition (s : state_blend_common) : state_blend_common :=
  { s with transition := s.transition + 1 }

/-- Lines 247-288: one step of the crossfade. `old_list` and `new_list` are
references into the map, so the second `front()` sees the first `pop_front()`;
that matters only if `old_ssrc = current_ssrc`, and if that list then has a
single frame the second `front()` has no defined value in C++: the embedding
takes the cancelling branch there. -/
def output_transition (s : state_blend_common) (reconf_ret : Int) :
    state_blend_common × List event :=
  let s1 := advance_transition s
  let cancel : state_blend_common × List event :=
    ({ s1 with transition := TRANSITION_COUNT }, [event.fprintf message.SMOLIK2])
  match s1.frames s1.old_ssrc with
  | [] => cancel
  | old_frame :: old_rest =>
    if (s1.frames s1.current_ssrc).isEmpty then cancel
    else
      let frames1 := Function.update s1.frames s1.old_ssrc old_rest
      match frames1 s1.current_ssrc with
      | [] => cancel
      | new_frame :: new_rest =>
        let s2 := { s1 with frames := Function.update frames1 s1.current_ssrc new_rest }
        let r := check_reconf s2 new_frame.desc reconf_ret
        let out : List Nat × List event :=
          if video_desc_eq old_frame.desc new_frame.desc then
            (blend_data s1.transition old_frame.data new_frame.data, [])
          else
            (new_frame.data, [event.fprintf message.SMOLIK4])
        (r.1, r.2 ++ [event.display_get_frame] ++ out.2 ++
          [event.vf_free old_frame, event.vf_free new_frame,
           event.display_put_frame (some ⟨s1.current_ssrc, out.1⟩)])

/-- Lines 291-307: no transition is going on. -/
def output_steady (s : state_blend_common) (reconf_ret : Int) :
    state_blend_common × List event :=
  if !s.prefill then
    match s.frames s.current_ssrc with
    | [] => (s, [event.fprintf message.SMOLIK3])
    | frame :: rest =>
      put_copy { s with frames := Function.update s.frames s.current_ssrc rest } frame reconf_ret
  else
    (s, [])

/-- Lines 230-308: the output decision. -/
def output_decision (s : state_blend_common) (reconf_ret : Int) :
    state_blend_common × List event :=
  if s.old_ssrc ≠ 0 then
    if s.prefill then output_prefill s reconf_ret else output_transition s reconf_ret
  else
    output_steady s reconf_ret

/-- Lines 310-320: the end of a transition. -/
def finish_transition (s : state_blend_common) (now_end : Int) :
    state_blend_common × List event :=
  if s.old_ssrc ≠ 0 ∧ s.transition ≥ TRANSITION_COUNT then
    ({ s with
        frames := Function.update s.frames s.old_ssrc []
        disabled_ssrc := Function.update s.disabled_ssrc s.old_ssrc (some now_end)
        old_ssrc := 0
        transition := 0 },
      (s.frames s.old_ssrc).map event.vf_free)
  else
    (s, [])

/-- The body of the loop of `display_blend_run` for a dequeued frame that is
not `NULL` (lines 188-320). -/
def process_frame (ticks_per_ms : Nat) (s : state_blend_common) (frame : video_frame)
    (e : environment) : state_blend_common × List event :=
  if (s.disabled_ssrc frame.ssrc).isSome then
    ({ s with disabled_ssrc := Function.update s.disabled_ssrc frame.ssrc (some e.now) },
      [event.vf_free frame])
  else
    let s1 := { s with disabled_ssrc := sweep_disabled ticks_per_ms e.now s.disabled_ssrc }
    let sel := select_source s1 frame.ssrc
    if !sel.2 then (sel.1, [])
    else
      let s2 := buffer_frame sel.1 frame
      if frame.ssrc ≠ s2.current_ssrc then (s2, [])
      else
        let r := output_decision s2 e.reconf_ret
        let r2 := finish_transition r.1 e.now_end
        (r2.1, r.2 ++ r2.2)

/-- The loop of `display_blend_run` over the frames it dequeues, each with
what the iteration reads from outside, up to the `NULL` frame: the final state
and all events. -/
def run_frames (ticks_per_ms : Nat) (s : state_blend_common) :
    List (video_frame × environment) → state_blend_common × List event
  | [] => (s, [])
  | (frame, e) :: rest =>
    let r := process_frame ticks_per_ms s frame e
    let r2 := run_frames ticks_per_ms r.1 rest
    (r2.1, r.2 ++ r2.2)

/-- The frames handed to `display_put_frame` among the events, in order. -/
def submitted : List event → List display_frame
  | [] => []
  | event.display_put_frame (some f) :: rest => f :: submitted rest
  | _ :: rest => submitted rest

/-- The byte-for-byte copy of a frame, shown for source `ssrc`. -/
def copy_of (ssrc : Nat) (f : video_frame) : display_frame := ⟨ssrc, f.data⟩

/-! ## Auxiliary definitions for the statements -/

/-- The state in which a crossfade step leaves the loop before the test of
line 310. -/
def crossfade_state (tpm : Nat) (s : state_blend_common) (e : environment)
    (new_frame : video_frame) (old_rest new_rest : List video_frame) : state_blend_common :=
  { s with
      display_desc := new_frame.desc
      transition := s.transition + 1
      frames := Function.update (Function.update s.frames s.old_ssrc old_rest)
        s.current_ssrc new_rest
      disabled_ssrc := sweep_disabled tpm e.now s.disabled_ssrc
      prefill := false }

def sample_desc : video_desc := ⟨2, 1, 0, 0, 25⟩

def sample_env : environment := ⟨1000, 1000, 1⟩

/-- Source 2 is active, source 1 fades out, two crossfade steps are done;
the old source has one frame with the byte 0 buffered. -/
def crossfade_sample : state_blend_common :=
  { init_state with
      current_ssrc := 2
      old_ssrc := 1
      transition := 2
      frames := fun k => if k = 1 then [⟨1, sample_desc, [0]⟩] else [] }

/-- Source 1 is active and in the steady state, nothing is buffered. -/
def steady_sample : state_blend_common :=
  { init_state with current_ssrc := 1 }

/-- A frame of source `ssrc` with the single byte `b`. -/
def sample_frame (ssrc b : Nat) : video_frame := ⟨ssrc, sample_desc, [b]⟩

/-- A burst of `n` frames of source `ssrc`, with the bytes `b, b+1, ...`. -/
def burst (ssrc b : Nat) : Nat → List (video_frame × environment)
  | 0 => []
  | n + 1 => (sample_frame ssrc b, sample_env) :: burst ssrc (b + 1) n

/-- The frames `n` successive crossfade steps submit for source `B`, the
transition counter being `t` before the first of them: the `k`-th (from 1) is
the blend, with the weight `t + k`, of the `k`-th frame of the old and the
`k`-th frame of the new list. -/
def crossfade_frames (B : Nat) : Int → List video_frame → List video_frame → Nat →
    List display_frame
  | t, o :: os, n :: ns, k + 1 =>
    ⟨B, blend_data (t + 1) o.data n.data⟩ :: crossfade_frames B (t + 1) os ns k
  | _, _, _, _ => []

/-- Source 1 was moved to `disabled_ssrc` at time 0; source 2 is active. -/
def evicted_sample : state_blend_common :=
  { init_state with
      current_ssrc := 2
      disabled_ssrc := fun k => if k = 1 then some 0 else none }

/-- The environment of an iteration whose two clock readings are `t`. -/
def env_at (t : Int) : environment := ⟨t, t, 1⟩

/-- Source 1 is active with one frame buffered, prefilling is over and
nothing fades. -/
def showing_sample : state_blend_common :=
  { init_state with
      current_ssrc := 1
      frames := fun k => if k = 1 then [sample_frame 1 3] else [] }

def other_desc : video_desc := ⟨4, 2, 0, 0, 25⟩

/-! ## The ingress queue (`display_blend_putf`, lines 339-361, and the dequeue
of `display_blend_run`, lines 175-181)

Both run under `s->lock`, so each call acts atomically on the queue. A call
that waits on a condition variable returns only in a queue state that
satisfies the predicate of the wait; the functions below give `none` for a
queue state in which the call does not return. -/

/-- Modelled from the spec: the flags of `display_put_frame` are declared in
`video_display.h`, which is not among the sources; the spec names the three
admission modes BLOCK, NONBLOCK and DISCARD. -/
inductive putf_flags where
  | PUTF_BLOCKING
  | PUTF_NONBLOCK
  | PUTF_DISCARD
deriving DecidableEq, Repr

/-- The queue `incoming_queue`: front first; `none` is the `NULL` frame. -/
abbrev frame_queue := List (Option video_frame)

/-- The events of `vf_free(frame)` for a frame pointer that may be `NULL`. -/
def vf_free_events : Option video_frame → List event
  | some f => [event.vf_free f]
  | none => [event.vf_free_null]

/-- What a call of `display_blend_putf` that returns leaves behind: the queue,
the value returned and the events. -/
structure putf_result where
  queue : frame_queue
  ret : Int
  events : List event
deriving DecidableEq, Repr

/-- Function `display_blend_putf` (lines 339-361); `none` while the wait of
line 354 does not return, that is while the queue is full. -/
def display_blend_putf (q : frame_queue) (frame : Option video_frame) (flags : putf_flags) :
    Option putf_result :=
  if flags = putf_flags.PUTF_DISCARD then
    some ⟨q, 0, vf_free_events frame⟩
  else
    let log : List event :=
      if q.length ≥ IN_QUEUE_MAX_BUFFER_LEN then [event.fprintf message.QUEUE_FULL] else []
    if flags = putf_flags.PUTF_NONBLOCK ∧ q.length ≥ IN_QUEUE_MAX_BUFFER_LEN then
      some ⟨q, 1, log ++ vf_free_events frame⟩
    else if q.length < IN_QUEUE_MAX_BUFFER_LEN then
      some ⟨q ++ [frame], 0, log⟩
    else
      none

/-- Lines 175-181 of `display_blend_run`: the front frame and the rest of the
queue; `none` while the wait of line 177 does not return, that is while the
queue is empty. -/
def dequeue (q : frame_queue) : Option (Option video_frame × frame_queue) :=
  match q with
  | [] => none
  | frame :: rest => some (frame, rest)

/-- The operations of the producers and of the consumer on the queue. -/
inductive queue_op where
  | push (frame : Option video_frame) (flags : putf_flags)
  | pop
deriving DecidableEq, Repr

/-- The queue together with the record of the frames accepted (a push that
is not in DISCARD mode and returned 0) and of the frames the pops returned,
both in the order of the operations. -/
structure queue_trace where
  queue : frame_queue
  accepted : List (Option video_frame)
  popped : List (Option video_frame)
deriving DecidableEq, Repr

/-- One operation on the queue; an operation that does not return in this
queue state leaves everything as it is. -/
def queue_step (t : queue_trace) : queue_op → queue_trace
  | queue_op.push frame flags =>
    match display_blend_putf t.queue frame flags with
    | none => t
    | some r =>
      { queue := r.queue
        accepted :=
          if flags ≠ putf_flags.PUTF_DISCARD ∧ r.ret = 0 then t.accepted ++ [frame]
          else t.accepted
        popped := t.popped }
  | queue_op.pop =>
    match dequeue t.queue with
    | none => t
    | some (frame, rest) =>
      { queue := rest, accepted := t.accepted, popped := t.popped ++ [frame] }

/-- A sequence of operations, from left to right. -/
def queue_run (t : queue_trace) (ops : List queue_op) : queue_trace :=
  ops.foldl queue_step t

/-- A full queue: five frames of source 1. -/
def full_queue : frame_queue := (burst 1 0 5).map (fun p => some p.1)

/-- An environment in which `display_reconfigure` returns 0 (`FALSE`: the
sink did not accept the descriptor). -/
def failing_env : environment := ⟨1000, 1000, 0⟩

/-! ## Invariants of the loop -/

/-- The fading source, if there is one, is not the active one, and neither of
the two, nor the identifier 0, has an entry in `disabled_ssrc`. -/
def selection_invariant (s : state_blend_common) : Prop :=
  (s.old_ssrc ≠ 0 → s.old_ssrc ≠ s.current_ssrc) ∧
  s.disabled_ssrc s.current_ssrc = none ∧
  s.disabled_ssrc s.old_ssrc = none ∧
  s.disabled_ssrc 0 = none

/-- The transition counter is in `[0, TRANSITION_COUNT)` between iterations
and 0 while no source fades; a source fades only once a source is active. -/
def transition_invariant (s : state_blend_common) : Prop :=
  0 ≤ s.transition ∧ s.transition < TRANSITION_COUNT ∧
  (s.old_ssrc = 0 → s.transition = 0) ∧
  (s.current_ssrc = 0 → s.old_ssrc = 0)

/-- Six frames of source 1 and then six of source 2: source 2 is promoted
while source 1 is shown. -/
def switch_sample : List (video_frame × environment) := burst 1 0 6 ++ burst 2 10 6

/-- Frames alternating between the sources 2 and 3, five in all. -/
def alternating_sample : List (video_frame × environment) :=
  [(sample_frame 2 0, sample_env), (sample_frame 3 1, sample_env),
   (sample_frame 2 2, sample_env), (sample_frame 3 3, sample_env),
   (sample_frame 2 4, sample_env)]

/-- Five frames of source 2, each followed by a frame of source 1. -/
def stray_sample : List (video_frame × environment) :=
  [(sample_frame 2 0, sample_env), (sample_frame 1 1, sample_env),
   (sample_frame 2 2, sample_env), (sample_frame 1 3, sample_env),
   (sample_frame 2 4, sample_env), (sample_frame 1 5, sample_env),
   (sample_frame 2 6, sample_env), (sample_frame 1 7, sample_env),
   (sample_frame 2 8, sample_env), (sample_frame 1 9, sample_env)]

/-- Source 2 is active and prefilling, source 1 fades out with two frames
buffered. -/
def prefill_sample : state_blend_common :=
  { init_state with
      current_ssrc := 2
      old_ssrc := 1
      prefill := true
      frames := fun k => if k = 1 then [sample_frame 1 7, sample_frame 1 8] else [] }

/-- Source 2 is active and prefilling, source 1 fades out with nothing
buffered. -/
def prefill_starved_sample : state_blend_common :=
  { init_state with current_ssrc := 2, old_ssrc := 1, prefill := true }

/-- Source 2 is active, source 1 fades out with nothing buffered, two
crossfade steps are done. -/
def starved_sample : state_blend_common :=
  { init_state with current_ssrc := 2, old_ssrc := 1, transition := 2 }

/-- While prefilling is on, the buffer of the active source holds fewer than
`BUFFER_LEN` frames. -/
def prefill_invariant (s : state_blend_common) : Prop :=
  s.prefill = true → (s.frames s.current_ssrc).length < BUFFER_LEN

/-- Lines 196-222 for a frame whose source is not disabled: the state after
the sweep, the selection of the source, `push_back` and the prefill test. For a
frame that is not debounced this is the state that the test of line 226 and the
output decision see. -/
def buffered_state (ticks_per_ms : Nat) (s : state_blend_common) (frame : video_frame)
    (e : environment) : state_blend_common :=
  buffer_frame (select_source
    { s with disabled_ssrc := sweep_disabled ticks_per_ms e.now s.disabled_ssrc }
    frame.ssrc).1 frame

/-- Six frames of source 1, six of source 2, two more of source 1, which is
fading by then, and five of a third source, which the debounce skips: the next
frame of source 3 promotes it while source 1 fades. -/
def third_source_sample : List (video_frame × environment) :=
  switch_sample ++ burst 1 20 2 ++ burst 3 30 5

/-- Source 1 is shown, source 2 is promoted and prefills while source 1 keeps
sending, three crossfade steps from source 1 to source 2 are done, and five
frames of a third source are debounced: its next frame promotes it while the
transition counter is 3. -/
def interrupted_sample : List (video_frame × environment) :=
  burst 1 0 6 ++ burst 2 100 6 ++ burst 1 10 6 ++ burst 2 106 3 ++ burst 2 109 3 ++
    burst 3 200 5

/-- After `interrupted_sample`: source 3 is promoted, source 2, which fades now,
sends ten more frames, and source 3 prefills up to four buffered frames. -/
def interrupted_prefilled_sample : List (video_frame × environment) :=
  interrupted_sample ++ burst 3 205 1 ++ burst 2 112 10 ++ burst 3 206 3

/-- Source 1 and then source 2 are promoted, four more frames of source 2 end
its prefilling with nothing left of source 1, which is disabled at the time
1000; then source 3 and, while it still prefills, source 4 are promoted, the
promotion of source 4 showing the one buffered frame of source 3. -/
def expiring_sample : List (video_frame × environment) :=
  switch_sample ++ burst 2 16 4 ++ burst 3 30 6 ++ burst 4 40 6

/-- Source 1 is promoted, source 2 is promoted while source 1 still prefills,
source 1 sends 13 more frames while it fades, and three more frames of source 2
bring its buffer to four frames, each showing a frame of source 1: source 2 is
active and still prefilling, source 1 fades with ten frames buffered, and the
next frame of source 2 starts the crossfade. -/
def crossfade_entry_sample : List (video_frame × environment) :=
  burst 1 0 6 ++ burst 2 100 6 ++ burst 1 10 13 ++ burst 2 106 3

/-! ## Lemmas about the code -/

theorem blend_data_length (t : Int) (o n : List Nat) :
    (blend_data t o n).length = n.length := by
  induction n generalizing o with
  | nil => cases o <;> simp [blend_data]
  | cons b ns ih => cases o <;> simp [blend_data, ih]

theorem blend_data_getElem? (t : Int) (o n : List Nat) (i a b : Nat)
    (ha : o[i]? = some a) (hb : n[i]? = some b) :
    (blend_data t o n)[i]? = some (blend_byte t a b) := by
  induction n generalizing o i with
  | nil => simp at hb
  | cons y ns ih =>
    cases o with
    | nil => simp at ha
    | cons x os =>
      cases i with
      | zero =>
        simp at ha hb
        simp [blend_data, ha, hb]
      | succ j =>
        simp at ha hb
        simp [blend_data]
        exact ih os j ha hb

theorem blend_byte_exact (t : Int) (a b : Nat) (h0 : 0 ≤ t) (h1 : t ≤ TRANSITION_COUNT)
    (ha : a < 256) (hb : b < 256) :
    ((blend_byte t a b : Nat) : Int)
      = Int.tdiv ((b : Int) * t + (a : Int) * (TRANSITION_COUNT - t)) TRANSITION_COUNT := by
  unfold blend_byte TRANSITION_COUNT at *
  have hb' : (b : Int) * t ≤ 255 * t := by
    apply mul_le_mul_of_nonneg_right _ h0
    omega
  have ha' : (a : Int) * (10 - t) ≤ 255 * (10 - t) := by
    apply mul_le_mul_of_nonneg_right _ (by omega)
    omega
  have hb0 : 0 ≤ (b : Int) * t := mul_nonneg (by omega) h0
  have ha0 : 0 ≤ (a : Int) * (10 - t) := mul_nonneg (by omega) (by omega)
  generalize (b : Int) * t = X at *
  generalize (a : Int) * (10 - t) = Y at *
  rw [Int.tdiv_eq_ediv (by omega) (by omega)]
  omega

theorem process_frame_active (tpm : Nat) (s : state_blend_common) (frame : video_frame)
    (e : environment) (hnd : s.disabled_ssrc frame.ssrc = none)
    (hcur : frame.ssrc = s.current_ssrc) :
    process_frame tpm s frame e =
      ((finish_transition (output_decision (buffer_frame
          { s with disabled_ssrc := sweep_disabled tpm e.now s.disabled_ssrc } frame)
          e.reconf_ret).1 e.now_end).1,
       (output_decision (buffer_frame
          { s with disabled_ssrc := sweep_disabled tpm e.now s.disabled_ssrc } frame)
          e.reconf_ret).2 ++
       (finish_transition (output_decision (buffer_frame
          { s with disabled_ssrc := sweep_disabled tpm e.now s.disabled_ssrc } frame)
          e.reconf_ret).1 e.now_end).2) := by
  have hb : (buffer_frame { s with disabled_ssrc := sweep_disabled tpm e.now s.disabled_ssrc }
      frame).current_ssrc = s.current_ssrc := by
    unfold buffer_frame
    simp only []
    split <;> rfl
  have hnd2 := hnd
  rw [hcur] at hnd2
  simp [process_frame, hnd2, select_source, hcur, hb]

theorem submitted_append (a b : List event) :
    submitted (a ++ b) = submitted a ++ submitted b := by
  induction a with
  | nil => rfl
  | cons x xs ih =>
    cases x with
    | display_put_frame f => cases f <;> simp [submitted, ih]
    | _ => simp [submitted, ih]

theorem submitted_map_vf_free (l : List video_frame) :
    submitted (l.map event.vf_free) = [] := by
  induction l with
  | nil => rfl
  | cons x xs ih => simpa [submitted] using ih

theorem submitted_check_reconf (s : state_blend_common) (d : video_desc) (r : Int) :
    submitted (check_reconf s d r).2 = [] := by
  unfold check_reconf
  split <;> simp [submitted]

theorem submitted_finish_transition (s : state_blend_common) (n : Int) :
    submitted (finish_transition s n).2 = [] := by
  unfold finish_transition
  split
  · exact submitted_map_vf_free _
  · rfl

theorem check_reconf_fields (s : state_blend_common) (d : video_desc) (r : Int) :
    (check_reconf s d r).1 = { s with display_desc := d } := by
  unfold check_reconf video_desc_eq
  split
  · rfl
  · rename_i h
    simp at h
    cases s
    simp_all

theorem check_reconf_events (s : state_blend_common) (d : video_desc) (r : Int) :
    (check_reconf s d r).2 =
      if video_desc_eq d s.display_desc then []
      else [event.fprintf message.RECONFIGURED, event.display_reconfigure d] := by
  unfold check_reconf
  by_cases h : video_desc_eq d s.display_desc = true <;> simp [h]

theorem buffer_frame_active (s : state_blend_common) (frame : video_frame)
    (hcur : frame.ssrc = s.current_ssrc) :
    buffer_frame s frame =
      { s with
          frames := Function.update s.frames s.current_ssrc (s.frames s.current_ssrc ++ [frame])
          prefill := s.prefill && decide ((s.frames s.current_ssrc).length + 1 < BUFFER_LEN) } := by
  unfold buffer_frame
  dsimp only
  rw [hcur]
  simp only [Function.update_same, List.length_append, List.length_singleton]
  split
  · rename_i h
    have : ¬ ((s.frames s.current_ssrc).length + 1 < BUFFER_LEN) := by omega
    simp [this]
  · rename_i h
    have : (s.frames s.current_ssrc).length + 1 < BUFFER_LEN := by omega
    simp [this]

theorem output_transition_pair (s : state_blend_common) (ret : Int)
    (old_frame new_frame : video_frame) (old_rest new_rest : List video_frame)
    (hne : s.old_ssrc ≠ s.current_ssrc)
    (hO : s.frames s.old_ssrc = old_frame :: old_rest)
    (hN : s.frames s.current_ssrc = new_frame :: new_rest) :
    output_transition s ret =
      ({ s with
          display_desc := new_frame.desc
          transition := s.transition + 1
          frames := Function.update (Function.update s.frames s.old_ssrc old_rest)
            s.current_ssrc new_rest },
       (check_reconf s new_frame.desc ret).2 ++ [event.display_get_frame] ++
         (if video_desc_eq old_frame.desc new_frame.desc then []
          else [event.fprintf message.SMOLIK4]) ++
         [event.vf_free old_frame, event.vf_free new_frame,
          event.display_put_frame (some ⟨s.current_ssrc,
            if video_desc_eq old_frame.desc new_frame.desc then
              blend_data (s.transition + 1) old_frame.data new_frame.data
            else new_frame.data⟩)]) := by
  have hne2 : s.current_ssrc ≠ s.old_ssrc := fun h => hne h.symm
  unfold output_transition advance_transition
  simp only [hO, hN, List.isEmpty_cons, Bool.false_eq_true, if_false,
    Function.update_noteq hne2, check_reconf_fields]
  refine Prod.ext ?_ ?_
  · rfl
  · by_cases h : video_desc_eq old_frame.desc new_frame.desc = true <;>
      simp [h, check_reconf_events]

theorem process_frame_crossfade (tpm : Nat) (s : state_blend_common) (frame : video_frame)
    (e : environment) (old_frame new_frame : video_frame) (old_rest new_rest : List video_frame)
    (hnd : s.disabled_ssrc frame.ssrc = none)
    (hcur : frame.ssrc = s.current_ssrc)
    (hold : s.old_ssrc ≠ 0)
    (hne : s.old_ssrc ≠ s.current_ssrc)
    (hpre : s.prefill = false ∨ BUFFER_LEN ≤ (s.frames s.current_ssrc).length + 1)
    (hO : s.frames s.old_ssrc = old_frame :: old_rest)
    (hN : s.frames s.current_ssrc ++ [frame] = new_frame :: new_rest) :
    process_frame tpm s frame e =
      ((finish_transition (crossfade_state tpm s e new_frame old_rest new_rest) e.now_end).1,
       (check_reconf s new_frame.desc e.reconf_ret).2 ++ [event.display_get_frame] ++
         (if video_desc_eq old_frame.desc new_frame.desc then []
          else [event.fprintf message.SMOLIK4]) ++
         [event.vf_free old_frame, event.vf_free new_frame,
          event.display_put_frame (some ⟨s.current_ssrc,
            if video_desc_eq old_frame.desc new_frame.desc then
              blend_data (s.transition + 1) old_frame.data new_frame.data
            else new_frame.data⟩)] ++
         (finish_transition (crossfade_state tpm s e new_frame old_rest new_rest) e.now_end).2) := by
  have hne2 : s.current_ssrc ≠ s.old_ssrc := fun h => hne h.symm
  have hp : (s.prefill && decide ((s.frames s.current_ssrc).length + 1 < BUFFER_LEN)) = false := by
    rcases hpre with h | h
    · simp [h]
    · have : ¬ ((s.frames s.current_ssrc).length + 1 < BUFFER_LEN) := by omega
      simp [this]
  rw [process_frame_active tpm s frame e hnd hcur,
    buffer_frame_active { s with disabled_ssrc := sweep_disabled tpm e.now s.disabled_ssrc }
      frame hcur]
  simp only [hp]
  unfold output_decision
  simp only [hold, ne_eq, not_false_eq_true, if_true, Bool.false_eq_true, if_false]
  rw [output_transition_pair
    { s with
        frames := Function.update s.frames s.current_ssrc (s.frames s.current_ssrc ++ [frame])
        disabled_ssrc := sweep_disabled tpm e.now s.disabled_ssrc
        prefill := false }
    e.reconf_ret old_frame new_frame old_rest new_rest hne
    (by simp [Function.update_noteq hne, hO]) (by simp [hN])]
  have hfr : Function.update (Function.update (Function.update s.frames s.current_ssrc
      (s.frames s.current_ssrc ++ [frame])) s.old_ssrc old_rest) s.current_ssrc new_rest
      = Function.update (Function.update s.frames s.old_ssrc old_rest) s.current_ssrc new_rest := by
    rw [Function.update_comm hne2, Function.update_idem]
  simp only [hfr, crossfade_state, check_reconf_events]

theorem sweep_disabled_none (tpm : Nat) (now : Int) (d : Nat → Option Int) (k : Nat)
    (h : d k = none) : sweep_disabled tpm now d k = none := by
  simp [sweep_disabled, h]

theorem process_frame_skip (tpm : Nat) (s : state_blend_common) (frame : video_frame)
    (e : environment) (hnd : s.disabled_ssrc frame.ssrc = none)
    (hc : frame.ssrc ≠ s.current_ssrc) (ho : frame.ssrc ≠ s.old_ssrc)
    (hsk : s.skipped < SKIP_FIRST_N_FRAMES_IN_STREAM) :
    process_frame tpm s frame e =
      ({ s with
          disabled_ssrc := sweep_disabled tpm e.now s.disabled_ssrc
          skipped := s.skipped + 1 }, []) := by
  have hsk2 : ¬ (SKIP_FIRST_N_FRAMES_IN_STREAM ≤ s.skipped) := by omega
  simp [process_frame, hnd, select_source, hc, ho, hsk2]

theorem process_frame_promote (tpm : Nat) (s : state_blend_common) (frame : video_frame)
    (e : environment) (hnd : s.disabled_ssrc frame.ssrc = none)
    (hc : frame.ssrc ≠ s.current_ssrc) (ho : frame.ssrc ≠ s.old_ssrc)
    (hsk : SKIP_FIRST_N_FRAMES_IN_STREAM ≤ s.skipped) :
    process_frame tpm s frame e =
      ((finish_transition (output_decision (buffer_frame
          { s with
              disabled_ssrc := sweep_disabled tpm e.now s.disabled_ssrc
              old_ssrc := s.current_ssrc
              current_ssrc := frame.ssrc
              prefill := true
              skipped := 0 } frame) e.reconf_ret).1 e.now_end).1,
       (output_decision (buffer_frame
          { s with
              disabled_ssrc := sweep_disabled tpm e.now s.disabled_ssrc
              old_ssrc := s.current_ssrc
              current_ssrc := frame.ssrc
              prefill := true
              skipped := 0 } frame) e.reconf_ret).2 ++
       (finish_transition (output_decision (buffer_frame
          { s with
              disabled_ssrc := sweep_disabled tpm e.now s.disabled_ssrc
              old_ssrc := s.current_ssrc
              current_ssrc := frame.ssrc
              prefill := true
              skipped := 0 } frame) e.reconf_ret).1 e.now_end).2) := by
  have hb : (buffer_frame
      { s with
          disabled_ssrc := sweep_disabled tpm e.now s.disabled_ssrc
          old_ssrc := s.current_ssrc
          current_ssrc := frame.ssrc
          prefill := true
          skipped := 0 } frame).current_ssrc = frame.ssrc := by
    unfold buffer_frame
    simp only []
    split <;> rfl
  simp [process_frame, hnd, select_source, hc, ho, hsk, hb]

/-- Promotion of a source with an empty buffer: the state after the whole
iteration, provided the transition counter is below `TRANSITION_COUNT`. -/
theorem process_frame_promote_fresh (tpm : Nat) (s : state_blend_common) (frame : video_frame)
    (e : environment) (hnd : s.disabled_ssrc frame.ssrc = none)
    (hc : frame.ssrc ≠ s.current_ssrc) (ho : frame.ssrc ≠ s.old_ssrc)
    (hsk : SKIP_FIRST_N_FRAMES_IN_STREAM ≤ s.skipped)
    (hbuf : s.frames frame.ssrc = []) (htr : s.transition < TRANSITION_COUNT) :
    (process_frame tpm s frame e).1.current_ssrc = frame.ssrc ∧
    (process_frame tpm s frame e).1.old_ssrc = s.current_ssrc ∧
    (process_frame tpm s frame e).1.frames frame.ssrc = [frame] ∧
    (process_frame tpm s frame e).1.skipped = 0 ∧
    (process_frame tpm s frame e).1.prefill = true ∧
    (process_frame tpm s frame e).1.transition = s.transition := by
  have htr2 : ¬ (TRANSITION_COUNT ≤ s.transition) := by omega
  rw [process_frame_promote tpm s frame e hnd hc ho hsk]
  have hbf : buffer_frame
      { s with
          disabled_ssrc := sweep_disabled tpm e.now s.disabled_ssrc
          old_ssrc := s.current_ssrc
          current_ssrc := frame.ssrc
          prefill := true
          skipped := 0 } frame =
      { s with
          disabled_ssrc := sweep_disabled tpm e.now s.disabled_ssrc
          old_ssrc := s.current_ssrc
          current_ssrc := frame.ssrc
          prefill := true
          skipped := 0
          frames := Function.update s.frames frame.ssrc [frame] } := by
    simp [buffer_frame, hbuf, BUFFER_LEN]
  rw [hbf]
  unfold output_decision
  by_cases h0 : s.current_ssrc = 0
  · simp [h0, output_steady, finish_transition]
  · simp only [ne_eq, h0, not_false_eq_true, if_true]
    unfold output_prefill
    simp only [Function.update_noteq (Ne.symm hc)]
    cases hA : s.frames s.current_ssrc with
    | nil => simp [finish_transition, htr2]
    | cons x xs =>
      simp [put_copy, check_reconf_fields, finish_transition, htr2,
        Function.update_noteq hc]

/-- A burst of frames of one new source, as long as the debounce counter
stays within `SKIP_FIRST_N_FRAMES_IN_STREAM`: every frame is skipped. -/
theorem run_frames_skip (tpm : Nat) (B : Nat) (fs : List (video_frame × environment)) :
    ∀ s : state_blend_common, (∀ p ∈ fs, p.1.ssrc = B) →
      B ≠ s.current_ssrc → B ≠ s.old_ssrc → s.disabled_ssrc B = none →
      s.skipped + fs.length ≤ SKIP_FIRST_N_FRAMES_IN_STREAM →
      (run_frames tpm s fs).1.current_ssrc = s.current_ssrc ∧
      (run_frames tpm s fs).1.old_ssrc = s.old_ssrc ∧
      (run_frames tpm s fs).1.frames = s.frames ∧
      (run_frames tpm s fs).1.transition = s.transition ∧
      (run_frames tpm s fs).1.prefill = s.prefill ∧
      (run_frames tpm s fs).1.display_desc = s.display_desc ∧
      (run_frames tpm s fs).1.skipped = s.skipped + fs.length ∧
      (run_frames tpm s fs).1.disabled_ssrc B = none ∧
      (run_frames tpm s fs).2 = [] := by
  induction fs with
  | nil => intro s _ _ _ hd _; simp [run_frames, hd]
  | cons p rest ih =>
    intro s hfs hc ho hd hlen
    obtain ⟨frame, e⟩ := p
    have hB : frame.ssrc = B := hfs (frame, e) (List.mem_cons_self _ _)
    have hrest : ∀ q ∈ rest, q.1.ssrc = B := fun q hq => hfs q (List.mem_cons_of_mem _ hq)
    simp only [List.length_cons, Nat.cast_add, Nat.cast_one] at hlen
    have hstep := process_frame_skip tpm s frame e (by rw [hB]; exact hd)
      (by rw [hB]; exact hc) (by rw [hB]; exact ho) (by omega)
    have := ih (process_frame tpm s frame e).1 hrest (by rw [hstep]; exact hc)
      (by rw [hstep]; exact ho) (by rw [hstep]; exact sweep_disabled_none _ _ _ _ hd)
      (by rw [hstep]; simp only []; omega)
    simp only [run_frames]
    rw [hstep] at this ⊢
    simp only [List.nil_append, List.length_cons, Nat.cast_add, Nat.cast_one]
    obtain ⟨h1, h2, h3, h4, h5, h6, h7, h8, h9⟩ := this
    refine ⟨h1, h2, h3, h4, h5, h6, ?_, h8, h9⟩
    rw [h7]; ring

theorem run_frames_append (tpm : Nat) (a b : List (video_frame × environment)) :
    ∀ s : state_blend_common,
      run_frames tpm s (a ++ b) =
        ((run_frames tpm (run_frames tpm s a).1 b).1,
         (run_frames tpm s a).2 ++ (run_frames tpm (run_frames tpm s a).1 b).2) := by
  induction a with
  | nil => intro s; simp [run_frames]
  | cons p rest ih =>
    intro s
    obtain ⟨frame, e⟩ := p
    have h := ih (process_frame tpm s frame e).1
    show run_frames tpm s ((frame, e) :: (rest ++ b)) = _
    simp only [run_frames, List.append_assoc]
    rw [h]

/-- A frame of the active source with no fading source, once prefilling is
over: the front of the buffer is copied out. -/
theorem process_frame_steady (tpm : Nat) (s : state_blend_common) (frame : video_frame)
    (e : environment) (front : video_frame) (rest : List video_frame)
    (hnd : s.disabled_ssrc frame.ssrc = none)
    (hcur : frame.ssrc = s.current_ssrc)
    (hold : s.old_ssrc = 0)
    (hpre : s.prefill = false ∨ BUFFER_LEN ≤ (s.frames s.current_ssrc).length + 1)
    (hq : s.frames s.current_ssrc ++ [frame] = front :: rest) :
    process_frame tpm s frame e =
      ({ s with
          display_desc := front.desc
          frames := Function.update s.frames s.current_ssrc rest
          disabled_ssrc := sweep_disabled tpm e.now s.disabled_ssrc
          prefill := false },
       (check_reconf s front.desc e.reconf_ret).2 ++
         [event.display_get_frame, event.vf_free front,
          event.display_put_frame (some (copy_of s.current_ssrc front))]) := by
  have hp : (s.prefill && decide ((s.frames s.current_ssrc).length + 1 < BUFFER_LEN)) = false := by
    rcases hpre with h | h
    · simp [h]
    · have : ¬ ((s.frames s.current_ssrc).length + 1 < BUFFER_LEN) := by omega
      simp [this]
  rw [process_frame_active tpm s frame e hnd hcur,
    buffer_frame_active { s with disabled_ssrc := sweep_disabled tpm e.now s.disabled_ssrc }
      frame hcur]
  simp only [hp]
  unfold output_decision output_steady
  simp only [hold, ne_eq, not_true_eq_false, if_false, Bool.not_false, if_true,
    Function.update_same, hq]
  simp [put_copy, check_reconf_fields, check_reconf_events, finish_transition, hold, copy_of]

/-- A frame of the active source with no fading source while prefilling goes
on: the frame is buffered and nothing else happens. -/
theorem process_frame_prefilling (tpm : Nat) (s : state_blend_common) (frame : video_frame)
    (e : environment)
    (hnd : s.disabled_ssrc frame.ssrc = none)
    (hcur : frame.ssrc = s.current_ssrc)
    (hold : s.old_ssrc = 0)
    (hpre : s.prefill = true)
    (hlen : (s.frames s.current_ssrc).length + 1 < BUFFER_LEN) :
    process_frame tpm s frame e =
      ({ s with
          frames := Function.update s.frames s.current_ssrc (s.frames s.current_ssrc ++ [frame])
          disabled_ssrc := sweep_disabled tpm e.now s.disabled_ssrc }, []) := by
  rw [process_frame_active tpm s frame e hnd hcur,
    buffer_frame_active { s with disabled_ssrc := sweep_disabled tpm e.now s.disabled_ssrc }
      frame hcur]
  simp only [hpre, hlen, decide_True, Bool.and_self]
  unfold output_decision output_steady
  simp [hold, finish_transition]

/-- Frames of the active source only, no fading source, prefilling over: the
submissions are the copies of the first frames of the buffer followed by the
arrivals, one per arrival. -/
theorem run_frames_steady (tpm : Nat) (A : Nat) (fs : List (video_frame × environment)) :
    ∀ s : state_blend_common, (∀ p ∈ fs, p.1.ssrc = A) →
      s.current_ssrc = A → s.old_ssrc = 0 → s.disabled_ssrc A = none → s.prefill = false →
      submitted (run_frames tpm s fs).2 =
        ((s.frames A ++ fs.map Prod.fst).take fs.length).map (copy_of A) ∧
      (run_frames tpm s fs).1.frames A = (s.frames A ++ fs.map Prod.fst).drop fs.length := by
  induction fs with
  | nil => intro s _ _ _ _ _; simp [run_frames, submitted]
  | cons p tl ih =>
    intro s hfs hA hold hd hpre
    subst hA
    obtain ⟨frame, e⟩ := p
    have hB : frame.ssrc = s.current_ssrc := hfs (frame, e) (List.mem_cons_self _ _)
    have htl : ∀ q ∈ tl, q.1.ssrc = s.current_ssrc :=
      fun q hq => hfs q (List.mem_cons_of_mem _ hq)
    obtain ⟨front, rest, hq⟩ :
        ∃ front rest, s.frames s.current_ssrc ++ [frame] = front :: rest := by
      cases s.frames s.current_ssrc with
      | nil => exact ⟨frame, [], rfl⟩
      | cons x xs => exact ⟨x, xs ++ [frame], rfl⟩
    have hstep := process_frame_steady tpm s frame e front rest (by rw [hB]; exact hd)
      hB hold (Or.inl hpre) hq
    have h := ih (process_frame tpm s frame e).1 htl (by rw [hstep])
      (by rw [hstep]; exact hold) (by rw [hstep]; exact sweep_disabled_none _ _ _ _ hd)
      (by rw [hstep])
    simp only [run_frames, submitted_append]
    rw [hstep] at h ⊢
    simp only [Function.update_same] at h
    have hall : s.frames s.current_ssrc ++ (frame :: tl.map Prod.fst)
        = front :: (rest ++ tl.map Prod.fst) := by
      rw [← List.cons_append, ← hq]; simp
    simp only [List.map_cons, List.length_cons, hall, List.take_succ_cons, List.drop_succ_cons,
      submitted_append, submitted_check_reconf, submitted, List.nil_append]
    exact ⟨by rw [h.1]; rfl, h.2⟩

/-- Frames of the active source only, no fading source, prefilling on with
fewer than `BUFFER_LEN` frames buffered: the arrivals that bring the buffer to
`BUFFER_LEN - 1` frames submit nothing, every later one submits one copy. -/
theorem run_frames_prefill (tpm : Nat) (A : Nat) (fs : List (video_frame × environment)) :
    ∀ s : state_blend_common, (∀ p ∈ fs, p.1.ssrc = A) →
      s.current_ssrc = A → s.old_ssrc = 0 → s.disabled_ssrc A = none → s.prefill = true →
      (s.frames A).length < BUFFER_LEN →
      submitted (run_frames tpm s fs).2 =
        ((s.frames A ++ fs.map Prod.fst).take
          (fs.length - (BUFFER_LEN - 1 - (s.frames A).length))).map (copy_of A) := by
  induction fs with
  | nil => intro s _ _ _ _ _ _; simp [run_frames, submitted]
  | cons p tl ih =>
    intro s hfs hA hold hd hpre hlen
    subst hA
    obtain ⟨frame, e⟩ := p
    have hB : frame.ssrc = s.current_ssrc := hfs (frame, e) (List.mem_cons_self _ _)
    have htl : ∀ q ∈ tl, q.1.ssrc = s.current_ssrc :=
      fun q hq => hfs q (List.mem_cons_of_mem _ hq)
    unfold BUFFER_LEN at hlen ⊢
    by_cases hfull : (s.frames s.current_ssrc).length + 1 < 5
    · have hstep := process_frame_prefilling tpm s frame e (by rw [hB]; exact hd)
        hB hold hpre hfull
      have h := ih (process_frame tpm s frame e).1 htl (by rw [hstep])
        (by rw [hstep]; exact hold) (by rw [hstep]; exact sweep_disabled_none _ _ _ _ hd)
        (by rw [hstep]; exact hpre)
        (by rw [hstep]; simp only [Function.update_same, List.length_append,
              List.length_singleton]; exact hfull)
      simp only [run_frames, submitted_append]
      rw [hstep] at h ⊢
      simp only [Function.update_same, List.length_append, List.length_singleton,
        List.append_assoc, List.singleton_append, BUFFER_LEN] at h
      simp only [submitted, List.nil_append, h, List.map_cons, List.length_cons]
      congr 2
      omega
    · obtain ⟨front, rest, hq⟩ :
          ∃ front rest, s.frames s.current_ssrc ++ [frame] = front :: rest := by
        cases s.frames s.current_ssrc with
        | nil => exact ⟨frame, [], rfl⟩
        | cons x xs => exact ⟨x, xs ++ [frame], rfl⟩
      have hstep := process_frame_steady tpm s frame e front rest (by rw [hB]; exact hd)
        hB hold (Or.inr (by unfold BUFFER_LEN; omega)) hq
      have h := (run_frames_steady tpm s.current_ssrc tl (process_frame tpm s frame e).1 htl
        (by rw [hstep]) (by rw [hstep]; exact hold)
        (by rw [hstep]; exact sweep_disabled_none _ _ _ _ hd) (by rw [hstep])).1
      simp only [run_frames, submitted_append]
      rw [hstep] at h ⊢
      simp only [Function.update_same] at h
      have hall : s.frames s.current_ssrc ++ (frame :: tl.map Prod.fst)
          = front :: (rest ++ tl.map Prod.fst) := by
        rw [← List.cons_append, ← hq]; simp
      have hn : (tl.length + 1) - (5 - 1 - (s.frames s.current_ssrc).length)
          = tl.length + 1 := by omega
      simp only [List.map_cons, List.length_cons, hall, hn, List.take_succ_cons,
        submitted_append, submitted_check_reconf, submitted, List.nil_append]
      rw [h]; rfl

/-- Promotion from the idle state (no active source) of a source with an
empty buffer. -/
theorem process_frame_promote_idle (tpm : Nat) (s : state_blend_common) (frame : video_frame)
    (e : environment) (hnd : s.disabled_ssrc frame.ssrc = none)
    (hc : s.current_ssrc = 0) (hf : frame.ssrc ≠ 0) (ho : frame.ssrc ≠ s.old_ssrc)
    (hsk : SKIP_FIRST_N_FRAMES_IN_STREAM ≤ s.skipped)
    (hbuf : s.frames frame.ssrc = []) :
    process_frame tpm s frame e =
      ({ s with
          disabled_ssrc := sweep_disabled tpm e.now s.disabled_ssrc
          old_ssrc := 0
          current_ssrc := frame.ssrc
          prefill := true
          skipped := 0
          frames := Function.update s.frames frame.ssrc [frame] }, []) := by
  rw [process_frame_promote tpm s frame e hnd (by rw [hc]; exact hf) ho hsk]
  simp [buffer_frame, hbuf, BUFFER_LEN, hc, output_decision, output_steady, finish_transition]

theorem finish_transition_not_yet (s : state_blend_common) (now_end : Int)
    (h : s.transition < TRANSITION_COUNT) : finish_transition s now_end = (s, []) := by
  have h2 : ¬ (TRANSITION_COUNT ≤ s.transition) := by omega
  simp [finish_transition, h2]

theorem finish_transition_done (s : state_blend_common) (now_end : Int)
    (h0 : s.old_ssrc ≠ 0) (h : TRANSITION_COUNT ≤ s.transition) :
    finish_transition s now_end =
      ({ s with
          frames := Function.update s.frames s.old_ssrc []
          disabled_ssrc := Function.update s.disabled_ssrc s.old_ssrc (some now_end)
          old_ssrc := 0
          transition := 0 },
        (s.frames s.old_ssrc).map event.vf_free) := by
  simp [finish_transition, h0, h]

theorem crossfade_frames_length (B : Nat) (k : Nat) :
    ∀ (t : Int) (os ns : List video_frame), k ≤ os.length → k ≤ ns.length →
      (crossfade_frames B t os ns k).length = k := by
  induction k with
  | zero => intro t os ns _ _; cases os <;> cases ns <;> simp [crossfade_frames]
  | succ k ih =>
    intro t os ns ho hn
    cases os with
    | nil => simp at ho
    | cons o os =>
      cases ns with
      | nil => simp at hn
      | cons n ns =>
        simp only [List.length_cons] at ho hn
        simp [crossfade_frames, ih (t + 1) os ns (by omega) (by omega)]

theorem crossfade_frames_getElem? (B : Nat) (k : Nat) :
    ∀ (t : Int) (os ns : List video_frame) (i : Nat) (o n : video_frame), i < k →
      os[i]? = some o → ns[i]? = some n →
      (crossfade_frames B t os ns k)[i]? =
        some ⟨B, blend_data (t + ((i : Int) + 1)) o.data n.data⟩ := by
  induction k with
  | zero => intro t os ns i o n hi; omega
  | succ k ih =>
    intro t os ns i o n hi ho hn
    cases os with
    | nil => simp at ho
    | cons o1 os =>
      cases ns with
      | nil => simp at hn
      | cons n1 ns =>
        cases i with
        | zero =>
          simp at ho hn
          simp [crossfade_frames, ho, hn]
        | succ j =>
          simp at ho hn
          simp only [crossfade_frames, List.getElem?_cons_succ]
          rw [ih (t + 1) os ns j o n (by omega) ho hn]
          simp only [Nat.cast_add, Nat.cast_one]
          congr 3
          ring

/-- Crossfade steps that do not yet complete the transition. -/
theorem run_frames_crossfade (tpm : Nat) (A B : Nat) (d : video_desc)
    (fs : List (video_frame × environment)) :
    ∀ (s : state_blend_common) (oldl newl : List video_frame),
      (∀ p ∈ fs, p.1.ssrc = B ∧ p.1.desc = d) →
      s.current_ssrc = B → s.old_ssrc = A → A ≠ 0 → A ≠ B → s.prefill = false →
      s.disabled_ssrc B = none → s.frames A = oldl → s.frames B = newl →
      (∀ f ∈ oldl, f.desc = d) → (∀ f ∈ newl, f.desc = d) →
      fs.length ≤ oldl.length → s.transition + fs.length < TRANSITION_COUNT →
      (run_frames tpm s fs).1.current_ssrc = B ∧
      (run_frames tpm s fs).1.old_ssrc = A ∧
      (run_frames tpm s fs).1.prefill = false ∧
      (run_frames tpm s fs).1.disabled_ssrc B = none ∧
      (run_frames tpm s fs).1.frames A = oldl.drop fs.length ∧
      (run_frames tpm s fs).1.frames B = (newl ++ fs.map Prod.fst).drop fs.length ∧
      (run_frames tpm s fs).1.transition = s.transition + fs.length ∧
      submitted (run_frames tpm s fs).2 =
        crossfade_frames B s.transition oldl (newl ++ fs.map Prod.fst) fs.length := by
  induction fs with
  | nil =>
    intro s oldl newl _ hB hA _ _ hp hd hO hN _ _ _ _
    simp only [run_frames, List.length_nil, List.drop_zero, List.map_nil, List.append_nil,
      Nat.cast_zero, add_zero, submitted]
    refine ⟨hB, hA, hp, hd, hO, hN, trivial, ?_⟩
    cases oldl <;> cases newl <;> simp [crossfade_frames]
  | cons p tl ih =>
    intro s oldl newl hfs hB hA hA0 hAB hp hd hO hN hdo hdn hlen htr
    subst hB
    subst hA
    obtain ⟨frame, e⟩ := p
    have hF := hfs (frame, e) (List.mem_cons_self _ _)
    have htl : ∀ q ∈ tl, q.1.ssrc = s.current_ssrc ∧ q.1.desc = d :=
      fun q hq => hfs q (List.mem_cons_of_mem _ hq)
    simp only [List.length_cons, Nat.cast_add, Nat.cast_one] at hlen htr
    obtain ⟨old_frame, old_rest, hO2⟩ : ∃ a b, oldl = a :: b := by
      cases oldl with
      | nil => simp at hlen
      | cons a b => exact ⟨a, b, rfl⟩
    obtain ⟨new_frame, new_rest, hN2⟩ : ∃ a b, newl ++ [frame] = a :: b := by
      cases newl with
      | nil => exact ⟨frame, [], rfl⟩
      | cons x xs => exact ⟨x, xs ++ [frame], rfl⟩
    have hdesc_o : old_frame.desc = d := hdo old_frame (by rw [hO2]; exact List.mem_cons_self _ _)
    have hdn2 : ∀ f ∈ newl ++ [frame], f.desc = d := by
      intro f hf
      rcases List.mem_append.1 hf with h | h
      · exact hdn f h
      · rw [List.mem_singleton.1 h]; exact hF.2
    have hdesc_n : new_frame.desc = d :=
      hdn2 new_frame (by rw [hN2]; exact List.mem_cons_self _ _)
    have heq : video_desc_eq old_frame.desc new_frame.desc = true := by
      simp [video_desc_eq, hdesc_o, hdesc_n]
    have hstep := process_frame_crossfade tpm s frame e old_frame new_frame old_rest new_rest
      (by rw [hF.1]; exact hd) hF.1 hA0 hAB (Or.inl hp) (by rw [hO, hO2])
      (by rw [hN]; exact hN2)
    rw [finish_transition_not_yet _ _ (by simp only [crossfade_state]; omega)] at hstep
    have h := ih (process_frame tpm s frame e).1 old_rest new_rest htl
      (by rw [hstep]; rfl) (by rw [hstep]; rfl) hA0 hAB (by rw [hstep]; rfl)
      (by rw [hstep]; exact sweep_disabled_none _ _ _ _ hd)
      (by rw [hstep]; simp [crossfade_state, Function.update_noteq hAB])
      (by rw [hstep]; simp [crossfade_state])
      (fun f hf => hdo f (by rw [hO2]; exact List.mem_cons_of_mem _ hf))
      (fun f hf => hdn2 f (by rw [hN2]; exact List.mem_cons_of_mem _ hf))
      (by rw [hO2] at hlen; simp only [List.length_cons] at hlen; omega)
      (by rw [hstep]; simp only [crossfade_state]; omega)
    obtain ⟨h1, h2, h3, h4, h5, h6, h7, h8⟩ := h
    have hall : newl ++ (frame :: tl.map Prod.fst) = new_frame :: (new_rest ++ tl.map Prod.fst) := by
      rw [← List.cons_append, ← hN2]; simp
    simp only [run_frames, List.map_cons, List.length_cons, hall, hO2, List.drop_succ_cons,
      submitted_append, Nat.cast_add, Nat.cast_one]
    refine ⟨h1, h2, h3, h4, h5, h6, ?_, ?_⟩
    · rw [h7, hstep]; simp only [crossfade_state]; ring
    · rw [h8, hstep]
      simp [submitted_append, submitted_check_reconf, submitted, heq, crossfade_state,
        crossfade_frames]

theorem crossfade_frames_zero (B : Nat) (t : Int) (os ns : List video_frame) :
    crossfade_frames B t os ns 0 = [] := by
  cases os <;> cases ns <;> simp [crossfade_frames]

/-- Crossfade steps up to and including the one that completes the
transition. -/
theorem run_frames_crossfade_complete (tpm : Nat) (A B : Nat) (d : video_desc)
    (fs : List (video_frame × environment)) :
    ∀ (s : state_blend_common) (oldl newl : List video_frame),
      (∀ p ∈ fs, p.1.ssrc = B ∧ p.1.desc = d) →
      s.current_ssrc = B → s.old_ssrc = A → A ≠ 0 → A ≠ B → s.prefill = false →
      s.disabled_ssrc B = none → s.frames A = oldl → s.frames B = newl →
      (∀ f ∈ oldl, f.desc = d) → (∀ f ∈ newl, f.desc = d) →
      fs.length ≤ oldl.length → fs ≠ [] → s.transition + fs.length = TRANSITION_COUNT →
      (run_frames tpm s fs).1.current_ssrc = B ∧
      (run_frames tpm s fs).1.old_ssrc = 0 ∧
      (run_frames tpm s fs).1.transition = 0 ∧
      ((run_frames tpm s fs).1.disabled_ssrc A).isSome = true ∧
      (run_frames tpm s fs).1.frames A = [] ∧
      submitted (run_frames tpm s fs).2 =
        crossfade_frames B s.transition oldl (newl ++ fs.map Prod.fst) fs.length := by
  induction fs with
  | nil => intro s oldl newl _ _ _ _ _ _ _ _ _ _ _ _ hne; exact absurd rfl hne
  | cons p tl ih =>
    intro s oldl newl hfs hB hA hA0 hAB hp hd hO hN hdo hdn hlen _ htr
    subst hB
    subst hA
    obtain ⟨frame, e⟩ := p
    have hF := hfs (frame, e) (List.mem_cons_self _ _)
    have htl : ∀ q ∈ tl, q.1.ssrc = s.current_ssrc ∧ q.1.desc = d :=
      fun q hq => hfs q (List.mem_cons_of_mem _ hq)
    simp only [List.length_cons, Nat.cast_add, Nat.cast_one] at hlen htr
    obtain ⟨old_frame, old_rest, hO2⟩ : ∃ a b, oldl = a :: b := by
      cases oldl with
      | nil => simp at hlen
      | cons a b => exact ⟨a, b, rfl⟩
    obtain ⟨new_frame, new_rest, hN2⟩ : ∃ a b, newl ++ [frame] = a :: b := by
      cases newl with
      | nil => exact ⟨frame, [], rfl⟩
      | cons x xs => exact ⟨x, xs ++ [frame], rfl⟩
    have hdesc_o : old_frame.desc = d := hdo old_frame (by rw [hO2]; exact List.mem_cons_self _ _)
    have hdn2 : ∀ f ∈ newl ++ [frame], f.desc = d := by
      intro f hf
      rcases List.mem_append.1 hf with h | h
      · exact hdn f h
      · rw [List.mem_singleton.1 h]; exact hF.2
    have hdesc_n : new_frame.desc = d :=
      hdn2 new_frame (by rw [hN2]; exact List.mem_cons_self _ _)
    have heq : video_desc_eq old_frame.desc new_frame.desc = true := by
      simp [video_desc_eq, hdesc_o, hdesc_n]
    have hstep := process_frame_crossfade tpm s frame e old_frame new_frame old_rest new_rest
      (by rw [hF.1]; exact hd) hF.1 hA0 hAB (Or.inl hp) (by rw [hO, hO2])
      (by rw [hN]; exact hN2)
    have hall : newl ++ (frame :: tl.map Prod.fst) = new_frame :: (new_rest ++ tl.map Prod.fst) := by
      rw [← List.cons_append, ← hN2]; simp
    cases tl with
    | nil =>
      simp only [List.length_nil, Nat.cast_zero, zero_add] at htr
      rw [finish_transition_done _ _ (by simpa [crossfade_state] using hA0)
        (by simp only [crossfade_state]; omega)] at hstep
      simp only [run_frames, List.append_nil]
      rw [hstep]
      simp [crossfade_state, submitted_append, submitted_check_reconf, submitted_map_vf_free,
        submitted, heq, hO2, hN2, crossfade_frames, crossfade_frames_zero]
    | cons q tl2 =>
      simp only [List.length_cons, Nat.cast_add, Nat.cast_one] at htr
      rw [finish_transition_not_yet _ _ (by simp only [crossfade_state]; omega)] at hstep
      have h := ih (process_frame tpm s frame e).1 old_rest new_rest htl
        (by rw [hstep]; rfl) (by rw [hstep]; rfl) hA0 hAB (by rw [hstep]; rfl)
        (by rw [hstep]; exact sweep_disabled_none _ _ _ _ hd)
        (by rw [hstep]; simp [crossfade_state, Function.update_noteq hAB])
        (by rw [hstep]; simp [crossfade_state])
        (fun f hf => hdo f (by rw [hO2]; exact List.mem_cons_of_mem _ hf))
        (fun f hf => hdn2 f (by rw [hN2]; exact List.mem_cons_of_mem _ hf))
        (by rw [hO2] at hlen; simp only [List.length_cons] at hlen ⊢; omega)
        (List.cons_ne_nil _ _)
        (by rw [hstep]; simp only [crossfade_state, List.length_cons, Nat.cast_add,
              Nat.cast_one]; omega)
      obtain ⟨h1, h2, h3, h4, h5, h8⟩ := h
      rw [run_frames]
      simp only [hall, hO2, submitted_append]
      refine ⟨h1, h2, h3, h4, h5, ?_⟩
      rw [h8, hstep]
      simp only [submitted_append, submitted_check_reconf, submitted, heq, crossfade_state,
        if_true, List.nil_append, List.append_nil, List.length_cons]
      show _ = crossfade_frames _ _ _ (newl ++ frame :: List.map Prod.fst (q :: tl2)) _
      rw [hall]
      rfl

/-! ### Ages and the sweep -/

theorem age_within (tpm : Nat) (now T : Int) (hp : 0 < tpm)
    (h : now ≤ T + (SOURCE_TIMEOUT - 1) * tpm) :
    ¬ (Int.tdiv (now - T) tpm > SOURCE_TIMEOUT) := by
  have hp2 : (0 : Int) < (tpm : Int) := by exact_mod_cast hp
  unfold SOURCE_TIMEOUT at *
  rcases lt_or_le (now - T) 0 with hneg | hpos
  · have h1 : 0 ≤ Int.tdiv (-(now - T)) tpm := Int.tdiv_nonneg (by omega) (by omega)
    rw [Int.neg_tdiv] at h1
    omega
  · rw [Int.tdiv_eq_ediv hpos (by omega)]
    have : (now - T) / (tpm : Int) ≤ 500 - 1 :=
      Int.ediv_le_of_le_mul hp2 (by linarith)
    omega

theorem age_exceeds (tpm : Nat) (now T : Int) (hp : 0 < tpm)
    (h : T + (SOURCE_TIMEOUT + 1) * tpm ≤ now) :
    Int.tdiv (now - T) tpm > SOURCE_TIMEOUT := by
  have hp2 : (0 : Int) < (tpm : Int) := by exact_mod_cast hp
  unfold SOURCE_TIMEOUT at *
  have hpos : 0 ≤ now - T := by
    have : 0 ≤ (500 + 1) * (tpm : Int) := by positivity
    linarith
  rw [Int.tdiv_eq_ediv hpos (by omega)]
  have : 500 + 1 ≤ (now - T) / (tpm : Int) :=
    Int.le_ediv_of_mul_le hp2 (by linarith)
  omega

theorem sweep_disabled_keep (tpm : Nat) (now T : Int) (d : Nat → Option Int) (k : Nat)
    (h : d k = some T) (hage : ¬ (Int.tdiv (now - T) tpm > SOURCE_TIMEOUT)) :
    sweep_disabled tpm now d k = some T := by
  simp only [sweep_disabled, h]
  rw [if_neg hage]

theorem sweep_disabled_expire (tpm : Nat) (now T : Int) (d : Nat → Option Int) (k : Nat)
    (h : d k = some T) (hage : Int.tdiv (now - T) tpm > SOURCE_TIMEOUT) :
    sweep_disabled tpm now d k = none := by
  simp only [sweep_disabled, h]
  rw [if_pos hage]

/-- An entry the sweep leaves in the map has kept its time stamp. -/
theorem sweep_disabled_some (tpm : Nat) (now t : Int) (d : Nat → Option Int) (k : Nat)
    (h : sweep_disabled tpm now d k = some t) : d k = some t := by
  unfold sweep_disabled at h
  cases hk : d k with
  | none => simp [hk] at h
  | some u =>
    simp only [hk] at h
    split at h
    · simp at h
    · exact h

/-! ### What the stages of an iteration leave alone -/

theorem check_reconf_same (s : state_blend_common) (d : video_desc) (r : Int) :
    (check_reconf s d r).1.current_ssrc = s.current_ssrc ∧
    (check_reconf s d r).1.old_ssrc = s.old_ssrc ∧
    (check_reconf s d r).1.disabled_ssrc = s.disabled_ssrc ∧
    (check_reconf s d r).1.prefill = s.prefill ∧
    (check_reconf s d r).1.skipped = s.skipped ∧
    (check_reconf s d r).1.transition = s.transition ∧
    (check_reconf s d r).1.frames = s.frames := by
  rw [check_reconf_fields]
  exact ⟨rfl, rfl, rfl, rfl, rfl, rfl, rfl⟩

theorem output_decision_same (s : state_blend_common) (r : Int) :
    (output_decision s r).1.current_ssrc = s.current_ssrc ∧
    (output_decision s r).1.old_ssrc = s.old_ssrc ∧
    (output_decision s r).1.disabled_ssrc = s.disabled_ssrc ∧
    (output_decision s r).1.prefill = s.prefill ∧
    (output_decision s r).1.skipped = s.skipped := by
  unfold output_decision output_prefill output_transition output_steady put_copy
    advance_transition
  simp only [check_reconf_fields]
  split_ifs <;> (try split) <;> (try split) <;>
    exact ⟨rfl, rfl, rfl, rfl, rfl⟩

theorem buffer_frame_same (s : state_blend_common) (frame : video_frame) :
    (buffer_frame s frame).current_ssrc = s.current_ssrc ∧
    (buffer_frame s frame).old_ssrc = s.old_ssrc ∧
    (buffer_frame s frame).disabled_ssrc = s.disabled_ssrc ∧
    (buffer_frame s frame).skipped = s.skipped ∧
    (buffer_frame s frame).transition = s.transition ∧
    (buffer_frame s frame).display_desc = s.display_desc := by
  unfold buffer_frame
  simp only []
  split <;> exact ⟨rfl, rfl, rfl, rfl, rfl, rfl⟩

theorem finish_transition_same (s : state_blend_common) (now_end : Int) :
    (finish_transition s now_end).1.current_ssrc = s.current_ssrc ∧
    ((finish_transition s now_end).1.old_ssrc = s.old_ssrc ∨
      (finish_transition s now_end).1.old_ssrc = 0) ∧
    (∀ k, k ≠ s.old_ssrc →
      (finish_transition s now_end).1.disabled_ssrc k = s.disabled_ssrc k) ∧
    (finish_transition s now_end).1.prefill = s.prefill ∧
    (finish_transition s now_end).1.skipped = s.skipped := by
  unfold finish_transition
  split
  · refine ⟨rfl, Or.inr rfl, ?_, rfl, rfl⟩
    intro k hk
    exact Function.update_noteq hk _ _
  · exact ⟨rfl, Or.inl rfl, fun _ _ => rfl, rfl, rfl⟩

theorem select_source_same (s : state_blend_common) (ssrc : Nat) :
    (select_source s ssrc).1.disabled_ssrc = s.disabled_ssrc ∧
    (((select_source s ssrc).1.current_ssrc = s.current_ssrc ∧
        (select_source s ssrc).1.old_ssrc = s.old_ssrc) ∨
      ((select_source s ssrc).1.current_ssrc = ssrc ∧
        (select_source s ssrc).1.old_ssrc = s.current_ssrc)) := by
  unfold select_source
  split_ifs
  · exact ⟨rfl, Or.inr ⟨rfl, rfl⟩⟩
  · exact ⟨rfl, Or.inl ⟨rfl, rfl⟩⟩
  · exact ⟨rfl, Or.inl ⟨rfl, rfl⟩⟩

/-- A frame of a source other than `X`, while `X` is neither active nor
fading: `X` stays so, and its entry in `disabled_ssrc` is touched by the sweep
only. -/
theorem process_frame_other (tpm : Nat) (s : state_blend_common) (frame : video_frame)
    (e : environment) (X : Nat) (hc : s.current_ssrc ≠ X) (ho : s.old_ssrc ≠ X)
    (hX0 : X ≠ 0) (hf : frame.ssrc ≠ X) :
    (process_frame tpm s frame e).1.current_ssrc ≠ X ∧
    (process_frame tpm s frame e).1.old_ssrc ≠ X ∧
    (((s.disabled_ssrc frame.ssrc).isSome = true ∧
        (process_frame tpm s frame e).1.disabled_ssrc X = s.disabled_ssrc X) ∨
      (s.disabled_ssrc frame.ssrc = none ∧
        (process_frame tpm s frame e).1.disabled_ssrc X
          = sweep_disabled tpm e.now s.disabled_ssrc X)) := by
  unfold process_frame
  by_cases hdis : (s.disabled_ssrc frame.ssrc).isSome = true
  · rw [if_pos hdis]
    exact ⟨hc, ho, Or.inl ⟨hdis, Function.update_noteq (Ne.symm hf) _ _⟩⟩
  · rw [if_neg hdis]
    have hnone : s.disabled_ssrc frame.ssrc = none := by
      cases h : s.disabled_ssrc frame.ssrc with
      | none => rfl
      | some v => rw [h] at hdis; simp at hdis
    simp only []
    obtain ⟨hs1, hs2⟩ := select_source_same
      { s with disabled_ssrc := sweep_disabled tpm e.now s.disabled_ssrc } frame.ssrc
    generalize select_source
      { s with disabled_ssrc := sweep_disabled tpm e.now s.disabled_ssrc } frame.ssrc = sel
      at hs1 hs2
    have hselc : sel.1.current_ssrc ≠ X := by
      rcases hs2 with h | h
      · rw [h.1]; exact hc
      · rw [h.1]; exact hf
    have hselo : sel.1.old_ssrc ≠ X := by
      rcases hs2 with h | h
      · rw [h.2]; exact ho
      · rw [h.2]; exact hc
    split_ifs
    · exact ⟨hselc, hselo, Or.inr ⟨hnone, by rw [hs1]⟩⟩
    · obtain ⟨b1, b2, b3, -, -, -⟩ := buffer_frame_same sel.1 frame
      exact ⟨by rw [b1]; exact hselc, by rw [b2]; exact hselo,
        Or.inr ⟨hnone, by rw [b3, hs1]⟩⟩
    · obtain ⟨b1, b2, b3, -, -, -⟩ := buffer_frame_same sel.1 frame
      obtain ⟨o1, o2, o3, -, -⟩ := output_decision_same (buffer_frame sel.1 frame) e.reconf_ret
      obtain ⟨f1, f2, f3, -, -⟩ :=
        finish_transition_same (output_decision (buffer_frame sel.1 frame) e.reconf_ret).1
          e.now_end
      refine ⟨by rw [f1, o1, b1]; exact hselc, ?_, Or.inr ⟨hnone, ?_⟩⟩
      · rcases f2 with h | h
        · rw [h, o2, b2]; exact hselo
        · rw [h]; exact Ne.symm hX0
      · rw [f3 X (by rw [o2, b2]; exact Ne.symm hselo), o3, b3, hs1]

/-- No frame of `X` arrives: `X` stays neither active nor fading, and its
entry in `disabled_ssrc` either keeps its time stamp or is gone. -/
theorem run_frames_other (tpm : Nat) (X : Nat) (T : Int)
    (fs : List (video_frame × environment)) :
    ∀ s : state_blend_common, s.current_ssrc ≠ X → s.old_ssrc ≠ X → X ≠ 0 →
      (∀ p ∈ fs, p.1.ssrc ≠ X) →
      (s.disabled_ssrc X = some T ∨ s.disabled_ssrc X = none) →
      (run_frames tpm s fs).1.current_ssrc ≠ X ∧
      (run_frames tpm s fs).1.old_ssrc ≠ X ∧
      ((run_frames tpm s fs).1.disabled_ssrc X = some T ∨
        (run_frames tpm s fs).1.disabled_ssrc X = none) := by
  induction fs with
  | nil => intro s hc ho _ _ hd; exact ⟨hc, ho, hd⟩
  | cons p tl ih =>
    intro s hc ho hX0 hfs hd
    obtain ⟨frame, e⟩ := p
    have hF : frame.ssrc ≠ X := hfs (frame, e) (List.mem_cons_self _ _)
    have htl : ∀ q ∈ tl, q.1.ssrc ≠ X := fun q hq => hfs q (List.mem_cons_of_mem _ hq)
    obtain ⟨s1, s2, s3⟩ := process_frame_other tpm s frame e X hc ho hX0 hF
    simp only [run_frames]
    apply ih (process_frame tpm s frame e).1 s1 s2 hX0 htl
    rcases s3 with ⟨-, h⟩ | ⟨-, h⟩
    · rw [h]; exact hd
    · rw [h]
      rcases hd with hd | hd
      · cases hsw : sweep_disabled tpm e.now s.disabled_ssrc X with
        | none => exact Or.inr rfl
        | some t =>
          have := sweep_disabled_some tpm e.now t s.disabled_ssrc X hsw
          rw [hd] at this
          exact Or.inl this.symm
      · exact Or.inr (sweep_disabled_none _ _ _ _ hd)

/-- No frame of `X` arrives and every frame is processed while the entry of
`X` is not older than the timeout: the entry stays as it is. -/
theorem run_frames_other_keep (tpm : Nat) (X : Nat) (T : Int)
    (fs : List (video_frame × environment)) :
    ∀ s : state_blend_common, s.current_ssrc ≠ X → s.old_ssrc ≠ X → X ≠ 0 →
      (∀ p ∈ fs, p.1.ssrc ≠ X) →
      (∀ p ∈ fs, ¬ (Int.tdiv (p.2.now - T) tpm > SOURCE_TIMEOUT)) →
      s.disabled_ssrc X = some T →
      (run_frames tpm s fs).1.disabled_ssrc X = some T := by
  induction fs with
  | nil => intro s _ _ _ _ _ hd; exact hd
  | cons p tl ih =>
    intro s hc ho hX0 hfs hts hd
    obtain ⟨frame, e⟩ := p
    have hF : frame.ssrc ≠ X := hfs (frame, e) (List.mem_cons_self _ _)
    have htl : ∀ q ∈ tl, q.1.ssrc ≠ X := fun q hq => hfs q (List.mem_cons_of_mem _ hq)
    obtain ⟨s1, s2, s3⟩ := process_frame_other tpm s frame e X hc ho hX0 hF
    simp only [run_frames]
    apply ih (process_frame tpm s frame e).1 s1 s2 hX0 htl
      (fun q hq => hts q (List.mem_cons_of_mem _ hq))
    rcases s3 with ⟨-, h⟩ | ⟨-, h⟩
    · rw [h]; exact hd
    · rw [h]
      exact sweep_disabled_keep tpm e.now T _ X hd (hts (frame, e) (List.mem_cons_self _ _))

/-- A frame of a source in `disabled_ssrc`: the entry is refreshed and the
frame freed (lines 189-194). -/
theorem process_frame_disabled (tpm : Nat) (s : state_blend_common) (frame : video_frame)
    (e : environment) (T : Int) (h : s.disabled_ssrc frame.ssrc = some T) :
    process_frame tpm s frame e =
      ({ s with disabled_ssrc := Function.update s.disabled_ssrc frame.ssrc (some e.now) },
        [event.vf_free frame]) := by
  simp [process_frame, h]

/-- After a promotion the promoted source is the active one and the debounce
counter is 0. -/
theorem process_frame_promote_current (tpm : Nat) (s : state_blend_common)
    (frame : video_frame) (e : environment) (hnd : s.disabled_ssrc frame.ssrc = none)
    (hc : frame.ssrc ≠ s.current_ssrc) (ho : frame.ssrc ≠ s.old_ssrc)
    (hsk : SKIP_FIRST_N_FRAMES_IN_STREAM ≤ s.skipped) :
    (process_frame tpm s frame e).1.current_ssrc = frame.ssrc ∧
    (process_frame tpm s frame e).1.skipped = 0 := by
  rw [process_frame_promote tpm s frame e hnd hc ho hsk]
  simp only []
  generalize hs2 : ({ s with
      disabled_ssrc := sweep_disabled tpm e.now s.disabled_ssrc
      old_ssrc := s.current_ssrc
      current_ssrc := frame.ssrc
      prefill := true
      skipped := 0 } : state_blend_common) = s2
  have hc2 : s2.current_ssrc = frame.ssrc := by rw [← hs2]
  have hk2 : s2.skipped = 0 := by rw [← hs2]
  obtain ⟨b1, -, -, b4, -, -⟩ := buffer_frame_same s2 frame
  obtain ⟨o1, -, -, -, o5⟩ := output_decision_same (buffer_frame s2 frame) e.reconf_ret
  obtain ⟨f1, -, -, -, f5⟩ :=
    finish_transition_same (output_decision (buffer_frame s2 frame) e.reconf_ret).1 e.now_end
  exact ⟨by rw [f1, o1, b1, hc2], by rw [f5, o5, b4, hk2]⟩

/-! ### The ingress queue -/

/-- What a call of `display_blend_putf` does, mode by mode. -/
theorem display_blend_putf_cases (q : frame_queue) (frame : Option video_frame)
    (flags : putf_flags) :
    display_blend_putf q frame flags =
      match flags with
      | putf_flags.PUTF_DISCARD => some ⟨q, 0, vf_free_events frame⟩
      | putf_flags.PUTF_NONBLOCK =>
        if IN_QUEUE_MAX_BUFFER_LEN ≤ q.length then
          some ⟨q, 1, event.fprintf message.QUEUE_FULL :: vf_free_events frame⟩
        else some ⟨q ++ [frame], 0, []⟩
      | putf_flags.PUTF_BLOCKING =>
        if IN_QUEUE_MAX_BUFFER_LEN ≤ q.length then none else some ⟨q ++ [frame], 0, []⟩ := by
  cases flags
  · by_cases h : IN_QUEUE_MAX_BUFFER_LEN ≤ q.length
    · have h2 : ¬ (q.length < IN_QUEUE_MAX_BUFFER_LEN) := by omega
      simp [display_blend_putf, h, h2]
    · have h2 : q.length < IN_QUEUE_MAX_BUFFER_LEN := by omega
      simp [display_blend_putf, h, h2]
  · by_cases h : IN_QUEUE_MAX_BUFFER_LEN ≤ q.length
    · simp [display_blend_putf, h]
    · have h2 : q.length < IN_QUEUE_MAX_BUFFER_LEN := by omega
      simp [display_blend_putf, h, h2]
  · simp [display_blend_putf]

theorem display_blend_putf_length (q : frame_queue) (frame : Option video_frame)
    (flags : putf_flags) (r : putf_result)
    (h : display_blend_putf q frame flags = some r)
    (hq : q.length ≤ IN_QUEUE_MAX_BUFFER_LEN) :
    r.queue.length ≤ IN_QUEUE_MAX_BUFFER_LEN := by
  rw [display_blend_putf_cases] at h
  cases flags
  · simp only at h
    split_ifs at h with hf
    · simp only [Option.some.injEq] at h
      rw [← h]
      simp only [List.length_append, List.length_singleton]
      omega
  · simp only at h
    split_ifs at h with hf
    · simp only [Option.some.injEq] at h
      rw [← h]; exact hq
    · simp only [Option.some.injEq] at h
      rw [← h]
      simp only [List.length_append, List.length_singleton]
      omega
  · simp only [Option.some.injEq] at h
    rw [← h]; exact hq

theorem queue_step_length (t : queue_trace) (op : queue_op)
    (hq : t.queue.length ≤ IN_QUEUE_MAX_BUFFER_LEN) :
    (queue_step t op).queue.length ≤ IN_QUEUE_MAX_BUFFER_LEN := by
  cases op with
  | push frame flags =>
    simp only [queue_step]
    cases h : display_blend_putf t.queue frame flags with
    | none => exact hq
    | some r => exact display_blend_putf_length t.queue frame flags r h hq
  | pop =>
    simp only [queue_step]
    cases h : t.queue with
    | nil => simp [dequeue, h]
    | cons x rest =>
      simp only [dequeue]
      rw [h] at hq
      simp only [List.length_cons] at hq
      omega

theorem queue_run_length (ops : List queue_op) :
    ∀ t : queue_trace, t.queue.length ≤ IN_QUEUE_MAX_BUFFER_LEN →
      (queue_run t ops).queue.length ≤ IN_QUEUE_MAX_BUFFER_LEN := by
  induction ops with
  | nil => intro t h; exact h
  | cons op rest ih =>
    intro t h
    exact ih (queue_step t op) (queue_step_length t op h)

theorem queue_step_fifo (q0 : frame_queue) (t : queue_trace) (op : queue_op)
    (h : t.popped ++ t.queue = q0 ++ t.accepted) :
    (queue_step t op).popped ++ (queue_step t op).queue = q0 ++ (queue_step t op).accepted := by
  cases op with
  | push frame flags =>
    simp only [queue_step]
    rw [display_blend_putf_cases]
    cases flags
    · simp only
      split_ifs with hf
      · exact h
      · simp [← List.append_assoc, h]
    · simp only
      split_ifs with hf
      · simpa using h
      · simp [← List.append_assoc, h]
    · simpa using h
  | pop =>
    simp only [queue_step]
    cases hq : t.queue with
    | nil => simp only [dequeue]; rw [hq] at h; rw [hq]; exact h
    | cons x rest =>
      simp only [dequeue]
      rw [hq] at h
      simpa using h

theorem queue_run_fifo (q0 : frame_queue) (ops : List queue_op) :
    ∀ t : queue_trace, t.popped ++ t.queue = q0 ++ t.accepted →
      (queue_run t ops).popped ++ (queue_run t ops).queue = q0 ++ (queue_run t ops).accepted := by
  induction ops with
  | nil => intro t h; exact h
  | cons op rest ih =>
    intro t h
    exact ih (queue_step t op) (queue_step_fifo q0 t op h)

/-! ### Reconfiguration of the sink -/

theorem check_reconf_ignores_ret (s : state_blend_common) (d : video_desc) (r r2 : Int) :
    check_reconf s d r = check_reconf s d r2 := rfl

theorem output_decision_ignores_ret (s : state_blend_common) (r r2 : Int) :
    output_decision s r = output_decision s r2 := rfl

theorem process_frame_ignores_ret (tpm : Nat) (s : state_blend_common) (frame : video_frame)
    (e : environment) (r : Int) :
    process_frame tpm s frame { e with reconf_ret := r } = process_frame tpm s frame e := rfl

theorem check_reconf_idempotent (s : state_blend_common) (d : video_desc) (r r2 : Int) :
    check_reconf (check_reconf s d r).1 d r2 = ((check_reconf s d r).1, []) := by
  rw [check_reconf_fields]
  simp [check_reconf, video_desc_eq]

theorem mem_check_reconf_events (s : state_blend_common) (d d2 : video_desc) (r : Int) :
    event.display_reconfigure d2 ∈ (check_reconf s d r).2 ↔ d2 = d ∧ d ≠ s.display_desc := by
  rw [check_reconf_events]
  by_cases h : d = s.display_desc
  · simp [video_desc_eq, h]
  · simp [video_desc_eq, h]

theorem put_copy_trace (s s2 : state_blend_common) (frame : video_frame) (ret : Int)
    (hd : s2.display_desc = s.display_desc) :
    (put_copy s2 frame ret).2 = (check_reconf s frame.desc ret).2 ++
      [event.display_get_frame, event.vf_free frame,
       event.display_put_frame (some ⟨s2.current_ssrc, frame.data⟩)] ∧
    (put_copy s2 frame ret).1.display_desc = frame.desc := by
  simp [put_copy, check_reconf_fields, check_reconf_events, hd]

/-- The output decision either submits nothing and leaves the descriptor of
the sink alone, or submits one frame after `check_reconf` for the descriptor
of the frame shown (the new frame in a crossfade). -/
theorem output_decision_trace (s : state_blend_common) (ret : Int) :
    ((output_decision s ret).1.display_desc = s.display_desc ∧
      submitted (output_decision s ret).2 = [] ∧
      ∀ d, event.display_reconfigure d ∉ (output_decision s ret).2) ∨
    (∃ (shown : video_frame) (out : display_frame) (tail : List event),
      (output_decision s ret).2 = (check_reconf s shown.desc ret).2 ++ tail ∧
      (output_decision s ret).1.display_desc = shown.desc ∧
      submitted tail = [out] ∧
      (∀ d, event.display_reconfigure d ∉ tail) ∧
      event.vf_free shown ∈ tail ∧
      (out.data = shown.data ∨
        ∃ (old : video_frame) (t : Int), video_desc_eq old.desc shown.desc = true ∧
          out.data = blend_data t old.data shown.data)) := by
  unfold output_decision
  by_cases h0 : s.old_ssrc ≠ 0
  · rw [if_pos h0]
    by_cases hp : s.prefill = true
    · rw [if_pos hp]
      unfold output_prefill
      cases hl : s.frames s.old_ssrc with
      | nil => left; simp [submitted]
      | cons frame rest =>
        right
        obtain ⟨h1, h2⟩ := put_copy_trace s
          { s with frames := Function.update s.frames s.old_ssrc rest } frame ret rfl
        exact ⟨frame, ⟨s.current_ssrc, frame.data⟩,
          [event.display_get_frame, event.vf_free frame,
           event.display_put_frame (some ⟨s.current_ssrc, frame.data⟩)],
          h1, h2, by simp [submitted], by simp, by simp, Or.inl rfl⟩
    · rw [if_neg hp]
      unfold output_transition advance_transition
      simp only []
      cases hl : s.frames s.old_ssrc with
      | nil => left; simp [submitted]
      | cons old_frame old_rest =>
        simp only []
        by_cases he : (s.frames s.current_ssrc).isEmpty = true
        · rw [if_pos he]; left; simp [submitted]
        · rw [if_neg he]
          cases hn : Function.update s.frames s.old_ssrc old_rest s.current_ssrc with
          | nil => left; simp [submitted]
          | cons new_frame new_rest =>
            right
            simp only []
            by_cases hd : video_desc_eq old_frame.desc new_frame.desc = true
            · refine ⟨new_frame, ⟨s.current_ssrc,
                blend_data (s.transition + 1) old_frame.data new_frame.data⟩,
                [event.display_get_frame, event.vf_free old_frame, event.vf_free new_frame,
                 event.display_put_frame (some ⟨s.current_ssrc,
                   blend_data (s.transition + 1) old_frame.data new_frame.data⟩)], ?_, ?_, ?_,
                ?_, ?_, Or.inr ⟨old_frame, s.transition + 1, hd, rfl⟩⟩
              · simp [hd, check_reconf_events]
              · rw [check_reconf_fields]
              · simp [submitted]
              · simp
              · simp
            · refine ⟨new_frame, ⟨s.current_ssrc, new_frame.data⟩,
                [event.display_get_frame, event.fprintf message.SMOLIK4,
                 event.vf_free old_frame, event.vf_free new_frame,
                 event.display_put_frame (some ⟨s.current_ssrc, new_frame.data⟩)],
                ?_, ?_, ?_, ?_, ?_, Or.inl rfl⟩
              · simp [hd, check_reconf_events]
              · rw [check_reconf_fields]
              · simp [submitted]
              · simp
              · simp
  · rw [if_neg h0]
    unfold output_steady
    by_cases hp : s.prefill = true
    · left; simp [hp, submitted]
    · have hc : (!s.prefill) = true := by simpa using hp
      rw [if_pos hc]
      cases hl : s.frames s.current_ssrc with
      | nil => left; simp [submitted]
      | cons frame rest =>
        right
        obtain ⟨h1, h2⟩ := put_copy_trace s
          { s with frames := Function.update s.frames s.current_ssrc rest } frame ret rfl
        exact ⟨frame, ⟨s.current_ssrc, frame.data⟩,
          [event.display_get_frame, event.vf_free frame,
           event.display_put_frame (some ⟨s.current_ssrc, frame.data⟩)],
          h1, h2, by simp [submitted], by simp, by simp, Or.inl rfl⟩

theorem finish_transition_events (s : state_blend_common) (n : Int) :
    (finish_transition s n).1.display_desc = s.display_desc ∧
    ∃ l : List video_frame, (finish_transition s n).2 = l.map event.vf_free := by
  unfold finish_transition
  split
  · exact ⟨rfl, _, rfl⟩
  · exact ⟨rfl, [], rfl⟩

theorem select_source_display_desc (s : state_blend_common) (ssrc : Nat) :
    (select_source s ssrc).1.display_desc = s.display_desc := by
  unfold select_source
  split_ifs <;> rfl

/-- The three ways an iteration can go: the frame is dropped as coming from a
disabled source, the iteration ends without output decision, or it runs the
output decision and the test that ends a transition. -/
theorem process_frame_shape (tpm : Nat) (s : state_blend_common) (frame : video_frame)
    (e : environment) :
    (∃ s2, process_frame tpm s frame e = (s2, [event.vf_free frame]) ∧
      s2.display_desc = s.display_desc) ∨
    (∃ s2, process_frame tpm s frame e = (s2, []) ∧ s2.display_desc = s.display_desc) ∨
    (∃ s2, s2.display_desc = s.display_desc ∧
      process_frame tpm s frame e =
        ((finish_transition (output_decision s2 e.reconf_ret).1 e.now_end).1,
         (output_decision s2 e.reconf_ret).2 ++
           (finish_transition (output_decision s2 e.reconf_ret).1 e.now_end).2)) := by
  unfold process_frame
  by_cases hdis : (s.disabled_ssrc frame.ssrc).isSome = true
  · rw [if_pos hdis]
    exact Or.inl ⟨_, rfl, rfl⟩
  · rw [if_neg hdis]
    simp only []
    have hsel := select_source_display_desc
      { s with disabled_ssrc := sweep_disabled tpm e.now s.disabled_ssrc } frame.ssrc
    generalize select_source
      { s with disabled_ssrc := sweep_disabled tpm e.now s.disabled_ssrc } frame.ssrc = sel
      at hsel
    have hbuf := (buffer_frame_same sel.1 frame).2.2.2.2.2
    split_ifs
    · exact Or.inr (Or.inl ⟨_, rfl, hsel⟩)
    · exact Or.inr (Or.inl ⟨_, rfl, by rw [hbuf]; exact hsel⟩)
    · exact Or.inr (Or.inr ⟨_, by rw [hbuf]; exact hsel, rfl⟩)

theorem mem_map_vf_free_reconfigure (l : List video_frame) (d : video_desc) :
    event.display_reconfigure d ∉ l.map event.vf_free := by
  simp

/-- An iteration either submits nothing, does not reconfigure the sink and
leaves its descriptor alone, or submits one frame after `check_reconf` for the
descriptor of the frame shown. -/
theorem process_frame_trace (tpm : Nat) (s : state_blend_common) (frame : video_frame)
    (e : environment) :
    (submitted (process_frame tpm s frame e).2 = [] ∧
      (process_frame tpm s frame e).1.display_desc = s.display_desc ∧
      ∀ d, event.display_reconfigure d ∉ (process_frame tpm s frame e).2) ∨
    (∃ (shown : video_frame) (out : display_frame) (rest : List event),
      (process_frame tpm s frame e).2 = (check_reconf s shown.desc e.reconf_ret).2 ++ rest ∧
      (process_frame tpm s frame e).1.display_desc = shown.desc ∧
      submitted (process_frame tpm s frame e).2 = [out] ∧
      submitted rest = [out] ∧
      (∀ d, event.display_reconfigure d ∉ rest) ∧
      event.vf_free shown ∈ rest ∧
      (out.data = shown.data ∨
        ∃ (old : video_frame) (t : Int), video_desc_eq old.desc shown.desc = true ∧
          out.data = blend_data t old.data shown.data)) := by
  rcases process_frame_shape tpm s frame e with ⟨s2, h, hd⟩ | ⟨s2, h, hd⟩ | ⟨s2, hd, h⟩
  · left; rw [h]; exact ⟨rfl, hd, by simp⟩
  · left; rw [h]; exact ⟨rfl, hd, by simp⟩
  · obtain ⟨hf1, l, hf2⟩ :=
      finish_transition_events (output_decision s2 e.reconf_ret).1 e.now_end
    rw [h]
    simp only [hf1, hf2]
    rcases output_decision_trace s2 e.reconf_ret with ⟨h1, h2, h3⟩ | ⟨shown, out, tail, h1, h2, h3, h4, h5, h6⟩
    · left
      refine ⟨?_, by rw [h1, hd], ?_⟩
      · rw [submitted_append, h2, submitted_map_vf_free]; rfl
      · intro d hmem
        rcases List.mem_append.1 hmem with hm | hm
        · exact h3 d hm
        · exact mem_map_vf_free_reconfigure l d hm
    · right
      have hev : (check_reconf s2 shown.desc e.reconf_ret).2
          = (check_reconf s shown.desc e.reconf_ret).2 := by
        rw [check_reconf_events, check_reconf_events, hd]
      refine ⟨shown, out, tail ++ l.map event.vf_free, ?_, h2, ?_, ?_, ?_, ?_, h6⟩
      · rw [h1, hev, List.append_assoc]
      · rw [h1, submitted_append, submitted_append, submitted_check_reconf, h3,
          submitted_map_vf_free]; rfl
      · rw [submitted_append, h3, submitted_map_vf_free]; rfl
      · intro d hmem
        rcases List.mem_append.1 hmem with hm | hm
        · exact h4 d hm
        · exact mem_map_vf_free_reconfigure l d hm
      · exact List.mem_append_left _ h5

/-! ### The invariants -/

theorem selection_invariant_of_same (s s2 : state_blend_common)
    (hc : s2.current_ssrc = s.current_ssrc) (ho : s2.old_ssrc = s.old_ssrc)
    (hd : s2.disabled_ssrc = s.disabled_ssrc) (h : selection_invariant s) :
    selection_invariant s2 := by
  unfold selection_invariant at *
  rw [hc, ho, hd]
  exact h

theorem selection_invariant_sweep (tpm : Nat) (now : Int) (s : state_blend_common)
    (h : selection_invariant s) :
    selection_invariant { s with disabled_ssrc := sweep_disabled tpm now s.disabled_ssrc } := by
  obtain ⟨h1, h2, h3, h4⟩ := h
  exact ⟨h1, sweep_disabled_none _ _ _ _ h2, sweep_disabled_none _ _ _ _ h3,
    sweep_disabled_none _ _ _ _ h4⟩

theorem selection_invariant_select (s : state_blend_common) (ssrc : Nat)
    (hnd : s.disabled_ssrc ssrc = none) (h : selection_invariant s) :
    selection_invariant (select_source s ssrc).1 := by
  obtain ⟨h1, h2, h3, h4⟩ := h
  unfold select_source
  split_ifs with hnew hsk
  · exact ⟨fun _ => Ne.symm hnew.1, hnd, h2, h4⟩
  · exact ⟨h1, h2, h3, h4⟩
  · exact ⟨h1, h2, h3, h4⟩

theorem selection_invariant_finish (s : state_blend_common) (n : Int)
    (h : selection_invariant s) : selection_invariant (finish_transition s n).1 := by
  obtain ⟨h1, h2, h3, h4⟩ := h
  unfold finish_transition
  split_ifs with hf
  · have hne : s.old_ssrc ≠ s.current_ssrc := h1 hf.1
    refine ⟨fun h0 => absurd rfl h0, ?_, ?_, ?_⟩
    · show Function.update s.disabled_ssrc s.old_ssrc (some n) s.current_ssrc = none
      rw [Function.update_noteq (Ne.symm hne)]; exact h2
    · show Function.update s.disabled_ssrc s.old_ssrc (some n) 0 = none
      rw [Function.update_noteq (Ne.symm hf.1)]; exact h4
    · show Function.update s.disabled_ssrc s.old_ssrc (some n) 0 = none
      rw [Function.update_noteq (Ne.symm hf.1)]; exact h4
  · exact ⟨h1, h2, h3, h4⟩

theorem selection_invariant_step (tpm : Nat) (s : state_blend_common) (frame : video_frame)
    (e : environment) (h : selection_invariant s) :
    selection_invariant (process_frame tpm s frame e).1 := by
  unfold process_frame
  by_cases hdis : (s.disabled_ssrc frame.ssrc).isSome = true
  · rw [if_pos hdis]
    obtain ⟨h1, h2, h3, h4⟩ := h
    have hne : ∀ k, s.disabled_ssrc k = none → k ≠ frame.ssrc := by
      intro k hk heq
      rw [heq] at hk
      rw [hk] at hdis
      simp at hdis
    refine ⟨h1, ?_, ?_, ?_⟩
    · show Function.update s.disabled_ssrc frame.ssrc (some e.now) s.current_ssrc = none
      rw [Function.update_noteq (hne _ h2)]; exact h2
    · show Function.update s.disabled_ssrc frame.ssrc (some e.now) s.old_ssrc = none
      rw [Function.update_noteq (hne _ h3)]; exact h3
    · show Function.update s.disabled_ssrc frame.ssrc (some e.now) 0 = none
      rw [Function.update_noteq (hne _ h4)]; exact h4
  · rw [if_neg hdis]
    have hnone : s.disabled_ssrc frame.ssrc = none := by
      cases hv : s.disabled_ssrc frame.ssrc with
      | none => rfl
      | some v => rw [hv] at hdis; simp at hdis
    simp only []
    have hsel := selection_invariant_select
      { s with disabled_ssrc := sweep_disabled tpm e.now s.disabled_ssrc } frame.ssrc
      (sweep_disabled_none _ _ _ _ hnone) (selection_invariant_sweep tpm e.now s h)
    generalize select_source
      { s with disabled_ssrc := sweep_disabled tpm e.now s.disabled_ssrc } frame.ssrc = sel
      at hsel
    obtain ⟨b1, b2, b3, -, -, -⟩ := buffer_frame_same sel.1 frame
    have hbuf := selection_invariant_of_same sel.1 (buffer_frame sel.1 frame) b1 b2 b3 hsel
    split_ifs
    · exact hsel
    · exact hbuf
    · obtain ⟨o1, o2, o3, -, -⟩ := output_decision_same (buffer_frame sel.1 frame) e.reconf_ret
      exact selection_invariant_finish _ _
        (selection_invariant_of_same _ _ o1 o2 o3 hbuf)

theorem selection_invariant_run (tpm : Nat) (fs : List (video_frame × environment)) :
    ∀ s : state_blend_common, selection_invariant s →
      selection_invariant (run_frames tpm s fs).1 := by
  induction fs with
  | nil => intro s h; exact h
  | cons p tl ih =>
    intro s h
    obtain ⟨frame, e⟩ := p
    exact ih _ (selection_invariant_step tpm s frame e h)

theorem selection_invariant_init : selection_invariant init_state :=
  ⟨fun h => absurd rfl h, rfl, rfl, rfl⟩

/-- The output decision leaves the transition counter alone, or, with a fading
source, advances it by one or sets it to `TRANSITION_COUNT`. -/
theorem output_decision_transition (s : state_blend_common) (r : Int) :
    (output_decision s r).1.transition = s.transition ∨
    (s.old_ssrc ≠ 0 ∧
      ((output_decision s r).1.transition = s.transition + 1 ∨
        (output_decision s r).1.transition = TRANSITION_COUNT)) := by
  unfold output_decision
  by_cases h0 : s.old_ssrc ≠ 0
  · rw [if_pos h0]
    by_cases hp : s.prefill = true
    · rw [if_pos hp]
      unfold output_prefill put_copy
      left
      split
      · rfl
      · rw [check_reconf_fields]
    · rw [if_neg hp]
      right
      refine ⟨h0, ?_⟩
      unfold output_transition advance_transition
      simp only []
      split
      · right; rfl
      · split_ifs
        · right; rfl
        · split
          · right; rfl
          · left; rw [check_reconf_fields]
  · rw [if_neg h0]
    left
    unfold output_steady put_copy
    split_ifs
    · split
      · rfl
      · rw [check_reconf_fields]
    · rfl

theorem transition_invariant_output (s : state_blend_common) (r n : Int)
    (h : transition_invariant s) :
    transition_invariant (finish_transition (output_decision s r).1 n).1 := by
  obtain ⟨h1, h2, h3, h4⟩ := h
  obtain ⟨o1, o2, -, -, -⟩ := output_decision_same s r
  have ht := output_decision_transition s r
  generalize output_decision s r = out at o1 o2 ht
  unfold transition_invariant finish_transition
  unfold TRANSITION_COUNT at *
  split_ifs with hf
  · exact ⟨le_refl _, show (0 : Int) < 10 by omega, fun _ => rfl, fun _ => rfl⟩
  · simp only []
    rw [o1, o2]
    rw [o2] at hf
    rcases ht with ht | ⟨hold, ht | ht⟩
    · rw [ht]; exact ⟨h1, h2, h3, h4⟩
    · rw [ht]
      have hlt : ¬ (10 ≤ s.transition + 1) := fun hge => hf ⟨hold, by rw [ht]; exact hge⟩
      exact ⟨by omega, by omega, fun h0 => absurd h0 hold, h4⟩
    · exact absurd ⟨hold, by rw [ht]⟩ hf

theorem transition_invariant_of_same (s s2 : state_blend_common)
    (hc : s2.current_ssrc = s.current_ssrc) (ho : s2.old_ssrc = s.old_ssrc)
    (ht : s2.transition = s.transition) (h : transition_invariant s) :
    transition_invariant s2 := by
  unfold transition_invariant at *
  rw [hc, ho, ht]
  exact h

theorem transition_invariant_select (s : state_blend_common) (ssrc : Nat) (hs : ssrc ≠ 0)
    (h : transition_invariant s) : transition_invariant (select_source s ssrc).1 := by
  obtain ⟨h1, h2, h3, h4⟩ := h
  unfold select_source
  split_ifs with hnew hsk
  · exact ⟨h1, h2, fun h0 => h3 (h4 h0), fun h0 => absurd h0 hs⟩
  · exact ⟨h1, h2, h3, h4⟩
  · exact ⟨h1, h2, h3, h4⟩

theorem transition_invariant_step (tpm : Nat) (s : state_blend_common) (frame : video_frame)
    (e : environment) (hs : frame.ssrc ≠ 0) (h : transition_invariant s) :
    transition_invariant (process_frame tpm s frame e).1 := by
  unfold process_frame
  by_cases hdis : (s.disabled_ssrc frame.ssrc).isSome = true
  · rw [if_pos hdis]
    exact h
  · rw [if_neg hdis]
    simp only []
    have hsel := transition_invariant_select
      { s with disabled_ssrc := sweep_disabled tpm e.now s.disabled_ssrc } frame.ssrc hs h
    generalize select_source
      { s with disabled_ssrc := sweep_disabled tpm e.now s.disabled_ssrc } frame.ssrc = sel
      at hsel
    obtain ⟨b1, b2, -, -, b5, -⟩ := buffer_frame_same sel.1 frame
    have hbuf := transition_invariant_of_same sel.1 (buffer_frame sel.1 frame) b1 b2 b5 hsel
    split_ifs
    · exact hsel
    · exact hbuf
    · exact transition_invariant_output _ _ _ hbuf

theorem transition_invariant_run (tpm : Nat) (fs : List (video_frame × environment)) :
    ∀ s : state_blend_common, (∀ p ∈ fs, p.1.ssrc ≠ 0) → transition_invariant s →
      transition_invariant (run_frames tpm s fs).1 := by
  induction fs with
  | nil => intro s _ h; exact h
  | cons p tl ih =>
    intro s hfs h
    obtain ⟨frame, e⟩ := p
    exact ih _ (fun q hq => hfs q (List.mem_cons_of_mem _ hq))
      (transition_invariant_step tpm s frame e (hfs (frame, e) (List.mem_cons_self _ _)) h)

theorem transition_invariant_init : transition_invariant init_state :=
  ⟨le_refl _, by decide, fun _ => rfl, fun _ => rfl⟩

/-! ### The blend of two bytes -/

/-- For bytes and a weight in `[0, TRANSITION_COUNT]` the quotient of line 277
lies between the two bytes. -/
theorem blend_quotient_bounds (t : Int) (a b : Nat) (h0 : 0 ≤ t) (h1 : t ≤ TRANSITION_COUNT) :
    ((min a b : Nat) : Int)
      ≤ Int.tdiv ((b : Int) * t + (a : Int) * (TRANSITION_COUNT - t)) TRANSITION_COUNT ∧
    Int.tdiv ((b : Int) * t + (a : Int) * (TRANSITION_COUNT - t)) TRANSITION_COUNT
      ≤ ((max a b : Nat) : Int) := by
  unfold TRANSITION_COUNT at *
  have hm1 : ((min a b : Nat) : Int) ≤ a := by exact_mod_cast Nat.min_le_left a b
  have hm2 : ((min a b : Nat) : Int) ≤ b := by exact_mod_cast Nat.min_le_right a b
  have hM1 : (a : Int) ≤ ((max a b : Nat) : Int) := by exact_mod_cast Nat.le_max_left a b
  have hM2 : (b : Int) ≤ ((max a b : Nat) : Int) := by exact_mod_cast Nat.le_max_right a b
  have hmn : (0 : Int) ≤ ((min a b : Nat) : Int) := by positivity
  generalize ((min a b : Nat) : Int) = m at *
  generalize ((max a b : Nat) : Int) = M at *
  have hb1 : m * t ≤ (b : Int) * t := mul_le_mul_of_nonneg_right hm2 h0
  have hb2 : (b : Int) * t ≤ M * t := mul_le_mul_of_nonneg_right hM2 h0
  have ha1 : m * (10 - t) ≤ (a : Int) * (10 - t) := mul_le_mul_of_nonneg_right hm1 (by omega)
  have ha2 : (a : Int) * (10 - t) ≤ M * (10 - t) := mul_le_mul_of_nonneg_right hM1 (by omega)
  have hmt : m * t + m * (10 - t) = 10 * m := by ring
  have hMt : M * t + M * (10 - t) = 10 * M := by ring
  have hx0 : 0 ≤ (b : Int) * t + (a : Int) * (10 - t) := by
    have : 0 ≤ 10 * m := by omega
    linarith
  rw [Int.tdiv_eq_ediv hx0 (by omega)]
  generalize (b : Int) * t = X at *
  generalize (a : Int) * (10 - t) = Y at *
  generalize m * t = P at *
  generalize m * (10 - t) = Q at *
  generalize M * t = R at *
  generalize M * (10 - t) = S at *
  constructor <;> omega

/-! ### The debounce counter -/

theorem select_source_skipped (s : state_blend_common) (ssrc : Nat) :
    (select_source s ssrc).1.skipped =
      if ssrc ≠ s.current_ssrc ∧ ssrc ≠ s.old_ssrc then
        (if SKIP_FIRST_N_FRAMES_IN_STREAM ≤ s.skipped then 0 else s.skipped + 1)
      else s.skipped := by
  unfold select_source
  split_ifs <;> rfl

theorem process_frame_skipped (tpm : Nat) (s : state_blend_common) (frame : video_frame)
    (e : environment) :
    (process_frame tpm s frame e).1.skipped =
      if (s.disabled_ssrc frame.ssrc).isSome = true then s.skipped
      else if frame.ssrc ≠ s.current_ssrc ∧ frame.ssrc ≠ s.old_ssrc then
        (if SKIP_FIRST_N_FRAMES_IN_STREAM ≤ s.skipped then 0 else s.skipped + 1)
      else s.skipped := by
  unfold process_frame
  by_cases hdis : (s.disabled_ssrc frame.ssrc).isSome = true
  · rw [if_pos hdis, if_pos hdis]
  · rw [if_neg hdis, if_neg hdis]
    simp only []
    have hsel := select_source_skipped
      { s with disabled_ssrc := sweep_disabled tpm e.now s.disabled_ssrc } frame.ssrc
    simp only [] at hsel
    rw [← hsel]
    generalize select_source
      { s with disabled_ssrc := sweep_disabled tpm e.now s.disabled_ssrc } frame.ssrc = sel
    obtain ⟨-, -, -, b4, -, -⟩ := buffer_frame_same sel.1 frame
    split_ifs
    · rfl
    · exact b4
    · obtain ⟨-, -, -, -, o5⟩ := output_decision_same (buffer_frame sel.1 frame) e.reconf_ret
      obtain ⟨-, -, -, -, f5⟩ :=
        finish_transition_same (output_decision (buffer_frame sel.1 frame) e.reconf_ret).1
          e.now_end
      rw [f5, o5, b4]

/-! ### The output branches with a fading source -/

/-- A crossfade step with an empty buffer of the fading source: the
transition is cancelled and ended in the same iteration. -/
theorem process_frame_cancel (tpm : Nat) (s : state_blend_common) (frame : video_frame)
    (e : environment)
    (hnd : s.disabled_ssrc frame.ssrc = none)
    (hcur : frame.ssrc = s.current_ssrc)
    (hold : s.old_ssrc ≠ 0)
    (hne : s.old_ssrc ≠ s.current_ssrc)
    (hpre : s.prefill = false ∨ BUFFER_LEN ≤ (s.frames s.current_ssrc).length + 1)
    (hO : s.frames s.old_ssrc = []) :
    process_frame tpm s frame e =
      ({ s with
          frames := Function.update
            (Function.update s.frames s.current_ssrc (s.frames s.current_ssrc ++ [frame]))
            s.old_ssrc []
          disabled_ssrc := Function.update (sweep_disabled tpm e.now s.disabled_ssrc)
            s.old_ssrc (some e.now_end)
          old_ssrc := 0
          transition := 0
          prefill := false },
       [event.fprintf message.SMOLIK2]) := by
  have hp : (s.prefill && decide ((s.frames s.current_ssrc).length + 1 < BUFFER_LEN)) = false := by
    rcases hpre with h | h
    · simp [h]
    · have : ¬ ((s.frames s.current_ssrc).length + 1 < BUFFER_LEN) := by omega
      simp [this]
  rw [process_frame_active tpm s frame e hnd hcur,
    buffer_frame_active { s with disabled_ssrc := sweep_disabled tpm e.now s.disabled_ssrc }
      frame hcur]
  simp only [hp]
  unfold output_decision
  simp only [hold, ne_eq, not_false_eq_true, if_true, Bool.false_eq_true, if_false]
  unfold output_transition advance_transition
  simp only [Function.update_noteq hne, hO]
  simp [finish_transition, hold, Function.update_noteq hne, hO]

/-- A frame of the active source while the fading source is shown
(prefilling on, counter below `TRANSITION_COUNT`) and the buffer of the fading
source is empty. -/
theorem process_frame_prefill_empty (tpm : Nat) (s : state_blend_common) (frame : video_frame)
    (e : environment)
    (hnd : s.disabled_ssrc frame.ssrc = none)
    (hcur : frame.ssrc = s.current_ssrc)
    (hold : s.old_ssrc ≠ 0)
    (hne : s.old_ssrc ≠ s.current_ssrc)
    (hpre : s.prefill = true)
    (hlen : (s.frames s.current_ssrc).length + 1 < BUFFER_LEN)
    (htr : s.transition < TRANSITION_COUNT)
    (hO : s.frames s.old_ssrc = []) :
    process_frame tpm s frame e =
      ({ s with
          frames := Function.update s.frames s.current_ssrc (s.frames s.current_ssrc ++ [frame])
          disabled_ssrc := sweep_disabled tpm e.now s.disabled_ssrc },
       [event.fprintf message.SMOLIK1]) := by
  rw [process_frame_active tpm s frame e hnd hcur,
    buffer_frame_active { s with disabled_ssrc := sweep_disabled tpm e.now s.disabled_ssrc }
      frame hcur]
  simp only [hpre, hlen, decide_True, Bool.and_self]
  unfold output_decision
  simp only [hold, ne_eq, not_false_eq_true, if_true]
  unfold output_prefill
  simp only [Function.update_noteq hne, hO]
  have htr2 : ¬ (TRANSITION_COUNT ≤ s.transition) := by omega
  simp [finish_transition, htr2]

/-- A frame of the active source while the fading source is shown
(prefilling on, counter below `TRANSITION_COUNT`): the front of the buffer of
the fading source is copied out. -/
theorem process_frame_prefill_show (tpm : Nat) (s : state_blend_common) (frame : video_frame)
    (e : environment) (front : video_frame) (rest : List video_frame)
    (hnd : s.disabled_ssrc frame.ssrc = none)
    (hcur : frame.ssrc = s.current_ssrc)
    (hold : s.old_ssrc ≠ 0)
    (hne : s.old_ssrc ≠ s.current_ssrc)
    (hpre : s.prefill = true)
    (hlen : (s.frames s.current_ssrc).length + 1 < BUFFER_LEN)
    (htr : s.transition < TRANSITION_COUNT)
    (hO : s.frames s.old_ssrc = front :: rest) :
    process_frame tpm s frame e =
      ({ s with
          display_desc := front.desc
          frames := Function.update
            (Function.update s.frames s.current_ssrc (s.frames s.current_ssrc ++ [frame]))
            s.old_ssrc rest
          disabled_ssrc := sweep_disabled tpm e.now s.disabled_ssrc },
       (check_reconf s front.desc e.reconf_ret).2 ++
         [event.display_get_frame, event.vf_free front,
          event.display_put_frame (some ⟨s.current_ssrc, front.data⟩)]) := by
  rw [process_frame_active tpm s frame e hnd hcur,
    buffer_frame_active { s with disabled_ssrc := sweep_disabled tpm e.now s.disabled_ssrc }
      frame hcur]
  simp only [hpre, hlen, decide_True, Bool.and_self]
  unfold output_decision
  simp only [hold, ne_eq, not_false_eq_true, if_true]
  unfold output_prefill
  simp only [Function.update_noteq hne, hO]
  simp only [put_copy, check_reconf_fields, check_reconf_events]
  have htr2 : ¬ (TRANSITION_COUNT ≤ s.transition) := by omega
  simp [finish_transition, htr2]

/-! ### Frames of the fading source -/

/-- A frame of the fading source is buffered and nothing else happens,
provided the prefill test of line 220 finds the state it is in between
iterations. -/
theorem process_frame_fading (tpm : Nat) (s : state_blend_common) (frame : video_frame)
    (e : environment)
    (hnd : s.disabled_ssrc frame.ssrc = none)
    (hold : frame.ssrc = s.old_ssrc)
    (hne : frame.ssrc ≠ s.current_ssrc)
    (hinv : prefill_invariant s) :
    process_frame tpm s frame e =
      ({ s with
          disabled_ssrc := sweep_disabled tpm e.now s.disabled_ssrc
          frames := Function.update s.frames frame.ssrc (s.frames frame.ssrc ++ [frame]) },
       []) := by
  have hne2 : s.current_ssrc ≠ frame.ssrc := fun h => hne h.symm
  have hsel : select_source
      { s with disabled_ssrc := sweep_disabled tpm e.now s.disabled_ssrc } frame.ssrc
      = ({ s with disabled_ssrc := sweep_disabled tpm e.now s.disabled_ssrc }, true) := by
    simp [select_source, hold]
  have hbuf : buffer_frame
      { s with disabled_ssrc := sweep_disabled tpm e.now s.disabled_ssrc } frame
      = { s with
          disabled_ssrc := sweep_disabled tpm e.now s.disabled_ssrc
          frames := Function.update s.frames frame.ssrc (s.frames frame.ssrc ++ [frame]) } := by
    unfold buffer_frame
    simp only [Function.update_noteq hne2]
    by_cases hp : s.prefill = true
    · have := hinv hp
      rw [if_neg (by omega)]
    · have hp2 : s.prefill = false := by simpa using hp
      split_ifs
      · cases s
        simp_all
      · rfl
  unfold process_frame
  have hd : ¬ ((s.disabled_ssrc frame.ssrc).isSome = true) := by rw [hnd]; simp
  rw [if_neg hd]
  simp only [hsel, hbuf, Bool.not_true, Bool.false_eq_true, if_false]
  rw [if_pos hne]

theorem update_tail_length (f : Nat → List video_frame) (a : Nat) (x : video_frame)
    (rest : List video_frame) (h : f a = x :: rest) (k : Nat) :
    (Function.update f a rest k).length ≤ (f k).length := by
  by_cases hk : k = a
  · subst hk
    simp [h]
  · rw [Function.update_noteq hk]

theorem update_nil_length (f : Nat → List video_frame) (a k : Nat) :
    (Function.update f a [] k).length ≤ (f k).length := by
  by_cases hk : k = a
  · subst hk
    simp
  · rw [Function.update_noteq hk]

/-- The output decision only takes frames out of the buffers. -/
theorem output_decision_frames_length (s : state_blend_common) (r : Int) (k : Nat) :
    ((output_decision s r).1.frames k).length ≤ (s.frames k).length := by
  unfold output_decision
  by_cases h0 : s.old_ssrc ≠ 0
  · rw [if_pos h0]
    by_cases hp : s.prefill = true
    · rw [if_pos hp]
      unfold output_prefill put_copy
      cases hl : s.frames s.old_ssrc with
      | nil => exact le_refl _
      | cons x rest =>
        simp only [check_reconf_fields]
        exact update_tail_length s.frames s.old_ssrc x rest hl k
    · rw [if_neg hp]
      unfold output_transition advance_transition
      simp only []
      cases hl : s.frames s.old_ssrc with
      | nil => exact le_refl _
      | cons old_frame old_rest =>
        simp only []
        by_cases he : (s.frames s.current_ssrc).isEmpty = true
        · rw [if_pos he]
        · rw [if_neg he]
          cases hn : Function.update s.frames s.old_ssrc old_rest s.current_ssrc with
          | nil => exact le_refl _
          | cons new_frame new_rest =>
            simp only [check_reconf_fields]
            exact le_trans
              (update_tail_length (Function.update s.frames s.old_ssrc old_rest)
                s.current_ssrc new_frame new_rest hn k)
              (update_tail_length s.frames s.old_ssrc old_frame old_rest hl k)
  · rw [if_neg h0]
    unfold output_steady put_copy
    by_cases hp : (!s.prefill) = true
    · rw [if_pos hp]
      cases hl : s.frames s.current_ssrc with
      | nil => exact le_refl _
      | cons x rest =>
        simp only [check_reconf_fields]
        exact update_tail_length s.frames s.current_ssrc x rest hl k
    · rw [if_neg hp]

theorem finish_transition_frames_length (s : state_blend_common) (n : Int) (k : Nat) :
    ((finish_transition s n).1.frames k).length ≤ (s.frames k).length := by
  unfold finish_transition
  split_ifs
  · exact update_nil_length s.frames s.old_ssrc k
  · exact le_refl _

theorem prefill_invariant_buffer (s : state_blend_common) (frame : video_frame) :
    prefill_invariant (buffer_frame s frame) := by
  unfold prefill_invariant buffer_frame
  simp only []
  split_ifs with h
  · intro hp; simp at hp
  · intro _
    exact Nat.lt_of_not_le h

theorem select_source_skip_same (s : state_blend_common) (ssrc : Nat)
    (h : (select_source s ssrc).2 = false) :
    (select_source s ssrc).1.prefill = s.prefill ∧
    (select_source s ssrc).1.current_ssrc = s.current_ssrc ∧
    (select_source s ssrc).1.frames = s.frames := by
  unfold select_source at h ⊢
  split_ifs at h ⊢
  exact ⟨rfl, rfl, rfl⟩

theorem prefill_invariant_step (tpm : Nat) (s : state_blend_common) (frame : video_frame)
    (e : environment) (h : prefill_invariant s) :
    prefill_invariant (process_frame tpm s frame e).1 := by
  unfold process_frame
  by_cases hdis : (s.disabled_ssrc frame.ssrc).isSome = true
  · rw [if_pos hdis]
    exact h
  · rw [if_neg hdis]
    simp only []
    have hskip := select_source_skip_same
      { s with disabled_ssrc := sweep_disabled tpm e.now s.disabled_ssrc } frame.ssrc
    generalize select_source
      { s with disabled_ssrc := sweep_disabled tpm e.now s.disabled_ssrc } frame.ssrc = sel
      at hskip
    have hbuf := prefill_invariant_buffer sel.1 frame
    split_ifs with h1 h2
    · obtain ⟨p1, p2, p3⟩ := hskip (by simpa using h1)
      unfold prefill_invariant at h ⊢
      rw [p1, p2, p3]
      exact h
    · exact hbuf
    · obtain ⟨o1, -, -, o4, -⟩ := output_decision_same (buffer_frame sel.1 frame) e.reconf_ret
      obtain ⟨f1, -, -, f4, -⟩ :=
        finish_transition_same (output_decision (buffer_frame sel.1 frame) e.reconf_ret).1
          e.now_end
      unfold prefill_invariant at hbuf ⊢
      rw [f4, o4, f1, o1]
      intro hp
      have hl1 := finish_transition_frames_length
        (output_decision (buffer_frame sel.1 frame) e.reconf_ret).1 e.now_end
        (buffer_frame sel.1 frame).current_ssrc
      have hl2 := output_decision_frames_length (buffer_frame sel.1 frame) e.reconf_ret
        (buffer_frame sel.1 frame).current_ssrc
      have := hbuf hp
      exact lt_of_le_of_lt (le_trans hl1 hl2) this

theorem prefill_invariant_run (tpm : Nat) (fs : List (video_frame × environment)) :
    ∀ s : state_blend_common, prefill_invariant s →
      prefill_invariant (run_frames tpm s fs).1 := by
  induction fs with
  | nil => intro s h; exact h
  | cons p tl ih =>
    intro s h
    obtain ⟨frame, e⟩ := p
    exact ih _ (prefill_invariant_step tpm s frame e h)

theorem prefill_invariant_init : prefill_invariant init_state := by
  intro h
  simp [init_state] at h

/-- Promotion of a source with an empty buffer over an active source that has
a frame buffered, the counter being below `TRANSITION_COUNT`: the front frame
of the former active source is shown. -/
theorem process_frame_promote_showing (tpm : Nat) (s : state_blend_common)
    (frame : video_frame) (e : environment) (front : video_frame) (rest : List video_frame)
    (hnd : s.disabled_ssrc frame.ssrc = none)
    (hc : frame.ssrc ≠ s.current_ssrc) (ho : frame.ssrc ≠ s.old_ssrc)
    (hc0 : s.current_ssrc ≠ 0)
    (hsk : SKIP_FIRST_N_FRAMES_IN_STREAM ≤ s.skipped)
    (hbuf : s.frames frame.ssrc = []) (htr : s.transition < TRANSITION_COUNT)
    (hA : s.frames s.current_ssrc = front :: rest) :
    process_frame tpm s frame e =
      ({ s with
          display_desc := front.desc
          disabled_ssrc := sweep_disabled tpm e.now s.disabled_ssrc
          old_ssrc := s.current_ssrc
          current_ssrc := frame.ssrc
          prefill := true
          skipped := 0
          frames := Function.update (Function.update s.frames frame.ssrc [frame])
            s.current_ssrc rest },
       (check_reconf s front.desc e.reconf_ret).2 ++
         [event.display_get_frame, event.vf_free front,
          event.display_put_frame (some ⟨frame.ssrc, front.data⟩)]) := by
  have htr2 : ¬ (TRANSITION_COUNT ≤ s.transition) := by omega
  rw [process_frame_promote tpm s frame e hnd hc ho hsk]
  have hbf : buffer_frame
      { s with
          disabled_ssrc := sweep_disabled tpm e.now s.disabled_ssrc
          old_ssrc := s.current_ssrc
          current_ssrc := frame.ssrc
          prefill := true
          skipped := 0 } frame =
      { s with
          disabled_ssrc := sweep_disabled tpm e.now s.disabled_ssrc
          old_ssrc := s.current_ssrc
          current_ssrc := frame.ssrc
          prefill := true
          skipped := 0
          frames := Function.update s.frames frame.ssrc [frame] } := by
    simp [buffer_frame, hbuf, BUFFER_LEN]
  rw [hbf]
  unfold output_decision
  simp only [ne_eq, hc0, not_false_eq_true, if_true]
  unfold output_prefill
  simp only [Function.update_noteq (Ne.symm hc), hA]
  simp [put_copy, check_reconf_fields, check_reconf_events, finish_transition, htr2]

theorem run_frames_skip_disabled (tpm : Nat) (B k : Nat)
    (fs : List (video_frame × environment)) :
    ∀ s : state_blend_common, (∀ p ∈ fs, p.1.ssrc = B) →
      B ≠ s.current_ssrc → B ≠ s.old_ssrc → s.disabled_ssrc B = none →
      s.skipped + fs.length ≤ SKIP_FIRST_N_FRAMES_IN_STREAM →
      s.disabled_ssrc k = none →
      (run_frames tpm s fs).1.disabled_ssrc k = none := by
  induction fs with
  | nil => intro s _ _ _ _ _ hk; exact hk
  | cons p rest ih =>
    intro s hfs hc ho hd hlen hk
    obtain ⟨frame, e⟩ := p
    have hB : frame.ssrc = B := hfs (frame, e) (List.mem_cons_self _ _)
    have hrest : ∀ q ∈ rest, q.1.ssrc = B := fun q hq => hfs q (List.mem_cons_of_mem _ hq)
    simp only [List.length_cons, Nat.cast_add, Nat.cast_one] at hlen
    have hstep := process_frame_skip tpm s frame e (by rw [hB]; exact hd)
      (by rw [hB]; exact hc) (by rw [hB]; exact ho) (by omega)
    simp only [run_frames]
    apply ih (process_frame tpm s frame e).1 hrest (by rw [hstep]; exact hc)
      (by rw [hstep]; exact ho) (by rw [hstep]; exact sweep_disabled_none _ _ _ _ hd)
      (by rw [hstep]; simp only []; omega)
    rw [hstep]
    exact sweep_disabled_none _ _ _ _ hk

theorem run_frames_snoc (tpm : Nat) (s : state_blend_common)
    (fs : List (video_frame × environment)) (frame : video_frame) (e : environment) :
    (run_frames tpm s (fs ++ [(frame, e)])).1
      = (process_frame tpm (run_frames tpm s fs).1 frame e).1 := by
  rw [run_frames_append]
  simp [run_frames]

/-- The state after six frames of source 1 and six of source 2, whatever the
resolution of the clock: source 2 is promoted and prefilling, source 1 fades
with an empty buffer. -/
theorem switch_sample_state (tpm : Nat) :
    (run_frames tpm init_state switch_sample).1.current_ssrc = 2 ∧
    (run_frames tpm init_state switch_sample).1.old_ssrc = 1 ∧
    (run_frames tpm init_state switch_sample).1.frames 1 = [] ∧
    (run_frames tpm init_state switch_sample).1.frames 2 = [sample_frame 2 15] ∧
    (run_frames tpm init_state switch_sample).1.prefill = true ∧
    (run_frames tpm init_state switch_sample).1.transition = 0 := by
  have hsplit : switch_sample =
      (burst 1 0 5 ++ [(sample_frame 1 5, sample_env)]) ++
        (burst 2 10 5 ++ [(sample_frame 2 15, sample_env)]) := by
    simp [switch_sample, burst]
  have hrun : (run_frames tpm init_state switch_sample).1 =
      (process_frame tpm (run_frames tpm
        (process_frame tpm (run_frames tpm init_state (burst 1 0 5)).1
          (sample_frame 1 5) sample_env).1 (burst 2 10 5)).1 (sample_frame 2 15) sample_env).1 := by
    rw [hsplit, run_frames_append]
    simp only []
    rw [run_frames_snoc, run_frames_snoc]
  rw [hrun]
  -- five frames of source 1 are skipped
  obtain ⟨a1, a2, a3, a4, -, -, a7, a8, -⟩ := run_frames_skip tpm 1 (burst 1 0 5) init_state
    (by decide) (by decide) (by decide) rfl (by decide)
  have a9 := run_frames_skip_disabled tpm 1 2 (burst 1 0 5) init_state
    (by decide) (by decide) (by decide) rfl (by decide) rfl
  have i1 : init_state.current_ssrc = 0 := rfl
  have i2 : init_state.old_ssrc = 0 := rfl
  have i3 : init_state.frames = fun _ => [] := rfl
  have i4 : init_state.transition = 0 := rfl
  have i7 : init_state.skipped = 0 := rfl
  rw [i1] at a1
  rw [i2] at a2
  rw [i3] at a3
  rw [i4] at a4
  rw [i7] at a7
  generalize (run_frames tpm init_state (burst 1 0 5)).1 = s5 at a1 a2 a3 a4 a7 a8 a9 ⊢
  -- the sixth promotes source 1
  have f1 : (sample_frame 1 5).ssrc = 1 := rfl
  have hA := process_frame_promote_idle tpm s5 (sample_frame 1 5) sample_env
    (by rw [f1]; exact a8) a1 (by decide) (by rw [a2]; decide)
    (by rw [a7]; decide) (by rw [a3])
  rw [hA]
  simp only []
  generalize hs6 : ({ s5 with
      disabled_ssrc := sweep_disabled tpm sample_env.now s5.disabled_ssrc
      old_ssrc := 0
      current_ssrc := (sample_frame 1 5).ssrc
      prefill := true
      skipped := 0
      frames := Function.update s5.frames (sample_frame 1 5).ssrc [sample_frame 1 5] }
      : state_blend_common) = s6
  have c1 : s6.current_ssrc = 1 := by rw [← hs6]; rfl
  have c2 : s6.old_ssrc = 0 := by rw [← hs6]
  have c3 : s6.frames 1 = [sample_frame 1 5] := by
    rw [← hs6]
    show Function.update s5.frames 1 [sample_frame 1 5] 1 = _
    rw [Function.update_same]
  have c4 : s6.frames 2 = [] := by
    rw [← hs6]
    show Function.update s5.frames 1 [sample_frame 1 5] 2 = _
    rw [Function.update_noteq (by decide), a3]
  have c5 : s6.disabled_ssrc 2 = none := by
    rw [← hs6]
    exact sweep_disabled_none _ _ _ _ a9
  have c6 : s6.transition = 0 := by rw [← hs6]; exact a4
  have c7 : s6.skipped = 0 := by rw [← hs6]
  clear hs6 hA
  -- five frames of source 2 are skipped
  obtain ⟨b1, b2, b3, b4, -, -, b7, b8, -⟩ := run_frames_skip tpm 2 (burst 2 10 5) s6
    (by decide) (by rw [c1]; decide) (by rw [c2]; decide) c5 (by rw [c7]; decide)
  rw [c1] at b1
  rw [c2] at b2
  rw [c6] at b4
  rw [c7] at b7
  have b31 : (run_frames tpm s6 (burst 2 10 5)).1.frames 1 = [sample_frame 1 5] := by
    rw [b3]; exact c3
  have b32 : (run_frames tpm s6 (burst 2 10 5)).1.frames 2 = [] := by
    rw [b3]; exact c4
  generalize (run_frames tpm s6 (burst 2 10 5)).1 = s11 at b1 b2 b4 b7 b8 b31 b32 ⊢
  -- the sixth promotes source 2 and shows the buffered frame of source 1
  have f2 : (sample_frame 2 15).ssrc = 2 := rfl
  have hB := process_frame_promote_showing tpm s11 (sample_frame 2 15) sample_env
    (sample_frame 1 5) [] (by rw [f2]; exact b8)
    (by rw [f2, b1]; decide) (by rw [f2, b2]; decide) (by rw [b1]; decide)
    (by rw [b7]; decide) (by rw [f2]; exact b32) (by rw [b4]; decide)
    (by rw [b1]; exact b31)
  rw [hB]
  refine ⟨f2, b1, ?_, ?_, rfl, b4⟩
  · show Function.update (Function.update s11.frames 2 [sample_frame 2 15])
      s11.current_ssrc [] 1 = []
    rw [b1, Function.update_same]
  · show Function.update (Function.update s11.frames 2 [sample_frame 2 15])
      s11.current_ssrc [] 2 = [sample_frame 2 15]
    rw [b1, Function.update_noteq (by decide), Function.update_same]

theorem burst_ssrc (ssrc : Nat) (n : Nat) :
    ∀ b : Nat, ∀ p ∈ burst ssrc b n, p.1.ssrc = ssrc := by
  induction n with
  | zero => intro b p hp; simp [burst] at hp
  | succ n ih =>
    intro b p hp
    simp only [burst, List.mem_cons] at hp
    rcases hp with h | h
    · rw [h]; rfl
    · exact ih (b + 1) p h

theorem burst_length (ssrc : Nat) (n : Nat) : ∀ b : Nat, (burst ssrc b n).length = n := by
  induction n with
  | zero => intro b; rfl
  | succ n ih => intro b; simp [burst, ih]

/-- Frames of the fading source only: they pile up in its buffer and nothing
else changes but the sweep of the disabled entries. -/
theorem run_frames_fading (tpm : Nat) (A : Nat) (fs : List (video_frame × environment)) :
    ∀ s : state_blend_common, (∀ p ∈ fs, p.1.ssrc = A) →
      s.old_ssrc = A → s.current_ssrc ≠ A → s.disabled_ssrc A = none →
      prefill_invariant s →
      (run_frames tpm s fs).1.frames A = s.frames A ++ fs.map Prod.fst ∧
      (run_frames tpm s fs).2 = [] ∧
      (run_frames tpm s fs).1.old_ssrc = A ∧
      (run_frames tpm s fs).1.current_ssrc = s.current_ssrc ∧
      (run_frames tpm s fs).1.prefill = s.prefill ∧
      (run_frames tpm s fs).1.transition = s.transition := by
  induction fs with
  | nil => intro s _ ho _ _ _; simp [run_frames, ho]
  | cons p tl ih =>
    intro s hfs ho hc hd hinv
    obtain ⟨frame, e⟩ := p
    have hF : frame.ssrc = A := hfs (frame, e) (List.mem_cons_self _ _)
    have htl : ∀ q ∈ tl, q.1.ssrc = A := fun q hq => hfs q (List.mem_cons_of_mem _ hq)
    have hstep := process_frame_fading tpm s frame e (by rw [hF]; exact hd)
      (by rw [hF, ho]) (by rw [hF]; exact Ne.symm hc) hinv
    have hinv2 : prefill_invariant (process_frame tpm s frame e).1 := by
      rw [hstep]
      intro hp
      show (Function.update s.frames frame.ssrc (s.frames frame.ssrc ++ [frame])
        s.current_ssrc).length < BUFFER_LEN
      rw [Function.update_noteq (by rw [hF]; exact hc)]
      exact hinv hp
    have h := ih (process_frame tpm s frame e).1 htl (by rw [hstep]; exact ho)
      (by rw [hstep]; exact hc) (by rw [hstep]; exact sweep_disabled_none _ _ _ _ hd) hinv2
    simp only [run_frames]
    rw [hstep] at h ⊢
    obtain ⟨h1, h2, h3, h4, h5, h6⟩ := h
    refine ⟨?_, by rw [h2]; rfl, h3, h4, h5, h6⟩
    rw [h1]
    show Function.update s.frames frame.ssrc (s.frames frame.ssrc ++ [frame]) A ++ _ = _
    rw [hF, Function.update_same]
    simp

/-- The iteration from line 226 on, for a frame that is neither of a disabled
source nor debounced. -/
theorem process_frame_buffered (tpm : Nat) (s : state_blend_common) (frame : video_frame)
    (e : environment) (hnd : s.disabled_ssrc frame.ssrc = none)
    (hsel : (select_source
      { s with disabled_ssrc := sweep_disabled tpm e.now s.disabled_ssrc } frame.ssrc).2 = true) :
    process_frame tpm s frame e =
      if frame.ssrc ≠ (buffered_state tpm s frame e).current_ssrc then
        (buffered_state tpm s frame e, [])
      else
        ((finish_transition (output_decision (buffered_state tpm s frame e) e.reconf_ret).1
            e.now_end).1,
         (output_decision (buffered_state tpm s frame e) e.reconf_ret).2 ++
           (finish_transition (output_decision (buffered_state tpm s frame e) e.reconf_ret).1
             e.now_end).2) := by
  unfold process_frame buffered_state
  simp only [hnd, Option.isSome_none, Bool.false_eq_true, if_false, hsel, Bool.not_true]

/-- While the active source prefills and the counter is below
`TRANSITION_COUNT`, the output decision and the end-of-transition test touch
only the buffer of the fading source and the output descriptor. -/
theorem output_while_prefilling (s : state_blend_common) (r : Int) (now_end : Int)
    (hp : s.prefill = true) (htr : s.transition < TRANSITION_COUNT) :
    (finish_transition (output_decision s r).1 now_end).1.old_ssrc = s.old_ssrc ∧
    (finish_transition (output_decision s r).1 now_end).1.prefill = true ∧
    (finish_transition (output_decision s r).1 now_end).1.transition = s.transition ∧
    ∀ k, k ≠ s.old_ssrc →
      (finish_transition (output_decision s r).1 now_end).1.frames k = s.frames k := by
  have hd : (output_decision s r).1.transition = s.transition ∧
      ∀ k, k ≠ s.old_ssrc → (output_decision s r).1.frames k = s.frames k := by
    unfold output_decision
    by_cases h0 : s.old_ssrc = 0
    · simp [h0, output_steady, hp]
    · simp only [ne_eq, h0, not_false_eq_true, if_true, hp]
      unfold output_prefill
      cases hO : s.frames s.old_ssrc with
      | nil => simp
      | cons f rest =>
        simp only [put_copy, check_reconf_fields, true_and]
        intro k hk
        show Function.update s.frames s.old_ssrc rest k = _
        rw [Function.update_noteq hk]
  obtain ⟨_, ho, _, hpf, _⟩ := output_decision_same s r
  have hfin := finish_transition_not_yet (output_decision s r).1 now_end (by rw [hd.1]; exact htr)
  rw [hfin]
  exact ⟨ho, by rw [hpf, hp], hd.1, hd.2⟩

/-- The frame just buffered is in the buffer of the active source whenever the
test of line 226 lets the iteration go on. -/
theorem buffer_frame_mem (s : state_blend_common) (frame : video_frame)
    (h : frame.ssrc = (buffer_frame s frame).current_ssrc) :
    frame ∈ (buffer_frame s frame).frames (buffer_frame s frame).current_ssrc := by
  have hc : frame.ssrc = s.current_ssrc := by rw [h, (buffer_frame_same s frame).1]
  rw [buffer_frame_active s frame hc]
  simp

/-- Which diagnostics the output decision can print, and in which state. -/
theorem output_decision_messages (s : state_blend_common) (r : Int) (m : message)
    (hm : event.fprintf m ∈ (output_decision s r).2) :
    m = message.RECONFIGURED ∨ m = message.SMOLIK4 ∨
    (m = message.SMOLIK1 ∧ s.frames s.old_ssrc = []) ∨
    (m = message.SMOLIK2 ∧
      (s.frames s.old_ssrc = [] ∨ s.frames s.current_ssrc = [] ∨
        s.old_ssrc = s.current_ssrc)) ∨
    (m = message.SMOLIK3 ∧ s.frames s.current_ssrc = []) := by
  unfold output_decision at hm
  by_cases h0 : s.old_ssrc = 0
  · simp only [h0, ne_eq, not_true_eq_false, if_false] at hm
    unfold output_steady at hm
    cases hp : s.prefill with
    | true => simp [hp] at hm
    | false =>
      simp only [hp, Bool.not_false, if_true] at hm
      cases hN : s.frames s.current_ssrc with
      | nil =>
        simp only [hN, List.mem_singleton, event.fprintf.injEq] at hm
        exact Or.inr (Or.inr (Or.inr (Or.inr ⟨hm, rfl⟩)))
      | cons f rest =>
        simp only [hN, put_copy, check_reconf_events] at hm
        split_ifs at hm <;> simp at hm
        exact Or.inl hm
  · simp only [ne_eq, h0, not_false_eq_true, if_true] at hm
    cases hp : s.prefill with
    | true =>
      simp only [hp, if_true] at hm
      unfold output_prefill at hm
      cases hO : s.frames s.old_ssrc with
      | nil =>
        simp only [hO, List.mem_singleton, event.fprintf.injEq] at hm
        exact Or.inr (Or.inr (Or.inl ⟨hm, rfl⟩))
      | cons f rest =>
        simp only [hO, put_copy, check_reconf_events] at hm
        split_ifs at hm <;> simp at hm
        exact Or.inl hm
    | false =>
      simp only [hp, Bool.false_eq_true, if_false] at hm
      unfold output_transition at hm
      simp only [advance_transition] at hm
      cases hO : s.frames s.old_ssrc with
      | nil =>
        simp only [hO, List.mem_singleton, event.fprintf.injEq] at hm
        exact Or.inr (Or.inr (Or.inr (Or.inl ⟨hm, Or.inl rfl⟩)))
      | cons o orest =>
        simp only [hO] at hm
        by_cases hne : s.old_ssrc = s.current_ssrc
        · by_cases h2 : m = message.SMOLIK2
          · exact Or.inr (Or.inr (Or.inr (Or.inl ⟨h2, Or.inr (Or.inr hne)⟩)))
          · cases hN : s.frames s.current_ssrc with
            | nil =>
              simp only [hN, List.isEmpty_nil, if_true, List.mem_singleton,
                event.fprintf.injEq] at hm
              exact absurd hm h2
            | cons n nrest =>
              simp only [hN, List.isEmpty_cons, Bool.false_eq_true, if_false] at hm
              rw [hne, Function.update_same] at hm
              cases orest with
              | nil =>
                simp only [List.mem_singleton, event.fprintf.injEq] at hm
                exact absurd hm h2
              | cons n2 rest2 =>
                simp only [check_reconf_events] at hm
                split_ifs at hm <;> simp at hm <;>
              first
              | exact Or.inl hm
              | exact Or.inr (Or.inl hm)
              | exact hm.elim Or.inl (fun h => Or.inr (Or.inl h))
        · cases hN : s.frames s.current_ssrc with
          | nil =>
            simp only [hN, List.isEmpty_nil, if_true, List.mem_singleton,
              event.fprintf.injEq] at hm
            exact Or.inr (Or.inr (Or.inr (Or.inl ⟨hm, Or.inr (Or.inl rfl)⟩)))
          | cons n nrest =>
            simp only [hN, List.isEmpty_cons, Bool.false_eq_true, if_false] at hm
            rw [Function.update_noteq (Ne.symm hne), hN] at hm
            simp only [check_reconf_events] at hm
            split_ifs at hm <;> simp at hm <;>
              first
              | exact Or.inl hm
              | exact Or.inr (Or.inl hm)
              | exact hm.elim Or.inl (fun h => Or.inr (Or.inl h))

/-- A diagnostic of an iteration is printed by the output decision, which is
reached from `buffered_state` by a frame of the active source. -/
theorem process_frame_messages (tpm : Nat) (s : state_blend_common) (frame : video_frame)
    (e : environment) (m : message)
    (hm : event.fprintf m ∈ (process_frame tpm s frame e).2) :
    s.disabled_ssrc frame.ssrc = none ∧
    frame.ssrc = (buffered_state tpm s frame e).current_ssrc ∧
    event.fprintf m ∈ (output_decision (buffered_state tpm s frame e) e.reconf_ret).2 := by
  cases hd : s.disabled_ssrc frame.ssrc with
  | some t =>
    rw [process_frame_disabled tpm s frame e t hd] at hm
    simp at hm
  | none =>
    cases hsel : (select_source
        { s with disabled_ssrc := sweep_disabled tpm e.now s.disabled_ssrc } frame.ssrc).2 with
    | false =>
      have : (process_frame tpm s frame e).2 = [] := by
        unfold process_frame
        simp [hd, hsel]
      rw [this] at hm
      simp at hm
    | true =>
      rw [process_frame_buffered tpm s frame e hd hsel] at hm
      by_cases hc : frame.ssrc = (buffered_state tpm s frame e).current_ssrc
      · rw [if_neg (not_not.2 hc)] at hm
        refine ⟨rfl, hc, ?_⟩
        rcases List.mem_append.1 hm with h | h
        · exact h
        · obtain ⟨-, l, hl⟩ := finish_transition_events
            (output_decision (buffered_state tpm s frame e) e.reconf_ret).1 e.now_end
          rw [hl] at h
          simp at h
      · rw [if_pos hc] at hm
        simp at hm

theorem selection_invariant_buffered (tpm : Nat) (s : state_blend_common) (frame : video_frame)
    (e : environment) (hnd : s.disabled_ssrc frame.ssrc = none) (h : selection_invariant s) :
    selection_invariant (buffered_state tpm s frame e) := by
  have h1 := selection_invariant_sweep tpm e.now s h
  have h2 := selection_invariant_select
    { s with disabled_ssrc := sweep_disabled tpm e.now s.disabled_ssrc } frame.ssrc
    (sweep_disabled_none _ _ _ _ hnd) h1
  obtain ⟨b1, b2, b3, -, -, -⟩ := buffer_frame_same (select_source
    { s with disabled_ssrc := sweep_disabled tpm e.now s.disabled_ssrc } frame.ssrc).1 frame
  exact selection_invariant_of_same _ _ b1 b2 b3 h2

theorem run_frames_messages (tpm : Nat) (m : message)
    (fs : List (video_frame × environment)) :
    ∀ s : state_blend_common,
      (∀ (s2 : state_blend_common) (frame : video_frame) (e : environment),
        event.fprintf m ∉ (process_frame tpm s2 frame e).2) →
      event.fprintf m ∉ (run_frames tpm s fs).2 := by
  induction fs with
  | nil => intro s _; simp [run_frames]
  | cons p tl ih =>
    intro s h
    obtain ⟨frame, e⟩ := p
    simp only [run_frames, List.mem_append, not_or]
    exact ⟨h s frame e, ih _ h⟩

/-- The iteration that ends prefilling (the buffer of the active source reaches
`BUFFER_LEN`) while a source fades is the first crossfade step: it is the
iteration of the same state with prefilling already cleared. -/
theorem process_frame_crossfade_entry (tpm : Nat) (s : state_blend_common) (frame : video_frame)
    (e : environment) (hnd : s.disabled_ssrc frame.ssrc = none)
    (hcur : frame.ssrc = s.current_ssrc) (hold : s.old_ssrc ≠ 0)
    (hne : s.old_ssrc ≠ s.current_ssrc)
    (hlen : BUFFER_LEN ≤ (s.frames s.current_ssrc).length + 1)
    (hO : s.frames s.old_ssrc ≠ []) :
    process_frame tpm s frame e = process_frame tpm { s with prefill := false } frame e := by
  obtain ⟨old_frame, old_rest, hO2⟩ : ∃ a b, s.frames s.old_ssrc = a :: b := by
    cases h : s.frames s.old_ssrc with
    | nil => exact absurd h hO
    | cons a b => exact ⟨a, b, rfl⟩
  obtain ⟨new_frame, new_rest, hN2⟩ : ∃ a b, s.frames s.current_ssrc ++ [frame] = a :: b := by
    cases s.frames s.current_ssrc with
    | nil => exact ⟨frame, [], rfl⟩
    | cons x xs => exact ⟨x, xs ++ [frame], rfl⟩
  rw [process_frame_crossfade tpm s frame e old_frame new_frame old_rest new_rest hnd hcur hold
    hne (Or.inr hlen) hO2 hN2]
  rw [process_frame_crossfade tpm { s with prefill := false } frame e old_frame new_frame
    old_rest new_rest hnd hcur hold hne (Or.inl rfl) hO2 hN2]
  have h1 : crossfade_state tpm { s with prefill := false } e new_frame old_rest new_rest
      = crossfade_state tpm s e new_frame old_rest new_rest := rfl
  have h2 : (check_reconf { s with prefill := false } new_frame.desc e.reconf_ret).2
      = (check_reconf s new_frame.desc e.reconf_ret).2 := by
    simp only [check_reconf_events]
  rw [h1, h2]

theorem run_frames_crossfade_entry (tpm : Nat) (s : state_blend_common)
    (fs : List (video_frame × environment)) (hfs : fs ≠ [])
    (hB : ∀ p ∈ fs, p.1.ssrc = s.current_ssrc)
    (hnd : s.disabled_ssrc s.current_ssrc = none) (hold : s.old_ssrc ≠ 0)
    (hne : s.old_ssrc ≠ s.current_ssrc)
    (hlen : BUFFER_LEN ≤ (s.frames s.current_ssrc).length + 1)
    (hO : s.frames s.old_ssrc ≠ []) :
    run_frames tpm s fs = run_frames tpm { s with prefill := false } fs := by
  cases fs with
  | nil => exact absurd rfl hfs
  | cons p tl =>
    obtain ⟨frame, e⟩ := p
    have hF : frame.ssrc = s.current_ssrc := hB (frame, e) (List.mem_cons_self _ _)
    simp only [run_frames]
    rw [process_frame_crossfade_entry tpm s frame e (by rw [hF]; exact hnd) hF hold hne hlen hO]

/-- A crossfade entered with the transition counter `t` (prefilling over, or
ending with the first of the frames) takes `TRANSITION_COUNT - t` blend steps:
before the last of them the fading source is still there and the counter has
advanced by one per step, and the last one ends the transition. -/
theorem run_frames_crossfade_span (tpm : Nat) (s : state_blend_common) (d : video_desc)
    (fs : List (video_frame × environment))
    (hold : s.old_ssrc ≠ 0) (hne : s.old_ssrc ≠ s.current_ssrc)
    (hpre : s.prefill = false ∨ BUFFER_LEN ≤ (s.frames s.current_ssrc).length + 1)
    (hnd : s.disabled_ssrc s.current_ssrc = none)
    (hfs : ∀ p ∈ fs, p.1.ssrc = s.current_ssrc ∧ p.1.desc = d)
    (hdo : ∀ f ∈ s.frames s.old_ssrc, f.desc = d)
    (hdn : ∀ f ∈ s.frames s.current_ssrc, f.desc = d)
    (hlen : fs.length ≤ (s.frames s.old_ssrc).length)
    (hne0 : fs ≠ [])
    (htr : s.transition + fs.length = TRANSITION_COUNT) :
    (∀ k, k < fs.length →
      (run_frames tpm s (fs.take k)).1.old_ssrc = s.old_ssrc ∧
      (run_frames tpm s (fs.take k)).1.transition = s.transition + k ∧
      (submitted (run_frames tpm s (fs.take k)).2).length = k) ∧
    (run_frames tpm s fs).1.old_ssrc = 0 ∧
    (run_frames tpm s fs).1.transition = 0 ∧
    (run_frames tpm s fs).1.current_ssrc = s.current_ssrc ∧
    submitted (run_frames tpm s fs).2 =
      crossfade_frames s.current_ssrc s.transition (s.frames s.old_ssrc)
        (s.frames s.current_ssrc ++ fs.map Prod.fst) fs.length ∧
    (submitted (run_frames tpm s fs).2).length = fs.length := by
  have hpos : 0 < fs.length := List.length_pos.2 hne0
  have hO : s.frames s.old_ssrc ≠ [] := by
    intro h
    rw [h] at hlen
    simp only [List.length_nil] at hlen
    omega
  have key : ∀ l : List (video_frame × environment), l ≠ [] →
      (∀ p ∈ l, p.1.ssrc = s.current_ssrc) →
      run_frames tpm s l = run_frames tpm { s with prefill := false } l := by
    intro l hl hB
    rcases hpre with h | h
    · have : ({ s with prefill := false } : state_blend_common) = s := by
        cases s
        simp only at h
        subst h
        rfl
      rw [this]
    · exact run_frames_crossfade_entry tpm s l hl hB hnd hold hne h hO
  refine ⟨?_, ?_⟩
  · intro k hk
    cases k with
    | zero => simp [run_frames, submitted]
    | succ j =>
      have hl : (fs.take (j + 1)).length = j + 1 := by
        rw [List.length_take]; omega
      have hne1 : fs.take (j + 1) ≠ [] := by
        intro h
        rw [h] at hl
        simp at hl
      have hmem : ∀ p ∈ fs.take (j + 1), p.1.ssrc = s.current_ssrc ∧ p.1.desc = d :=
        fun p hp => hfs p (List.mem_of_mem_take hp)
      rw [key _ hne1 (fun p hp => (hmem p hp).1)]
      obtain ⟨-, c2, -, -, -, -, c7, c8⟩ := run_frames_crossfade tpm s.old_ssrc s.current_ssrc d
        (fs.take (j + 1)) { s with prefill := false } (s.frames s.old_ssrc)
        (s.frames s.current_ssrc) hmem rfl rfl hold hne rfl hnd rfl rfl hdo hdn
        (by rw [hl]; omega)
        (by
          show s.transition + ((fs.take (j + 1)).length : Int) < TRANSITION_COUNT
          rw [hl, ← htr]
          have : ((j + 1 : Nat) : Int) < (fs.length : Int) := by exact_mod_cast hk
          omega)
      refine ⟨c2, ?_, ?_⟩
      · rw [c7, hl]
      · rw [c8, crossfade_frames_length]
        · exact hl
        · rw [hl]; omega
        · rw [hl, List.length_append, List.length_map, hl]; omega
  · rw [key fs hne0 (fun p hp => (hfs p hp).1)]
    obtain ⟨c1, c2, c3, -, -, c6⟩ := run_frames_crossfade_complete tpm s.old_ssrc
      s.current_ssrc d fs { s with prefill := false } (s.frames s.old_ssrc)
      (s.frames s.current_ssrc) hfs rfl rfl hold hne rfl hnd rfl rfl hdo hdn hlen hne0 htr
    refine ⟨c2, c3, c1, c6, ?_⟩
    rw [c6, crossfade_frames_length]
    · exact hlen
    · rw [List.length_append, List.length_map]; omega

/-- A crossfade run up to the end of the transition frees every frame that was
in the buffer of the fading source: those it blends, one per step, and the
rest at the end of the transition. -/
theorem run_frames_crossfade_freed (tpm : Nat) (A B : Nat)
    (fs : List (video_frame × environment)) :
    ∀ (s : state_blend_common) (oldl : List video_frame),
      (∀ p ∈ fs, p.1.ssrc = B) →
      s.current_ssrc = B → s.old_ssrc = A → A ≠ 0 → A ≠ B → s.prefill = false →
      s.disabled_ssrc B = none → s.frames A = oldl →
      fs.length ≤ oldl.length → fs ≠ [] → s.transition + fs.length = TRANSITION_COUNT →
      ∀ f ∈ oldl, event.vf_free f ∈ (run_frames tpm s fs).2 := by
  induction fs with
  | nil => intro s oldl _ _ _ _ _ _ _ _ _ hne; exact absurd rfl hne
  | cons p tl ih =>
    intro s oldl hfs hB hA hA0 hAB hp hd hO hlen _ htr f hf
    subst hB
    subst hA
    obtain ⟨frame, e⟩ := p
    have hF := hfs (frame, e) (List.mem_cons_self _ _)
    have htl : ∀ q ∈ tl, q.1.ssrc = s.current_ssrc :=
      fun q hq => hfs q (List.mem_cons_of_mem _ hq)
    simp only [List.length_cons, Nat.cast_add, Nat.cast_one] at hlen htr
    obtain ⟨old_frame, old_rest, hO2⟩ : ∃ a b, oldl = a :: b := by
      cases oldl with
      | nil => simp at hlen
      | cons a b => exact ⟨a, b, rfl⟩
    obtain ⟨new_frame, new_rest, hN2⟩ :
        ∃ a b, s.frames s.current_ssrc ++ [frame] = a :: b := by
      cases s.frames s.current_ssrc with
      | nil => exact ⟨frame, [], rfl⟩
      | cons x xs => exact ⟨x, xs ++ [frame], rfl⟩
    have hstep := process_frame_crossfade tpm s frame e old_frame new_frame old_rest new_rest
      (by rw [hF]; exact hd) hF hA0 hAB (Or.inl hp) (by rw [hO, hO2]) hN2
    rw [hO2] at hf
    cases tl with
    | nil =>
      simp only [List.length_nil, Nat.cast_zero, zero_add] at htr
      rw [finish_transition_done _ _ (by simpa [crossfade_state] using hA0)
        (by simp only [crossfade_state]; omega)] at hstep
      simp only [run_frames, List.append_nil]
      rw [hstep]
      rcases List.mem_cons.1 hf with h | h
      · rw [h]; simp
      · simp only [crossfade_state, Function.update_noteq hAB, Function.update_same]
        simp only [List.mem_append, List.mem_map]
        exact Or.inr ⟨f, h, rfl⟩
    | cons q tl2 =>
      simp only [List.length_cons, Nat.cast_add, Nat.cast_one] at htr
      rw [finish_transition_not_yet _ _ (by simp only [crossfade_state]; omega)] at hstep
      rw [run_frames]
      simp only [List.mem_append]
      rcases List.mem_cons.1 hf with h | h
      · left
        rw [hstep, h]
        simp
      · right
        exact ih (process_frame tpm s frame e).1 old_rest htl
          (by rw [hstep]; rfl) (by rw [hstep]; rfl) hA0 hAB (by rw [hstep]; rfl)
          (by rw [hstep]; exact sweep_disabled_none _ _ _ _ hd)
          (by rw [hstep]; simp [crossfade_state, Function.update_noteq hAB])
          (by rw [hO2] at hlen; simp only [List.length_cons] at hlen ⊢; omega)
          (List.cons_ne_nil _ _)
          (by rw [hstep]; simp only [crossfade_state, List.length_cons, Nat.cast_add,
                Nat.cast_one]; omega)
          f h

/-- The age test of the sweep in clock ticks: with the age cast to whole
milliseconds, an entry is older than `SOURCE_TIMEOUT` from `SOURCE_TIMEOUT + 1`
milliseconds on. -/
theorem age_exceeds_iff (tpm : Nat) (now T : Int) (hp : 0 < tpm) :
    Int.tdiv (now - T) tpm > SOURCE_TIMEOUT ↔ T + (SOURCE_TIMEOUT + 1) * tpm ≤ now := by
  constructor
  · intro h
    by_contra hlt
    have hp2 : (0 : Int) < (tpm : Int) := by exact_mod_cast hp
    unfold SOURCE_TIMEOUT at *
    rcases lt_or_le (now - T) 0 with hneg | hpos
    · have h1 : 0 ≤ Int.tdiv (-(now - T)) tpm := Int.tdiv_nonneg (by omega) (by omega)
      rw [Int.neg_tdiv] at h1
      omega
    · rw [Int.tdiv_eq_ediv hpos (by omega)] at h
      have : (now - T) / (tpm : Int) < 500 + 1 :=
        Int.ediv_lt_of_lt_mul hp2 (by linarith)
      omega
  · exact age_exceeds tpm now T hp

/-! ## The claims -/

/-- C1: in a crossfade step (a frame of the active source arrives, a fading
source is set, prefilling is over after the frame is buffered, both buffers are
non-empty) with equal descriptors of the two popped frames, exactly one frame is
submitted, it is as long as the new frame, and each of its bytes is
`(new[i]*t + old[i]*(TRANSITION_COUNT - t)) / TRANSITION_COUNT` with the
division truncating toward zero, `t` being the transition counter after the
increment of this step; old = 0, new = 100, t = 3 gives 30. -/
theorem C1_crossfade_blend (tpm : Nat) (s : state_blend_common) (frame : video_frame)
    (e : environment) (old_frame new_frame : video_frame) (old_rest new_rest : List video_frame)
    (hnd : s.disabled_ssrc frame.ssrc = none)
    (hcur : frame.ssrc = s.current_ssrc)
    (hold : s.old_ssrc ≠ 0)
    (hne : s.old_ssrc ≠ s.current_ssrc)
    (hpre : s.prefill = false ∨ BUFFER_LEN ≤ (s.frames s.current_ssrc).length + 1)
    (hO : s.frames s.old_ssrc = old_frame :: old_rest)
    (hN : s.frames s.current_ssrc ++ [frame] = new_frame :: new_rest)
    (hdesc : old_frame.desc = new_frame.desc)
    (ht0 : 0 ≤ s.transition) (ht1 : s.transition < TRANSITION_COUNT)
    (hwo : old_frame.wf) (hwn : new_frame.wf) :
    (∃ out : List Nat,
      submitted (process_frame tpm s frame e).2 = [⟨s.current_ssrc, out⟩] ∧
      out.length = new_frame.data.length ∧
      ∀ i o n : Nat, old_frame.data[i]? = some o → new_frame.data[i]? = some n →
        ∃ b : Nat, out[i]? = some b ∧
          (b : Int) = Int.tdiv ((n : Int) * (s.transition + 1) +
            (o : Int) * (TRANSITION_COUNT - (s.transition + 1))) TRANSITION_COUNT) ∧
    blend_byte 3 0 100 = 30 := by
  refine ⟨⟨blend_data (s.transition + 1) old_frame.data new_frame.data, ?_, ?_, ?_⟩, by decide⟩
  · rw [process_frame_crossfade tpm s frame e old_frame new_frame old_rest new_rest
      hnd hcur hold hne hpre hO hN]
    have hd : video_desc_eq old_frame.desc new_frame.desc = true := by
      simp [video_desc_eq, hdesc]
    simp [submitted_append, submitted_check_reconf, submitted_finish_transition, hd, submitted]
  · exact blend_data_length _ _ _
  · intro i o n ho hn
    refine ⟨blend_byte (s.transition + 1) o n, blend_data_getElem? _ _ _ i o n ho hn, ?_⟩
    apply blend_byte_exact
    · omega
    · unfold TRANSITION_COUNT at *; omega
    · exact hwo o (List.getElem?_mem ho)
    · exact hwn n (List.getElem?_mem hn)

theorem C1_crossfade_blend_witness :
    (∃ out : List Nat,
      submitted (process_frame 1 crossfade_sample ⟨2, sample_desc, [100]⟩ sample_env).2
        = [⟨2, out⟩] ∧
      out.length = 1 ∧
      ∀ i o n : Nat, [0][i]? = some o → [100][i]? = some n →
        ∃ b : Nat, out[i]? = some b ∧
          (b : Int) = Int.tdiv ((n : Int) * (2 + 1) + (o : Int) * (TRANSITION_COUNT - (2 + 1)))
            TRANSITION_COUNT) ∧
    blend_byte 3 0 100 = 30 :=
  C1_crossfade_blend 1 crossfade_sample ⟨2, sample_desc, [100]⟩ sample_env
    ⟨1, sample_desc, [0]⟩ ⟨2, sample_desc, [100]⟩ [] []
    (by decide) (by decide) (by decide) (by decide) (by decide) (by decide) (by decide)
    (by decide) (by decide) (by decide) (by decide) (by decide)

/-- C2, the claim as stated fails: with source 1 active and the debounce
counter 0, the fifth frame of a burst of source 2 is skipped like the four
before it; source 1 is still active and the counter is 5. -/
theorem C2_fifth_frame_not_promoted :
    (run_frames 1 steady_sample (burst 2 0 5)).1.current_ssrc = 1 ∧
    (run_frames 1 steady_sample (burst 2 0 5)).1.old_ssrc = 0 ∧
    (run_frames 1 steady_sample (burst 2 0 5)).1.skipped = 5 ∧
    (run_frames 1 steady_sample (burst 2 0 5)).1.frames 2 = [] ∧
    ¬ ((run_frames 1 steady_sample (burst 2 0 5)).1.current_ssrc = 2 ∧
       (run_frames 1 steady_sample (burst 2 0 5)).1.old_ssrc = 1) := by
  decide

/-- C2 as amended: starting with the debounce counter 0, a burst of frames of
a source B that is neither active, fading nor disabled and has nothing
buffered leaves, after each of its first 5 = SKIP_FIRST_N_FRAMES_IN_STREAM
frames, the active and the fading source and every buffer as they were
(buffer[B] is empty), submits and frees nothing, and counts the frame; the
6th frame promotes B: active = B, fading = the former active source, and
the frame is the only one in buffer[B]. -/
theorem C2_debounce_promotes_on_sixth (tpm : Nat) (s : state_blend_common) (B : Nat)
    (fs : List (video_frame × environment)) (f6 : video_frame) (e6 : environment)
    (hsk : s.skipped = 0) (hc : B ≠ s.current_ssrc) (ho : B ≠ s.old_ssrc)
    (hd : s.disabled_ssrc B = none) (hbuf : s.frames B = [])
    (htr : s.transition < TRANSITION_COUNT)
    (hfs : ∀ p ∈ fs, p.1.ssrc = B) (hlen : fs.length = 5) (h6 : f6.ssrc = B) :
    (∀ k : Nat, k ≤ 5 →
      (run_frames tpm s (fs.take k)).1.current_ssrc = s.current_ssrc ∧
      (run_frames tpm s (fs.take k)).1.old_ssrc = s.old_ssrc ∧
      (run_frames tpm s (fs.take k)).1.frames = s.frames ∧
      (run_frames tpm s (fs.take k)).1.frames B = [] ∧
      (run_frames tpm s (fs.take k)).1.skipped = k ∧
      (run_frames tpm s (fs.take k)).2 = []) ∧
    (process_frame tpm (run_frames tpm s fs).1 f6 e6).1.current_ssrc = B ∧
    (process_frame tpm (run_frames tpm s fs).1 f6 e6).1.old_ssrc = s.current_ssrc ∧
    (process_frame tpm (run_frames tpm s fs).1 f6 e6).1.frames B = [f6] ∧
    (process_frame tpm (run_frames tpm s fs).1 f6 e6).1.skipped = 0 := by
  constructor
  · intro k hk
    have hlk : (fs.take k).length = k := by
      rw [List.length_take]; omega
    have h := run_frames_skip tpm B (fs.take k) s
      (fun p hp => hfs p (List.mem_of_mem_take hp)) hc ho hd
      (by rw [hlk, hsk]; unfold SKIP_FIRST_N_FRAMES_IN_STREAM; omega)
    obtain ⟨h1, h2, h3, -, -, -, h7, -, h9⟩ := h
    refine ⟨h1, h2, h3, ?_, ?_, h9⟩
    · rw [h3]; exact hbuf
    · rw [h7, hlk, hsk]; simp
  · have h := run_frames_skip tpm B fs s hfs hc ho hd
      (by rw [hlen, hsk]; unfold SKIP_FIRST_N_FRAMES_IN_STREAM; omega)
    obtain ⟨h1, h2, h3, h4, -, -, h7, h8, -⟩ := h
    have hp := process_frame_promote_fresh tpm (run_frames tpm s fs).1 f6 e6
      (by rw [h6]; exact h8) (by rw [h6, h1]; exact hc) (by rw [h6, h2]; exact ho)
      (by rw [h7, hlen, hsk]; unfold SKIP_FIRST_N_FRAMES_IN_STREAM; omega)
      (by rw [h6, h3]; exact hbuf) (by rw [h4]; exact htr)
    obtain ⟨p1, p2, p3, p4, -, -⟩ := hp
    rw [h6] at p1 p3
    rw [h1] at p2
    exact ⟨p1, p2, p3, p4⟩

theorem C2_debounce_promotes_on_sixth_witness :
    (∀ k : Nat, k ≤ 5 →
      (run_frames 1 steady_sample ((burst 2 0 5).take k)).1.current_ssrc = 1 ∧
      (run_frames 1 steady_sample ((burst 2 0 5).take k)).1.old_ssrc = 0 ∧
      (run_frames 1 steady_sample ((burst 2 0 5).take k)).1.frames = steady_sample.frames ∧
      (run_frames 1 steady_sample ((burst 2 0 5).take k)).1.frames 2 = [] ∧
      (run_frames 1 steady_sample ((burst 2 0 5).take k)).1.skipped = k ∧
      (run_frames 1 steady_sample ((burst 2 0 5).take k)).2 = []) ∧
    (process_frame 1 (run_frames 1 steady_sample (burst 2 0 5)).1
      (sample_frame 2 5) sample_env).1.current_ssrc = 2 ∧
    (process_frame 1 (run_frames 1 steady_sample (burst 2 0 5)).1
      (sample_frame 2 5) sample_env).1.old_ssrc = 1 ∧
    (process_frame 1 (run_frames 1 steady_sample (burst 2 0 5)).1
      (sample_frame 2 5) sample_env).1.frames 2 = [sample_frame 2 5] ∧
    (process_frame 1 (run_frames 1 steady_sample (burst 2 0 5)).1
      (sample_frame 2 5) sample_env).1.skipped = 0 :=
  C2_debounce_promotes_on_sixth 1 steady_sample 2 (burst 2 0 5) (sample_frame 2 5) sample_env
    (by decide) (by decide) (by decide) (by decide) (by decide) (by decide)
    (by decide) (by decide) (by decide)

/-- C3, the claim as stated fails: the first frame a freshly initialised
engine gets from source 1 is skipped by the debounce: no source is active
afterwards and the frame is not in buffer[1]. -/
theorem C3_first_frame_not_promoted :
    (process_frame 1 init_state (sample_frame 1 0) sample_env).1.current_ssrc = 0 ∧
    (process_frame 1 init_state (sample_frame 1 0) sample_env).1.frames 1 = [] ∧
    (process_frame 1 init_state (sample_frame 1 0) sample_env).1.skipped = 1 ∧
    ¬ ((process_frame 1 init_state (sample_frame 1 0) sample_env).1.current_ssrc = 1 ∧
       sample_frame 1 0 ∈ (process_frame 1 init_state (sample_frame 1 0) sample_env).1.frames 1) := by
  decide

/-- C3 as amended: the initial (idle) state debounces like any other: the
first 5 = SKIP_FIRST_N_FRAMES_IN_STREAM frames of a source with a non-zero id
are skipped (after each of them no source is active, nothing is buffered and
nothing is submitted), and the 6th frame promotes the source: active = id, no
fading source, the frame is in buffer[id] and prefilling is on. -/
theorem C3_idle_promotes_on_sixth (tpm : Nat) (id : Nat)
    (fs : List (video_frame × environment)) (f6 : video_frame) (e6 : environment)
    (hid : id ≠ 0) (hfs : ∀ p ∈ fs, p.1.ssrc = id) (hlen : fs.length = 5)
    (h6 : f6.ssrc = id) :
    (∀ k : Nat, k ≤ 5 →
      (run_frames tpm init_state (fs.take k)).1.current_ssrc = 0 ∧
      (run_frames tpm init_state (fs.take k)).1.frames id = [] ∧
      (run_frames tpm init_state (fs.take k)).2 = []) ∧
    (process_frame tpm (run_frames tpm init_state fs).1 f6 e6).1.current_ssrc = id ∧
    (process_frame tpm (run_frames tpm init_state fs).1 f6 e6).1.old_ssrc = 0 ∧
    (process_frame tpm (run_frames tpm init_state fs).1 f6 e6).1.frames id = [f6] ∧
    (process_frame tpm (run_frames tpm init_state fs).1 f6 e6).1.prefill = true := by
  have hc : id ≠ init_state.current_ssrc := hid
  have ho : id ≠ init_state.old_ssrc := hid
  have hd : init_state.disabled_ssrc id = none := rfl
  constructor
  · intro k hk
    have hlk : (fs.take k).length = k := by
      rw [List.length_take]; omega
    have h := run_frames_skip tpm id (fs.take k) init_state
      (fun p hp => hfs p (List.mem_of_mem_take hp)) hc ho hd
      (by rw [hlk]; simp only [init_state, SKIP_FIRST_N_FRAMES_IN_STREAM]; omega)
    obtain ⟨h1, -, h3, -, -, -, -, -, h9⟩ := h
    refine ⟨h1, ?_, h9⟩
    rw [h3]; rfl
  · have h := run_frames_skip tpm id fs init_state hfs hc ho hd
      (by rw [hlen]; simp only [init_state, SKIP_FIRST_N_FRAMES_IN_STREAM]; omega)
    obtain ⟨h1, h2, h3, h4, -, -, h7, h8, -⟩ := h
    have hp := process_frame_promote_fresh tpm (run_frames tpm init_state fs).1 f6 e6
      (by rw [h6]; exact h8) (by rw [h6, h1]; exact hc) (by rw [h6, h2]; exact ho)
      (by rw [h7, hlen]; simp only [init_state, SKIP_FIRST_N_FRAMES_IN_STREAM]; omega)
      (by rw [h6, h3]; rfl) (by rw [h4]; simp only [init_state, TRANSITION_COUNT]; omega)
    obtain ⟨p1, p2, p3, -, p5, -⟩ := hp
    rw [h6] at p1 p3
    rw [h1] at p2
    exact ⟨p1, p2, p3, p5⟩

theorem C3_idle_promotes_on_sixth_witness :
    (∀ k : Nat, k ≤ 5 →
      (run_frames 1 init_state ((burst 1 0 5).take k)).1.current_ssrc = 0 ∧
      (run_frames 1 init_state ((burst 1 0 5).take k)).1.frames 1 = [] ∧
      (run_frames 1 init_state ((burst 1 0 5).take k)).2 = []) ∧
    (process_frame 1 (run_frames 1 init_state (burst 1 0 5)).1
      (sample_frame 1 5) sample_env).1.current_ssrc = 1 ∧
    (process_frame 1 (run_frames 1 init_state (burst 1 0 5)).1
      (sample_frame 1 5) sample_env).1.old_ssrc = 0 ∧
    (process_frame 1 (run_frames 1 init_state (burst 1 0 5)).1
      (sample_frame 1 5) sample_env).1.frames 1 = [sample_frame 1 5] ∧
    (process_frame 1 (run_frames 1 init_state (burst 1 0 5)).1
      (sample_frame 1 5) sample_env).1.prefill = true :=
  C3_idle_promotes_on_sixth 1 1 (burst 1 0 5) (sample_frame 1 5) sample_env
    (by decide) (by decide) (by decide) (by decide)

/-- C4, the claim as stated fails: feeding 5 frames of source 1 to a freshly
initialised engine submits nothing at all (all 5 are skipped by the
debounce). -/
theorem C4_five_frames_no_submission :
    submitted (run_frames 1 init_state (burst 1 0 5)).2 = [] ∧
    (submitted (run_frames 1 init_state (burst 1 0 5)).2).length ≠ 5 := by
  decide

/-- C4 as amended: feeding n frames of a single source A (non-zero id) to a
freshly initialised engine produces exactly n - 9 submissions (none up to
n = 9: the first SKIP_FIRST_N_FRAMES_IN_STREAM = 5 frames are skipped and the
next BUFFER_LEN - 1 = 4 only fill the buffer), the k-th submission being a
byte-for-byte copy of the (k+5)-th frame fed. -/
theorem C4_single_source_submissions (tpm : Nat) (A : Nat)
    (fs : List (video_frame × environment))
    (hA : A ≠ 0) (hfs : ∀ p ∈ fs, p.1.ssrc = A) :
    submitted (run_frames tpm init_state fs).2 =
      (((fs.map Prod.fst).drop 5).take (fs.length - 9)).map (copy_of A) := by
  have hc : A ≠ init_state.current_ssrc := hA
  have ho : A ≠ init_state.old_ssrc := hA
  have hd : init_state.disabled_ssrc A = none := rfl
  by_cases hlen : fs.length ≤ 5
  · have h := run_frames_skip tpm A fs init_state hfs hc ho hd
      (by simp only [init_state, SKIP_FIRST_N_FRAMES_IN_STREAM]; omega)
    have h0 : fs.length - 9 = 0 := by omega
    rw [h.2.2.2.2.2.2.2.2, h0]
    simp [submitted]
  · have hsplit : fs = fs.take 5 ++ fs.drop 5 := (List.take_append_drop 5 fs).symm
    have hl5 : (fs.take 5).length = 5 := by rw [List.length_take]; omega
    have h := run_frames_skip tpm A (fs.take 5) init_state
      (fun p hp => hfs p (List.mem_of_mem_take hp)) hc ho hd
      (by rw [hl5]; simp only [init_state, SKIP_FIRST_N_FRAMES_IN_STREAM]; omega)
    obtain ⟨h1, h2, h3, -, -, -, h7, h8, h9⟩ := h
    cases hdrop : fs.drop 5 with
    | nil =>
      have : (fs.drop 5).length = 0 := by rw [hdrop]; rfl
      rw [List.length_drop] at this
      omega
    | cons p tl =>
      obtain ⟨f6, e6⟩ := p
      have hmem : ∀ q ∈ fs.drop 5, q.1.ssrc = A := fun q hq => hfs q (List.mem_of_mem_drop hq)
      rw [hdrop] at hmem
      have h6 : f6.ssrc = A := hmem (f6, e6) (List.mem_cons_self _ _)
      have htl : ∀ q ∈ tl, q.1.ssrc = A := fun q hq => hmem q (List.mem_cons_of_mem _ hq)
      subst h6
      have hn : fs.length = tl.length + 6 := by
        have : (fs.drop 5).length = tl.length + 1 := by rw [hdrop]; rfl
        rw [List.length_drop] at this
        omega
      have hstep := process_frame_promote_idle tpm (run_frames tpm init_state (fs.take 5)).1
        f6 e6 h8 (by rw [h1]; rfl) hA (by rw [h2]; exact ho)
        (by rw [h7, hl5]; simp only [init_state, SKIP_FIRST_N_FRAMES_IN_STREAM]; omega)
        (by rw [h3]; rfl)
      have hp := run_frames_prefill tpm f6.ssrc tl
        (process_frame tpm (run_frames tpm init_state (fs.take 5)).1 f6 e6).1 htl
        (by rw [hstep]) (by rw [hstep])
        (by rw [hstep]; exact sweep_disabled_none _ _ _ _ h8) (by rw [hstep])
        (by rw [hstep]; simp [BUFFER_LEN])
      have hfr : (process_frame tpm (run_frames tpm init_state (fs.take 5)).1 f6
          e6).1.frames f6.ssrc = [f6] := by
        rw [hstep]; simp
      have hev : (process_frame tpm (run_frames tpm init_state (fs.take 5)).1 f6 e6).2 = [] := by
        rw [hstep]
      rw [hfr] at hp
      have hmap : (fs.map Prod.fst).drop 5 = f6 :: tl.map Prod.fst := by
        rw [← List.map_drop, hdrop]; rfl
      have hk : fs.length - 9 = tl.length - (BUFFER_LEN - 1 - [f6].length) := by
        simp only [BUFFER_LEN, List.length_singleton]; omega
      rw [hmap, hk]
      conv_lhs => rw [hsplit]
      rw [run_frames_append, hdrop]
      simp only [run_frames, submitted_append, h9, hev, submitted, List.nil_append]
      rw [hp]
      rfl

theorem C4_single_source_submissions_witness :
    submitted (run_frames 1 init_state (burst 1 0 14)).2 =
      ((((burst 1 0 14).map Prod.fst).drop 5).take ((burst 1 0 14).length - 9)).map (copy_of 1) :=
  C4_single_source_submissions 1 1 (burst 1 0 14) (by decide) (by decide)

/-- C5: from a state with active = B, fading = A (non-zero, distinct from B),
transition = 0, prefilling false when the first frame reaches the output
decision (false already, or cleared by that frame because it brings buffer[B]
to `BUFFER_LEN`, which is how the loop enters a crossfade), B not disabled, at
least 10 frames in buffer[A], one descriptor for all frames involved and bytes
as tile data, 10 consecutive frames of B submit exactly 10 frames. The k-th
(from 1) has the length of the k-th frame of buffer[B] followed by the
arrivals, and each of its bytes is
`(new[i]*k + old[i]*(TRANSITION_COUNT - k)) / TRANSITION_COUNT`, the division
truncating toward zero, old being the k-th frame of buffer[A]. Afterwards B is
the sole active source: fading = 0, transition = 0, A is in disabled, buffer[A]
is empty, and every frame that was in buffer[A] has been freed. -/
theorem C5_crossfade_completes (tpm : Nat) (s : state_blend_common) (A B : Nat)
    (d : video_desc) (fs : List (video_frame × environment))
    (hB : s.current_ssrc = B) (hA : s.old_ssrc = A) (hA0 : A ≠ 0) (hAB : A ≠ B)
    (hp : s.prefill = false ∨ BUFFER_LEN ≤ (s.frames B).length + 1)
    (ht : s.transition = 0) (hd : s.disabled_ssrc B = none)
    (hlenA : 10 ≤ (s.frames A).length)
    (hdo : ∀ f ∈ s.frames A, f.desc = d) (hdn : ∀ f ∈ s.frames B, f.desc = d)
    (hfs : ∀ p ∈ fs, p.1.ssrc = B ∧ p.1.desc = d) (hlen : fs.length = 10)
    (hwo : ∀ f ∈ s.frames A, f.wf) (hwn : ∀ f ∈ s.frames B, f.wf)
    (hwf : ∀ p ∈ fs, p.1.wf) :
    (submitted (run_frames tpm s fs).2).length = 10 ∧
    (∀ (k : Nat) (o n : video_frame), k < 10 →
      (s.frames A)[k]? = some o → (s.frames B ++ fs.map Prod.fst)[k]? = some n →
      ∃ out : List Nat,
        (submitted (run_frames tpm s fs).2)[k]? = some ⟨B, out⟩ ∧
        out.length = n.data.length ∧
        ∀ i a b : Nat, o.data[i]? = some a → n.data[i]? = some b →
          ∃ v : Nat, out[i]? = some v ∧
            (v : Int) = Int.tdiv ((b : Int) * ((k : Int) + 1) +
              (a : Int) * (TRANSITION_COUNT - ((k : Int) + 1))) TRANSITION_COUNT) ∧
    (run_frames tpm s fs).1.current_ssrc = B ∧
    (run_frames tpm s fs).1.old_ssrc = 0 ∧
    (run_frames tpm s fs).1.transition = 0 ∧
    ((run_frames tpm s fs).1.disabled_ssrc A).isSome = true ∧
    (run_frames tpm s fs).1.frames A = [] ∧
    (∀ f ∈ s.frames A, event.vf_free f ∈ (run_frames tpm s fs).2) := by
  have hne : fs ≠ [] := by
    intro h; rw [h] at hlen; simp at hlen
  have hO : s.frames s.old_ssrc ≠ [] := by
    intro h
    rw [hA] at h
    rw [h] at hlenA
    simp at hlenA
  have key : run_frames tpm s fs = run_frames tpm { s with prefill := false } fs := by
    rcases hp with h | h
    · have : ({ s with prefill := false } : state_blend_common) = s := by
        cases s
        simp only at h
        subst h
        rfl
      rw [this]
    · exact run_frames_crossfade_entry tpm s fs hne (fun p hp => by rw [hB]; exact (hfs p hp).1)
        (by rw [hB]; exact hd) (by rw [hA]; exact hA0) (by rw [hA, hB]; exact hAB)
        (by rw [hB]; exact h) hO
  have htr : ({ s with prefill := false } : state_blend_common).transition + (fs.length : Int)
      = TRANSITION_COUNT := by
    show s.transition + (fs.length : Int) = TRANSITION_COUNT
    rw [ht, hlen]
    simp [TRANSITION_COUNT]
  have h := run_frames_crossfade_complete tpm A B d fs { s with prefill := false }
    (s.frames A) (s.frames B) hfs hB hA hA0 hAB rfl hd rfl rfl hdo hdn (by omega) hne htr
  have hfree := run_frames_crossfade_freed tpm A B fs { s with prefill := false }
    (s.frames A) (fun p hp => (hfs p hp).1) hB hA hA0 hAB rfl hd rfl (by omega) hne htr
  rw [key]
  obtain ⟨h1, h2, h3, h4, h5, h6⟩ := h
  have h7 : submitted (run_frames tpm { s with prefill := false } fs).2 =
      crossfade_frames B 0 (s.frames A) (s.frames B ++ fs.map Prod.fst) 10 := by
    rw [h6, hlen]
    show crossfade_frames B s.transition _ _ 10 = _
    rw [ht]
  refine ⟨?_, ?_, h1, h2, h3, h4, h5, hfree⟩
  · rw [h7]
    exact crossfade_frames_length B 10 0 _ _ hlenA (by simp [hlen])
  · intro k o n hk ho hn
    refine ⟨blend_data ((k : Int) + 1) o.data n.data, ?_, blend_data_length _ _ _, ?_⟩
    · rw [h7, crossfade_frames_getElem? B 10 0 _ _ k o n hk ho hn]
      simp
    · intro i a b ha hb
      refine ⟨blend_byte ((k : Int) + 1) a b, blend_data_getElem? _ _ _ i a b ha hb, ?_⟩
      have hwfn : n.wf := by
        rcases List.mem_append.1 (List.getElem?_mem hn) with hm | hm
        · exact hwn n hm
        · obtain ⟨p, hp1, hp2⟩ := List.mem_map.1 hm
          rw [← hp2]
          exact hwf p hp1
      apply blend_byte_exact
      · omega
      · unfold TRANSITION_COUNT; omega
      · exact hwo o (List.getElem?_mem ho) a (List.getElem?_mem ha)
      · exact hwfn b (List.getElem?_mem hb)

theorem C5_crossfade_completes_witness :
    (submitted (run_frames 1 (run_frames 1 init_state crossfade_entry_sample).1
      (burst 2 109 10)).2).length = 10 ∧
    (∀ (k : Nat) (o n : video_frame), k < 10 →
      ((run_frames 1 init_state crossfade_entry_sample).1.frames 1)[k]? = some o →
      ((run_frames 1 init_state crossfade_entry_sample).1.frames 2 ++
        (burst 2 109 10).map Prod.fst)[k]? = some n →
      ∃ out : List Nat,
        (submitted (run_frames 1 (run_frames 1 init_state crossfade_entry_sample).1
          (burst 2 109 10)).2)[k]? = some ⟨2, out⟩ ∧
        out.length = n.data.length ∧
        ∀ i a b : Nat, o.data[i]? = some a → n.data[i]? = some b →
          ∃ v : Nat, out[i]? = some v ∧
            (v : Int) = Int.tdiv ((b : Int) * ((k : Int) + 1) +
              (a : Int) * (TRANSITION_COUNT - ((k : Int) + 1))) TRANSITION_COUNT) ∧
    (run_frames 1 (run_frames 1 init_state crossfade_entry_sample).1
      (burst 2 109 10)).1.current_ssrc = 2 ∧
    (run_frames 1 (run_frames 1 init_state crossfade_entry_sample).1
      (burst 2 109 10)).1.old_ssrc = 0 ∧
    (run_frames 1 (run_frames 1 init_state crossfade_entry_sample).1
      (burst 2 109 10)).1.transition = 0 ∧
    ((run_frames 1 (run_frames 1 init_state crossfade_entry_sample).1
      (burst 2 109 10)).1.disabled_ssrc 1).isSome = true ∧
    (run_frames 1 (run_frames 1 init_state crossfade_entry_sample).1
      (burst 2 109 10)).1.frames 1 = [] ∧
    (∀ f ∈ (run_frames 1 init_state crossfade_entry_sample).1.frames 1,
      event.vf_free f ∈ (run_frames 1 (run_frames 1 init_state crossfade_entry_sample).1
        (burst 2 109 10)).2) :=
  C5_crossfade_completes 1 (run_frames 1 init_state crossfade_entry_sample).1 1 2 sample_desc
    (burst 2 109 10)
    (by decide!) (by decide!) (by decide!) (by decide!) (Or.inr (by decide!)) (by decide!)
    (by decide!) (by decide!) (by decide!) (by decide!) (by decide!) (by decide!)
    (by decide!) (by decide!) (by decide!)

/-- C6: let source X have the entry T in disabled (X being neither active nor
fading, as after its eviction) and let no frame of X arrive. After processing
any frames at times up to T + SOURCE_TIMEOUT - 1 ms the entry is still there,
unchanged; after processing, whatever came in between, a frame of a source that
is not disabled at a time of T + SOURCE_TIMEOUT + 1 ms or later, X is no longer
in disabled. The sweep removes exactly the entries whose age in milliseconds is
greater than SOURCE_TIMEOUT and leaves the others as they are. -/
theorem C6_disabled_entry_times_out (tpm : Nat) (s : state_blend_common) (X : Nat) (T : Int)
    (fs1 fs2 : List (video_frame × environment)) (f : video_frame) (e : environment)
    (htpm : 0 < tpm) (hX : s.disabled_ssrc X = some T)
    (hc : s.current_ssrc ≠ X) (ho : s.old_ssrc ≠ X) (hX0 : X ≠ 0)
    (h1 : ∀ p ∈ fs1, p.1.ssrc ≠ X) (h2 : ∀ p ∈ fs2, p.1.ssrc ≠ X)
    (ht1 : ∀ p ∈ fs1, p.2.now ≤ T + (SOURCE_TIMEOUT - 1) * tpm)
    (hf : f.ssrc ≠ X)
    (hfd : (run_frames tpm s (fs1 ++ fs2)).1.disabled_ssrc f.ssrc = none)
    (hft : T + (SOURCE_TIMEOUT + 1) * tpm ≤ e.now) :
    (run_frames tpm s fs1).1.disabled_ssrc X = some T ∧
    (process_frame tpm (run_frames tpm s (fs1 ++ fs2)).1 f e).1.disabled_ssrc X = none ∧
    (∀ (now : Int) (d : Nat → Option Int) (k : Nat),
      (sweep_disabled tpm now d k = none ↔
        d k = none ∨ ∃ t, d k = some t ∧ Int.tdiv (now - t) tpm > SOURCE_TIMEOUT) ∧
      (∀ t, sweep_disabled tpm now d k = some t → d k = some t)) := by
  refine ⟨?_, ?_, ?_⟩
  · exact run_frames_other_keep tpm X T fs1 s hc ho hX0 h1
      (fun p hp => age_within tpm p.2.now T htpm (ht1 p hp)) hX
  · have h12 : ∀ p ∈ fs1 ++ fs2, p.1.ssrc ≠ X := by
      intro p hp
      rcases List.mem_append.1 hp with h | h
      · exact h1 p h
      · exact h2 p h
    obtain ⟨r1, r2, r3⟩ := run_frames_other tpm X T (fs1 ++ fs2) s hc ho hX0 h12 (Or.inl hX)
    obtain ⟨-, -, s3⟩ :=
      process_frame_other tpm (run_frames tpm s (fs1 ++ fs2)).1 f e X r1 r2 hX0 hf
    rcases s3 with ⟨hsome, -⟩ | ⟨-, h⟩
    · rw [hfd] at hsome
      simp at hsome
    · rw [h]
      rcases r3 with r3 | r3
      · exact sweep_disabled_expire tpm e.now T _ X r3 (age_exceeds tpm e.now T htpm hft)
      · exact sweep_disabled_none _ _ _ _ r3
  · intro now d k
    constructor
    · constructor
      · intro h
        cases hk : d k with
        | none => exact Or.inl rfl
        | some t =>
          refine Or.inr ⟨t, rfl, ?_⟩
          by_contra hage
          rw [sweep_disabled_keep tpm now t d k hk hage] at h
          simp at h
      · rintro (h | ⟨t, ht, hage⟩)
        · exact sweep_disabled_none _ _ _ _ h
        · exact sweep_disabled_expire tpm now t d k ht hage
    · intro t h
      exact sweep_disabled_some tpm now t d k h

theorem C6_disabled_entry_times_out_witness :
    (run_frames 1 evicted_sample [(sample_frame 2 7, env_at 499)]).1.disabled_ssrc 1 = some 0 ∧
    (process_frame 1
      (run_frames 1 evicted_sample ([(sample_frame 2 7, env_at 499)] ++ [])).1
      (sample_frame 2 8) (env_at 501)).1.disabled_ssrc 1 = none ∧
    (∀ (now : Int) (d : Nat → Option Int) (k : Nat),
      (sweep_disabled 1 now d k = none ↔
        d k = none ∨ ∃ t, d k = some t ∧ Int.tdiv (now - t) (1 : Nat) > SOURCE_TIMEOUT) ∧
      (∀ t, sweep_disabled 1 now d k = some t → d k = some t)) :=
  C6_disabled_entry_times_out 1 evicted_sample 1 0 [(sample_frame 2 7, env_at 499)] []
    (sample_frame 2 8) (env_at 501)
    (by decide) (by decide) (by decide) (by decide) (by decide) (by decide) (by decide)
    (by decide) (by decide) (by decide) (by decide)

/-- C7, the claim as stated fails: the entry of source 1 is 1000 ms old, no
frame of another source was processed since, and a frame of source 1 arrives:
it is dropped as coming from a disabled source (freed, the debounce counter
untouched) and the entry is refreshed instead of removed. -/
theorem C7_stale_entry_still_drops :
    Int.tdiv ((env_at 1000).now - 0) (1 : Nat) > SOURCE_TIMEOUT ∧
    evicted_sample.disabled_ssrc 1 = some 0 ∧
    (process_frame 1 evicted_sample (sample_frame 1 0) (env_at 1000)).2
      = [event.vf_free (sample_frame 1 0)] ∧
    (process_frame 1 evicted_sample (sample_frame 1 0) (env_at 1000)).1.disabled_ssrc 1
      = some 1000 ∧
    (process_frame 1 evicted_sample (sample_frame 1 0) (env_at 1000)).1.skipped
      = evicted_sample.skipped ∧
    (process_frame 1 evicted_sample (sample_frame 1 0) (env_at 1000)).1.current_ssrc
      = evicted_sample.current_ssrc := by
  decide

/-- C7 as amended: a frame of X is dropped, and refreshes disabled[X] = now,
whenever X still has an entry in disabled, however old that entry is. The entry
is removed only by the sweep that runs when a frame of a source that is not
disabled is processed, and only if its age at that moment, cast to whole
milliseconds, is greater than SOURCE_TIMEOUT, that is, if the frame is
processed SOURCE_TIMEOUT + 1 milliseconds or more after the time stamp of the
entry. After such a frame X is no longer in disabled and a frame of X is
treated as one of a new source: it goes through the debounce/promotion step
(skipped and counted while the counter is below SKIP_FIRST_N_FRAMES_IN_STREAM,
promoted otherwise). A frame of a source that is not disabled processed earlier
than that, also later than SOURCE_TIMEOUT after the time stamp, leaves the
entry as it is, and a frame of X is then still dropped. -/
theorem C7_reentry_needs_sweep (tpm : Nat) (s : state_blend_common) (X : Nat) (T : Int)
    (f g : video_frame) (e eg : environment)
    (htpm : 0 < tpm) (hX : s.disabled_ssrc X = some T)
    (hc : s.current_ssrc ≠ X) (ho : s.old_ssrc ≠ X) (hX0 : X ≠ 0)
    (hf : f.ssrc = X) (hg : g.ssrc ≠ X) (hgd : s.disabled_ssrc g.ssrc = none)
    (hgt : Int.tdiv (eg.now - T) tpm > SOURCE_TIMEOUT) :
    process_frame tpm s f e =
      ({ s with disabled_ssrc := Function.update s.disabled_ssrc X (some e.now) },
        [event.vf_free f]) ∧
    (process_frame tpm s g eg).1.disabled_ssrc X = none ∧
    (if (process_frame tpm s g eg).1.skipped < SKIP_FIRST_N_FRAMES_IN_STREAM then
      process_frame tpm (process_frame tpm s g eg).1 f e =
        ({ (process_frame tpm s g eg).1 with
            disabled_ssrc := sweep_disabled tpm e.now (process_frame tpm s g eg).1.disabled_ssrc
            skipped := (process_frame tpm s g eg).1.skipped + 1 }, [])
    else
      (process_frame tpm (process_frame tpm s g eg).1 f e).1.current_ssrc = X ∧
      (process_frame tpm (process_frame tpm s g eg).1 f e).1.skipped = 0) ∧
    T + (SOURCE_TIMEOUT + 1) * tpm ≤ eg.now ∧
    (∀ e2 : environment,
      (Int.tdiv (e2.now - T) tpm > SOURCE_TIMEOUT ↔ T + (SOURCE_TIMEOUT + 1) * tpm ≤ e2.now) ∧
      (e2.now < T + (SOURCE_TIMEOUT + 1) * tpm →
        (process_frame tpm s g e2).1.disabled_ssrc X = some T ∧
        process_frame tpm (process_frame tpm s g e2).1 f e =
          ({ (process_frame tpm s g e2).1 with
              disabled_ssrc :=
                Function.update (process_frame tpm s g e2).1.disabled_ssrc X (some e.now) },
            [event.vf_free f]))) := by
  obtain ⟨r1, r2, r3⟩ := process_frame_other tpm s g eg X hc ho hX0 hg
  have hgone : (process_frame tpm s g eg).1.disabled_ssrc X = none := by
    rcases r3 with ⟨hsome, -⟩ | ⟨-, h⟩
    · rw [hgd] at hsome
      simp at hsome
    · rw [h]
      exact sweep_disabled_expire tpm eg.now T _ X hX hgt
  refine ⟨?_, hgone, ?_, (age_exceeds_iff tpm eg.now T htpm).1 hgt, ?_⟩
  · have := process_frame_disabled tpm s f e T (by rw [hf]; exact hX)
    rw [hf] at this
    exact this
  · split_ifs with hsk
    · exact process_frame_skip tpm _ f e (by rw [hf]; exact hgone)
        (by rw [hf]; exact Ne.symm r1) (by rw [hf]; exact Ne.symm r2) hsk
    · have := process_frame_promote_current tpm (process_frame tpm s g eg).1 f e
        (by rw [hf]; exact hgone) (by rw [hf]; exact Ne.symm r1)
        (by rw [hf]; exact Ne.symm r2) (by omega)
      rw [hf] at this
      exact this
  · intro e2
    refine ⟨age_exceeds_iff tpm e2.now T htpm, ?_⟩
    intro hlt
    have hage : ¬ (Int.tdiv (e2.now - T) tpm > SOURCE_TIMEOUT) := by
      intro h
      have := (age_exceeds_iff tpm e2.now T htpm).1 h
      omega
    obtain ⟨-, -, q3⟩ := process_frame_other tpm s g e2 X hc ho hX0 hg
    have hkept : (process_frame tpm s g e2).1.disabled_ssrc X = some T := by
      rcases q3 with ⟨hsome, -⟩ | ⟨-, h⟩
      · rw [hgd] at hsome
        simp at hsome
      · rw [h]
        exact sweep_disabled_keep tpm e2.now T _ X hX hage
    refine ⟨hkept, ?_⟩
    have := process_frame_disabled tpm (process_frame tpm s g e2).1 f e T
      (by rw [hf]; exact hkept)
    rw [hf] at this
    exact this

/-- C7 as amended, at 1000 clock ticks per millisecond: a frame of source 2
processed 501 ms after the time stamp sweeps the entry of source 1, one
processed 500.5 ms after it does not. -/
theorem C7_reentry_needs_sweep_witness :
    (process_frame 1000 evicted_sample (sample_frame 2 7) (env_at 501000)).1.disabled_ssrc 1
      = none ∧
    (process_frame 1000 (process_frame 1000 evicted_sample (sample_frame 2 7)
      (env_at 501000)).1 (sample_frame 1 0) (env_at 600000)).2 = [] ∧
    (process_frame 1000 evicted_sample (sample_frame 2 7) (env_at 500500)).1.disabled_ssrc 1
      = some 0 ∧
    (process_frame 1000 (process_frame 1000 evicted_sample (sample_frame 2 7)
      (env_at 500500)).1 (sample_frame 1 0) (env_at 600000)).2
      = [event.vf_free (sample_frame 1 0)] := by
  have h := C7_reentry_needs_sweep 1000 evicted_sample 1 0 (sample_frame 1 0) (sample_frame 2 7)
    (env_at 600000) (env_at 501000)
    (by decide) (by decide) (by decide) (by decide) (by decide) (by decide) (by decide)
    (by decide) (by decide)
  obtain ⟨-, h2, h3, -, h5⟩ := h
  obtain ⟨h6, h7⟩ := (h5 (env_at 500500)).2 (by decide)
  refine ⟨h2, ?_, h6, by rw [h7]⟩
  rw [if_pos (by decide)] at h3
  rw [h3]

/-- C8: a frame whose source has an entry in disabled sets that entry to the
time `now` of the iteration, is freed without being buffered, and nothing is
submitted; the active and the fading source, the transition counter,
prefilling, the debounce counter, the output descriptor, every buffer and every
other entry of disabled stay as they are (so no sweep is run). -/
theorem C8_disabled_frame_dropped (tpm : Nat) (s : state_blend_common) (f : video_frame)
    (e : environment) (T : Int) (h : s.disabled_ssrc f.ssrc = some T) :
    (process_frame tpm s f e).1.disabled_ssrc f.ssrc = some e.now ∧
    (process_frame tpm s f e).2 = [event.vf_free f] ∧
    submitted (process_frame tpm s f e).2 = [] ∧
    (process_frame tpm s f e).1.frames = s.frames ∧
    (process_frame tpm s f e).1.current_ssrc = s.current_ssrc ∧
    (process_frame tpm s f e).1.old_ssrc = s.old_ssrc ∧
    (process_frame tpm s f e).1.transition = s.transition ∧
    (process_frame tpm s f e).1.prefill = s.prefill ∧
    (process_frame tpm s f e).1.skipped = s.skipped ∧
    (process_frame tpm s f e).1.display_desc = s.display_desc ∧
    (∀ k, k ≠ f.ssrc → (process_frame tpm s f e).1.disabled_ssrc k = s.disabled_ssrc k) := by
  rw [process_frame_disabled tpm s f e T h]
  refine ⟨by simp, rfl, rfl, rfl, rfl, rfl, rfl, rfl, rfl, rfl, ?_⟩
  intro k hk
  exact Function.update_noteq hk _ _

theorem C8_disabled_frame_dropped_witness :
    (process_frame 1 evicted_sample (sample_frame 1 0) (env_at 1000)).1.disabled_ssrc
      (sample_frame 1 0).ssrc = some (env_at 1000).now ∧
    (process_frame 1 evicted_sample (sample_frame 1 0) (env_at 1000)).2
      = [event.vf_free (sample_frame 1 0)] ∧
    submitted (process_frame 1 evicted_sample (sample_frame 1 0) (env_at 1000)).2 = [] ∧
    (process_frame 1 evicted_sample (sample_frame 1 0) (env_at 1000)).1.frames
      = evicted_sample.frames ∧
    (process_frame 1 evicted_sample (sample_frame 1 0) (env_at 1000)).1.current_ssrc
      = evicted_sample.current_ssrc ∧
    (process_frame 1 evicted_sample (sample_frame 1 0) (env_at 1000)).1.old_ssrc
      = evicted_sample.old_ssrc ∧
    (process_frame 1 evicted_sample (sample_frame 1 0) (env_at 1000)).1.transition
      = evicted_sample.transition ∧
    (process_frame 1 evicted_sample (sample_frame 1 0) (env_at 1000)).1.prefill
      = evicted_sample.prefill ∧
    (process_frame 1 evicted_sample (sample_frame 1 0) (env_at 1000)).1.skipped
      = evicted_sample.skipped ∧
    (process_frame 1 evicted_sample (sample_frame 1 0) (env_at 1000)).1.display_desc
      = evicted_sample.display_desc ∧
    (∀ k, k ≠ (sample_frame 1 0).ssrc →
      (process_frame 1 evicted_sample (sample_frame 1 0) (env_at 1000)).1.disabled_ssrc k
        = evicted_sample.disabled_ssrc k) :=
  C8_disabled_frame_dropped 1 evicted_sample (sample_frame 1 0) (env_at 1000) 0 (by decide)

/-- C9: a frame of the active source arrives, no source fades and prefilling
is false once the frame is buffered. Then exactly one frame is submitted, the
verbatim copy of the oldest frame of buffer[active] (the arrival included);
that frame is removed from the buffer, so the buffer is as long after the step
as before it; and over this and any further frames of the active source the
submissions are the copies of the buffered frames followed by the arrivals, in
this order, one per arrival. -/
theorem C9_steady_output (tpm : Nat) (s : state_blend_common) (f : video_frame)
    (e : environment) (front : video_frame) (rest : List video_frame)
    (fs : List (video_frame × environment))
    (hnd : s.disabled_ssrc f.ssrc = none)
    (hcur : f.ssrc = s.current_ssrc)
    (hold : s.old_ssrc = 0)
    (hpre : s.prefill = false ∨ BUFFER_LEN ≤ (s.frames s.current_ssrc).length + 1)
    (hq : s.frames s.current_ssrc ++ [f] = front :: rest)
    (hfs : ∀ p ∈ fs, p.1.ssrc = s.current_ssrc) :
    submitted (process_frame tpm s f e).2 = [⟨s.current_ssrc, front.data⟩] ∧
    (process_frame tpm s f e).1.frames s.current_ssrc = rest ∧
    ((process_frame tpm s f e).1.frames s.current_ssrc).length
      = (s.frames s.current_ssrc).length ∧
    submitted (run_frames tpm s ((f, e) :: fs)).2 =
      ((s.frames s.current_ssrc ++ f :: fs.map Prod.fst).take (fs.length + 1)).map
        (copy_of s.current_ssrc) := by
  have hstep := process_frame_steady tpm s f e front rest hnd hcur hold hpre hq
  have hlen : rest.length = (s.frames s.current_ssrc).length := by
    have := congrArg List.length hq
    simp only [List.length_append, List.length_cons, List.length_nil] at this
    omega
  have hrun := (run_frames_steady tpm s.current_ssrc fs (process_frame tpm s f e).1 hfs
    (by rw [hstep]) (by rw [hstep]; exact hold)
    (by rw [hstep]; rw [hcur] at hnd; exact sweep_disabled_none _ _ _ _ hnd)
    (by rw [hstep])).1
  have hall : s.frames s.current_ssrc ++ f :: fs.map Prod.fst
      = front :: (rest ++ fs.map Prod.fst) := by
    rw [← List.cons_append, ← hq]; simp
  refine ⟨?_, ?_, ?_, ?_⟩
  · rw [hstep]
    simp [submitted_append, submitted_check_reconf, submitted, copy_of]
  · rw [hstep]; simp
  · rw [hstep]; simpa using hlen
  · simp only [run_frames, submitted_append]
    rw [hrun, hall, hstep]
    simp [submitted_append, submitted_check_reconf, submitted]

theorem C9_steady_output_witness :
    submitted (process_frame 1 showing_sample (sample_frame 1 4) sample_env).2
      = [⟨showing_sample.current_ssrc, (sample_frame 1 3).data⟩] ∧
    (process_frame 1 showing_sample (sample_frame 1 4) sample_env).1.frames
      showing_sample.current_ssrc = [sample_frame 1 4] ∧
    ((process_frame 1 showing_sample (sample_frame 1 4) sample_env).1.frames
      showing_sample.current_ssrc).length
      = (showing_sample.frames showing_sample.current_ssrc).length ∧
    submitted (run_frames 1 showing_sample ((sample_frame 1 4, sample_env) :: burst 1 5 3)).2 =
      ((showing_sample.frames showing_sample.current_ssrc ++
          sample_frame 1 4 :: (burst 1 5 3).map Prod.fst).take
        ((burst 1 5 3).length + 1)).map (copy_of showing_sample.current_ssrc) :=
  C9_steady_output 1 showing_sample (sample_frame 1 4) sample_env (sample_frame 1 3)
    [sample_frame 1 4] (burst 1 5 3)
    (by decide) (by decide) (by decide) (by decide) (by decide) (by decide)

/-- C10: a crossfade step (a frame of the active source arrives, a fading
source is set, prefilling is false once the frame is buffered, both buffers are
non-empty) in which the two popped frames have different descriptors still
submits exactly one frame, whose bytes are those of the new frame unmodified;
both popped frames are freed and removed from their buffers, and the
transition counter is advanced by one (after which the test that ends a
transition sees it, as in any crossfade step). -/
theorem C10_descriptor_mismatch_hard_cut (tpm : Nat) (s : state_blend_common)
    (frame : video_frame) (e : environment) (old_frame new_frame : video_frame)
    (old_rest new_rest : List video_frame)
    (hnd : s.disabled_ssrc frame.ssrc = none)
    (hcur : frame.ssrc = s.current_ssrc)
    (hold : s.old_ssrc ≠ 0)
    (hne : s.old_ssrc ≠ s.current_ssrc)
    (hpre : s.prefill = false ∨ BUFFER_LEN ≤ (s.frames s.current_ssrc).length + 1)
    (hO : s.frames s.old_ssrc = old_frame :: old_rest)
    (hN : s.frames s.current_ssrc ++ [frame] = new_frame :: new_rest)
    (hdesc : old_frame.desc ≠ new_frame.desc) :
    submitted (process_frame tpm s frame e).2 = [⟨s.current_ssrc, new_frame.data⟩] ∧
    event.vf_free old_frame ∈ (process_frame tpm s frame e).2 ∧
    event.vf_free new_frame ∈ (process_frame tpm s frame e).2 ∧
    (process_frame tpm s frame e).1.frames s.current_ssrc = new_rest ∧
    (output_decision (buffer_frame
      { s with disabled_ssrc := sweep_disabled tpm e.now s.disabled_ssrc } frame)
      e.reconf_ret).1.frames s.old_ssrc = old_rest ∧
    (output_decision (buffer_frame
      { s with disabled_ssrc := sweep_disabled tpm e.now s.disabled_ssrc } frame)
      e.reconf_ret).1.transition = s.transition + 1 ∧
    (process_frame tpm s frame e).1.transition =
      (if TRANSITION_COUNT ≤ s.transition + 1 then 0 else s.transition + 1) := by
  have hne2 : s.current_ssrc ≠ s.old_ssrc := fun h => hne h.symm
  have hd : video_desc_eq old_frame.desc new_frame.desc = false := by
    simp [video_desc_eq, hdesc]
  have hp : (s.prefill && decide ((s.frames s.current_ssrc).length + 1 < BUFFER_LEN)) = false := by
    rcases hpre with h | h
    · simp [h]
    · have : ¬ ((s.frames s.current_ssrc).length + 1 < BUFFER_LEN) := by omega
      simp [this]
  have hout : output_decision (buffer_frame
      { s with disabled_ssrc := sweep_disabled tpm e.now s.disabled_ssrc } frame) e.reconf_ret
      = output_transition
        { s with
            frames := Function.update s.frames s.current_ssrc (s.frames s.current_ssrc ++ [frame])
            disabled_ssrc := sweep_disabled tpm e.now s.disabled_ssrc
            prefill := false } e.reconf_ret := by
    rw [buffer_frame_active
      { s with disabled_ssrc := sweep_disabled tpm e.now s.disabled_ssrc } frame hcur]
    simp only [hp]
    unfold output_decision
    simp only [hold, ne_eq, not_false_eq_true, if_true, Bool.false_eq_true, if_false]
  have hpair := output_transition_pair
    { s with
        frames := Function.update s.frames s.current_ssrc (s.frames s.current_ssrc ++ [frame])
        disabled_ssrc := sweep_disabled tpm e.now s.disabled_ssrc
        prefill := false }
    e.reconf_ret old_frame new_frame old_rest new_rest hne
    (by simp [Function.update_noteq hne, hO]) (by simp [hN])
  have hstep := process_frame_crossfade tpm s frame e old_frame new_frame old_rest new_rest
    hnd hcur hold hne hpre hO hN
  refine ⟨?_, ?_, ?_, ?_, ?_, ?_, ?_⟩
  · rw [hstep]
    simp [submitted_append, submitted_check_reconf, submitted_finish_transition, hd, submitted]
  · rw [hstep]; simp
  · rw [hstep]; simp
  · rw [hstep]
    unfold finish_transition
    split_ifs <;> simp [crossfade_state, Function.update_noteq hne2]
  · rw [hout, hpair]
    simp [Function.update_noteq hne]
  · rw [hout, hpair]
  · rw [hstep]
    unfold finish_transition
    by_cases h10 : TRANSITION_COUNT ≤ s.transition + 1
    · simp [crossfade_state, hold, h10]
    · simp [crossfade_state, hold, h10]

theorem C10_descriptor_mismatch_hard_cut_witness :
    submitted (process_frame 1 crossfade_sample ⟨2, other_desc, [100, 50]⟩ sample_env).2
      = [⟨crossfade_sample.current_ssrc, [100, 50]⟩] ∧
    event.vf_free ⟨1, sample_desc, [0]⟩ ∈
      (process_frame 1 crossfade_sample ⟨2, other_desc, [100, 50]⟩ sample_env).2 ∧
    event.vf_free ⟨2, other_desc, [100, 50]⟩ ∈
      (process_frame 1 crossfade_sample ⟨2, other_desc, [100, 50]⟩ sample_env).2 ∧
    (process_frame 1 crossfade_sample ⟨2, other_desc, [100, 50]⟩ sample_env).1.frames
      crossfade_sample.current_ssrc = [] ∧
    (output_decision (buffer_frame
      { crossfade_sample with
          disabled_ssrc := sweep_disabled 1 sample_env.now crossfade_sample.disabled_ssrc }
      ⟨2, other_desc, [100, 50]⟩) sample_env.reconf_ret).1.frames crossfade_sample.old_ssrc
      = [] ∧
    (output_decision (buffer_frame
      { crossfade_sample with
          disabled_ssrc := sweep_disabled 1 sample_env.now crossfade_sample.disabled_ssrc }
      ⟨2, other_desc, [100, 50]⟩) sample_env.reconf_ret).1.transition
      = crossfade_sample.transition + 1 ∧
    (process_frame 1 crossfade_sample ⟨2, other_desc, [100, 50]⟩ sample_env).1.transition =
      (if TRANSITION_COUNT ≤ crossfade_sample.transition + 1 then 0
       else crossfade_sample.transition + 1) :=
  C10_descriptor_mismatch_hard_cut 1 crossfade_sample ⟨2, other_desc, [100, 50]⟩ sample_env
    ⟨1, sample_desc, [0]⟩ ⟨2, other_desc, [100, 50]⟩ [] []
    (by decide) (by decide) (by decide) (by decide) (by decide) (by decide) (by decide)
    (by decide)

/-- C13: whatever pushes (in any admission mode, with any frame) and pops are
applied, in any order, to a queue that holds at most
IN_QUEUE_MAX_BUFFER_LEN = 5 frames, the queue never holds more than 5 frames
afterwards; a blocking push returns exactly when the queue is shorter than
that. -/
theorem C13_queue_length_bounded (t : queue_trace) (ops : List queue_op)
    (q : frame_queue) (frame : Option video_frame)
    (ht : t.queue.length ≤ IN_QUEUE_MAX_BUFFER_LEN) :
    (queue_run t ops).queue.length ≤ IN_QUEUE_MAX_BUFFER_LEN ∧
    IN_QUEUE_MAX_BUFFER_LEN = 5 ∧
    ((display_blend_putf q frame putf_flags.PUTF_BLOCKING).isSome = true ↔
      q.length < IN_QUEUE_MAX_BUFFER_LEN) := by
  refine ⟨queue_run_length ops t ht, rfl, ?_⟩
  rw [display_blend_putf_cases]
  by_cases h : IN_QUEUE_MAX_BUFFER_LEN ≤ q.length
  · simp [h]
  · simp only [h, if_false, Option.isSome_some, true_iff]
    omega

theorem C13_queue_length_bounded_witness :
    (queue_run ⟨full_queue, [], []⟩
      [queue_op.push (some (sample_frame 2 9)) putf_flags.PUTF_BLOCKING,
       queue_op.push (some (sample_frame 2 9)) putf_flags.PUTF_NONBLOCK,
       queue_op.pop,
       queue_op.push (some (sample_frame 2 9)) putf_flags.PUTF_BLOCKING,
       queue_op.push none putf_flags.PUTF_DISCARD]).queue.length
      ≤ IN_QUEUE_MAX_BUFFER_LEN ∧
    IN_QUEUE_MAX_BUFFER_LEN = 5 ∧
    ((display_blend_putf full_queue (some (sample_frame 2 9))
        putf_flags.PUTF_BLOCKING).isSome = true ↔
      full_queue.length < IN_QUEUE_MAX_BUFFER_LEN) :=
  C13_queue_length_bounded ⟨full_queue, [], []⟩
    [queue_op.push (some (sample_frame 2 9)) putf_flags.PUTF_BLOCKING,
     queue_op.push (some (sample_frame 2 9)) putf_flags.PUTF_NONBLOCK,
     queue_op.pop,
     queue_op.push (some (sample_frame 2 9)) putf_flags.PUTF_BLOCKING,
     queue_op.push none putf_flags.PUTF_DISCARD]
    full_queue (some (sample_frame 2 9)) (by decide)

/-- C14: for every sequence of pushes and pops on the queue, started with the
empty queue, the frames the pops returned followed by the frames still queued
are exactly the accepted frames in the order in which they were enqueued; so
the pops return the accepted frames first in, first out, across sources, and
the same holds for the frames of any one source. -/
theorem C14_queue_fifo (ops : List queue_op) (id : Nat) :
    (queue_run ⟨[], [], []⟩ ops).popped ++ (queue_run ⟨[], [], []⟩ ops).queue
      = (queue_run ⟨[], [], []⟩ ops).accepted ∧
    (queue_run ⟨[], [], []⟩ ops).popped <+: (queue_run ⟨[], [], []⟩ ops).accepted ∧
    ((queue_run ⟨[], [], []⟩ ops).queue = [] →
      (queue_run ⟨[], [], []⟩ ops).popped = (queue_run ⟨[], [], []⟩ ops).accepted) ∧
    ((queue_run ⟨[], [], []⟩ ops).popped.filter (fun f => f.map video_frame.ssrc = some id))
      <+: ((queue_run ⟨[], [], []⟩ ops).accepted.filter
        (fun f => f.map video_frame.ssrc = some id)) := by
  have h := queue_run_fifo [] ops ⟨[], [], []⟩ rfl
  simp only [List.nil_append] at h
  refine ⟨h, ⟨_, h⟩, ?_, ?_⟩
  · intro hq
    rw [hq, List.append_nil] at h
    exact h
  · rw [← h, List.filter_append]
    exact List.prefix_append _ _

theorem C14_queue_fifo_witness :
    (queue_run ⟨[], [], []⟩
      [queue_op.push (some (sample_frame 1 0)) putf_flags.PUTF_BLOCKING,
       queue_op.push (some (sample_frame 2 1)) putf_flags.PUTF_NONBLOCK,
       queue_op.push (some (sample_frame 1 2)) putf_flags.PUTF_DISCARD,
       queue_op.pop, queue_op.pop]).queue = [] ∧
    (queue_run ⟨[], [], []⟩
      [queue_op.push (some (sample_frame 1 0)) putf_flags.PUTF_BLOCKING,
       queue_op.push (some (sample_frame 2 1)) putf_flags.PUTF_NONBLOCK,
       queue_op.push (some (sample_frame 1 2)) putf_flags.PUTF_DISCARD,
       queue_op.pop, queue_op.pop]).popped
      = (queue_run ⟨[], [], []⟩
      [queue_op.push (some (sample_frame 1 0)) putf_flags.PUTF_BLOCKING,
       queue_op.push (some (sample_frame 2 1)) putf_flags.PUTF_NONBLOCK,
       queue_op.push (some (sample_frame 1 2)) putf_flags.PUTF_DISCARD,
       queue_op.pop, queue_op.pop]).accepted :=
  ⟨by decide,
   (C14_queue_fifo
      [queue_op.push (some (sample_frame 1 0)) putf_flags.PUTF_BLOCKING,
       queue_op.push (some (sample_frame 2 1)) putf_flags.PUTF_NONBLOCK,
       queue_op.push (some (sample_frame 1 2)) putf_flags.PUTF_DISCARD,
       queue_op.pop, queue_op.pop] 1).2.2.1 (by decide)⟩

/-- C15: `display_blend_putf` in NONBLOCK mode never waits; it returns 1 (not
accepted), frees the frame and leaves the queue as it is if and only if the
queue holds at least IN_QUEUE_MAX_BUFFER_LEN = 5 frames, and otherwise appends
the frame at the back of the queue and returns 0 (accepted). -/
theorem C15_nonblock_push (q : frame_queue) (frame : Option video_frame) :
    display_blend_putf q frame putf_flags.PUTF_NONBLOCK =
      (if 5 ≤ q.length then
        some ⟨q, 1, event.fprintf message.QUEUE_FULL :: vf_free_events frame⟩
      else some ⟨q ++ [frame], 0, []⟩) ∧
    (display_blend_putf q frame putf_flags.PUTF_NONBLOCK).isSome = true ∧
    ((∃ r, display_blend_putf q frame putf_flags.PUTF_NONBLOCK = some r ∧ r.ret = 1 ∧
        r.queue = q ∧ vf_free_events frame ⊆ r.events) ↔ 5 ≤ q.length) := by
  have h := display_blend_putf_cases q frame putf_flags.PUTF_NONBLOCK
  simp only [IN_QUEUE_MAX_BUFFER_LEN] at h
  refine ⟨h, ?_, ?_⟩
  · rw [h]; split_ifs <;> rfl
  · rw [h]
    by_cases hf : 5 ≤ q.length
    · simp [hf]
    · simp [hf]

/-- C16, the claim as stated fails: on a full queue a push in DISCARD mode
frees the frame and leaves the queue as it is, but the value it returns is 0,
the value of an accepted push, whereas NONBLOCK returns 1 there. -/
theorem C16_discard_returns_zero :
    full_queue.length = IN_QUEUE_MAX_BUFFER_LEN ∧
    display_blend_putf full_queue (some (sample_frame 2 9)) putf_flags.PUTF_DISCARD
      = some ⟨full_queue, 0, [event.vf_free (sample_frame 2 9)]⟩ ∧
    display_blend_putf full_queue (some (sample_frame 2 9)) putf_flags.PUTF_NONBLOCK
      = some ⟨full_queue, 1,
          [event.fprintf message.QUEUE_FULL, event.vf_free (sample_frame 2 9)]⟩ ∧
    ¬ (∃ r, display_blend_putf full_queue (some (sample_frame 2 9)) putf_flags.PUTF_DISCARD
        = some r ∧ r.ret ≠ 0) := by
  refine ⟨by decide, by decide, by decide, ?_⟩
  rintro ⟨r, hr, hret⟩
  have h : display_blend_putf full_queue (some (sample_frame 2 9)) putf_flags.PUTF_DISCARD
      = some ⟨full_queue, 0, [event.vf_free (sample_frame 2 9)]⟩ := by decide
  rw [h] at hr
  simp only [Option.some.injEq] at hr
  rw [← hr] at hret
  exact hret rfl

/-- C16 as amended: a push in DISCARD mode frees the frame, leaves the queue
as it is and returns 0, for every queue state and without waiting; on a full
queue a push in NONBLOCK mode also frees the frame and leaves the queue as it
is, and it alone reports "not accepted", returning 1. -/
theorem C16_discard_push (q full : frame_queue) (frame : Option video_frame)
    (hfull : IN_QUEUE_MAX_BUFFER_LEN ≤ full.length) :
    display_blend_putf q frame putf_flags.PUTF_DISCARD = some ⟨q, 0, vf_free_events frame⟩ ∧
    display_blend_putf full frame putf_flags.PUTF_DISCARD
      = some ⟨full, 0, vf_free_events frame⟩ ∧
    display_blend_putf full frame putf_flags.PUTF_NONBLOCK
      = some ⟨full, 1, event.fprintf message.QUEUE_FULL :: vf_free_events frame⟩ := by
  refine ⟨display_blend_putf_cases q frame putf_flags.PUTF_DISCARD,
    display_blend_putf_cases full frame putf_flags.PUTF_DISCARD, ?_⟩
  rw [display_blend_putf_cases]
  simp [hfull]

theorem C16_discard_push_witness :
    display_blend_putf [] (some (sample_frame 2 9)) putf_flags.PUTF_DISCARD
      = some ⟨[], 0, vf_free_events (some (sample_frame 2 9))⟩ ∧
    display_blend_putf full_queue (some (sample_frame 2 9)) putf_flags.PUTF_DISCARD
      = some ⟨full_queue, 0, vf_free_events (some (sample_frame 2 9))⟩ ∧
    display_blend_putf full_queue (some (sample_frame 2 9)) putf_flags.PUTF_NONBLOCK
      = some ⟨full_queue, 1,
          event.fprintf message.QUEUE_FULL :: vf_free_events (some (sample_frame 2 9))⟩ :=
  C16_discard_push [] full_queue (some (sample_frame 2 9)) (by decide)

/-- C11: `check_reconf` reconfigures the sink if and only if the descriptor it
is given differs from `display_desc`, always leaves `display_desc` equal to
that descriptor, and called a second time with the same descriptor does
nothing. Every iteration of the loop either submits nothing, does not
reconfigure and leaves `display_desc` alone, or submits exactly one frame, and
then its events are those of `check_reconf` for the descriptor of the frame
shown (the new frame in a crossfade) followed by events that contain the
submission and no reconfiguration, and `display_desc` is that descriptor
afterwards. -/
theorem C11_reconfigure_iff_descriptor_differs (tpm : Nat) (s : state_blend_common)
    (frame : video_frame) (e : environment) (d : video_desc) (r r2 : Int) :
    ((event.display_reconfigure d ∈ (check_reconf s d r).2 ↔ d ≠ s.display_desc) ∧
      (∀ d2, event.display_reconfigure d2 ∈ (check_reconf s d r).2 → d2 = d) ∧
      submitted (check_reconf s d r).2 = [] ∧
      (check_reconf s d r).1.display_desc = d ∧
      check_reconf (check_reconf s d r).1 d r2 = ((check_reconf s d r).1, [])) ∧
    ((submitted (process_frame tpm s frame e).2 = [] ∧
        (process_frame tpm s frame e).1.display_desc = s.display_desc ∧
        ∀ d2, event.display_reconfigure d2 ∉ (process_frame tpm s frame e).2) ∨
      (∃ (shown : video_frame) (out : display_frame) (rest : List event),
        (process_frame tpm s frame e).2 = (check_reconf s shown.desc e.reconf_ret).2 ++ rest ∧
        (process_frame tpm s frame e).1.display_desc = shown.desc ∧
        submitted (process_frame tpm s frame e).2 = [out] ∧
        submitted rest = [out] ∧
        (∀ d2, event.display_reconfigure d2 ∉ rest) ∧
        event.vf_free shown ∈ rest ∧
        (out.data = shown.data ∨
          ∃ (old : video_frame) (t : Int), video_desc_eq old.desc shown.desc = true ∧
            out.data = blend_data t old.data shown.data))) := by
  refine ⟨⟨?_, ?_, submitted_check_reconf s d r, ?_, check_reconf_idempotent s d r r2⟩,
    process_frame_trace tpm s frame e⟩
  · rw [mem_check_reconf_events]
    simp
  · intro d2 h
    exact ((mem_check_reconf_events s d d2 r).1 h).1
  · rw [check_reconf_fields]

/-- C12, the claim as stated fails: the descriptor of the sink differs from
that of the frame to show and `display_reconfigure` returns 0 (failure); the
iteration reconfigures and submits the frame all the same. -/
theorem C12_submits_after_failed_reconfigure :
    failing_env.reconf_ret = 0 ∧
    (process_frame 1 showing_sample (sample_frame 1 4) failing_env).2 =
      [event.fprintf message.RECONFIGURED, event.display_reconfigure sample_desc,
       event.display_get_frame, event.vf_free (sample_frame 1 3),
       event.display_put_frame (some ⟨1, [3]⟩)] ∧
    submitted (process_frame 1 showing_sample (sample_frame 1 4) failing_env).2 = [⟨1, [3]⟩] ∧
    ¬ (submitted (process_frame 1 showing_sample (sample_frame 1 4) failing_env).2 = []) := by
  decide

/-- C12 as amended: the value `display_reconfigure` returns is not looked at.
An iteration goes the same way whatever that value is, and an iteration that
reconfigures the sink always submits exactly one frame, also when the sink
rejects the descriptor change. -/
theorem C12_reconfigure_result_ignored (tpm : Nat) (s : state_blend_common)
    (frame : video_frame) (e : environment) (d : video_desc) (ret : Int)
    (h : event.display_reconfigure d ∈ (process_frame tpm s frame e).2) :
    process_frame tpm s frame { e with reconf_ret := ret } = process_frame tpm s frame e ∧
    (∃ out, submitted (process_frame tpm s frame { e with reconf_ret := ret }).2 = [out]) ∧
    (process_frame tpm s frame { e with reconf_ret := ret }).1.display_desc = d := by
  rw [process_frame_ignores_ret]
  refine ⟨rfl, ?_, ?_⟩
  · rcases process_frame_trace tpm s frame e with ⟨-, -, h3⟩ | ⟨shown, out, rest, -, -, h3, -⟩
    · exact absurd h (h3 d)
    · exact ⟨out, h3⟩
  · rcases process_frame_trace tpm s frame e with
      ⟨-, -, h3⟩ | ⟨shown, out, rest, h1, h2, -, -, h5, -⟩
    · exact absurd h (h3 d)
    · rw [h1] at h
      rcases List.mem_append.1 h with hm | hm
      · rw [h2]
        exact (((mem_check_reconf_events s shown.desc d e.reconf_ret).1 hm).1).symm
      · exact absurd hm (h5 d)

theorem C12_reconfigure_result_ignored_witness :
    process_frame 1 showing_sample (sample_frame 1 4) { sample_env with reconf_ret := 0 }
      = process_frame 1 showing_sample (sample_frame 1 4) sample_env ∧
    (∃ out, submitted (process_frame 1 showing_sample (sample_frame 1 4)
      { sample_env with reconf_ret := 0 }).2 = [out]) ∧
    (process_frame 1 showing_sample (sample_frame 1 4)
      { sample_env with reconf_ret := 0 }).1.display_desc = sample_desc :=
  C12_reconfigure_result_ignored 1 showing_sample (sample_frame 1 4) sample_env sample_desc 0
    (by decide)

/-- C20, the code at the failing input: source 1 is active, the debounce
counter is 0 and a frame of the new source 2 arrives. The frame is skipped, and
the iteration has no event at all: the frame is not freed, and it is in no
buffer afterwards. A frame of a disabled source, by contrast, is freed. -/
theorem C20_debounced_frame_not_freed :
    (process_frame 1 steady_sample (sample_frame 2 0) sample_env).2 = [] ∧
    event.vf_free (sample_frame 2 0) ∉
      (process_frame 1 steady_sample (sample_frame 2 0) sample_env).2 ∧
    (∀ k, sample_frame 2 0 ∉
      (process_frame 1 steady_sample (sample_frame 2 0) sample_env).1.frames k) ∧
    (process_frame 1 steady_sample (sample_frame 2 0) sample_env).1.skipped = 1 ∧
    (process_frame 1 evicted_sample (sample_frame 1 0) sample_env).2
      = [event.vf_free (sample_frame 1 0)] := by
  have h := process_frame_skip 1 steady_sample (sample_frame 2 0) sample_env
    (by decide) (by decide) (by decide) (by decide)
  rw [h]
  refine ⟨rfl, by simp, ?_, by decide, by decide⟩
  intro k
  simp [steady_sample, init_state]

/-- C17: in every state the loop reaches from the initial state by processing
any finite sequence of frames, a fading source id (`old_ssrc`) that is not 0
differs from the active source id (`current_ssrc`). -/
theorem C17_fading_differs_from_active (tpm : Nat) (fs : List (video_frame × environment))
    (h : (run_frames tpm init_state fs).1.old_ssrc ≠ 0) :
    (run_frames tpm init_state fs).1.old_ssrc ≠ (run_frames tpm init_state fs).1.current_ssrc :=
  (selection_invariant_run tpm fs init_state selection_invariant_init).1 h

theorem C17_fading_differs_from_active_witness :
    (run_frames 1 init_state switch_sample).1.old_ssrc = 1 ∧
    (run_frames 1 init_state switch_sample).1.old_ssrc
      ≠ (run_frames 1 init_state switch_sample).1.current_ssrc :=
  ⟨by decide, C17_fading_differs_from_active 1 switch_sample (by decide)⟩

/-- C18: in every state the loop reaches from the initial state by processing
frames with non-zero source ids, the transition counter at the end of the
iteration is at least 0 and at most TRANSITION_COUNT (in fact below it), and it
is 0 whenever no source fades. -/
theorem C18_transition_counter_range (tpm : Nat) (fs : List (video_frame × environment))
    (hfs : ∀ p ∈ fs, p.1.ssrc ≠ 0) :
    0 ≤ (run_frames tpm init_state fs).1.transition ∧
    (run_frames tpm init_state fs).1.transition ≤ TRANSITION_COUNT ∧
    (run_frames tpm init_state fs).1.transition < TRANSITION_COUNT ∧
    ((run_frames tpm init_state fs).1.old_ssrc = 0 →
      (run_frames tpm init_state fs).1.transition = 0) := by
  obtain ⟨h1, h2, h3, -⟩ := transition_invariant_run tpm fs init_state hfs
    transition_invariant_init
  exact ⟨h1, le_of_lt h2, h2, h3⟩

theorem C18_transition_counter_range_witness :
    0 ≤ (run_frames 1 init_state (burst 1 0 6)).1.transition ∧
    (run_frames 1 init_state (burst 1 0 6)).1.transition ≤ TRANSITION_COUNT ∧
    (run_frames 1 init_state (burst 1 0 6)).1.transition < TRANSITION_COUNT ∧
    ((run_frames 1 init_state (burst 1 0 6)).1.old_ssrc = 0 →
      (run_frames 1 init_state (burst 1 0 6)).1.transition = 0) :=
  C18_transition_counter_range 1 (burst 1 0 6) (by decide)

/-- C19: in every state the loop reaches from the initial state by processing
any finite sequence of frames, the active source id is not a key of
`disabled_ssrc`, and neither is the fading source id (be it 0 or not). -/
theorem C19_active_and_fading_not_disabled (tpm : Nat)
    (fs : List (video_frame × environment)) :
    (run_frames tpm init_state fs).1.disabled_ssrc
      (run_frames tpm init_state fs).1.current_ssrc = none ∧
    (run_frames tpm init_state fs).1.disabled_ssrc
      (run_frames tpm init_state fs).1.old_ssrc = none := by
  obtain ⟨-, h2, h3, -⟩ := selection_invariant_run tpm fs init_state selection_invariant_init
  exact ⟨h2, h3⟩

/-- C27: for bytes `old` and `new` and every weight `t` with
0 <= t <= TRANSITION_COUNT the value stored by line 277 lies between
min(old, new) and max(old, new); the conversion to `unsigned char` does not
change the quotient `(new*t + old*(TRANSITION_COUNT - t)) / TRANSITION_COUNT`;
and at t = TRANSITION_COUNT the value is `new`. -/
theorem C27_blend_between (t : Int) (old_val new_val : Nat)
    (h0 : 0 ≤ t) (h1 : t ≤ TRANSITION_COUNT) (ho : old_val < 256) (hn : new_val < 256) :
    min old_val new_val ≤ blend_byte t old_val new_val ∧
    blend_byte t old_val new_val ≤ max old_val new_val ∧
    ((blend_byte t old_val new_val : Nat) : Int)
      = Int.tdiv ((new_val : Int) * t + (old_val : Int) * (TRANSITION_COUNT - t))
          TRANSITION_COUNT ∧
    blend_byte TRANSITION_COUNT old_val new_val = new_val := by
  have hex := blend_byte_exact t old_val new_val h0 h1 ho hn
  obtain ⟨hlo, hhi⟩ := blend_quotient_bounds t old_val new_val h0 h1
  rw [← hex] at hlo hhi
  refine ⟨by exact_mod_cast hlo, by exact_mod_cast hhi, hex, ?_⟩
  have h10 := blend_byte_exact TRANSITION_COUNT old_val new_val (by decide) (le_refl _) ho hn
  have hq : Int.tdiv ((new_val : Int) * TRANSITION_COUNT
      + (old_val : Int) * (TRANSITION_COUNT - TRANSITION_COUNT)) TRANSITION_COUNT
      = (new_val : Int) := by
    unfold TRANSITION_COUNT
    rw [Int.tdiv_eq_ediv (by omega) (by omega)]
    omega
  rw [hq] at h10
  exact_mod_cast h10

theorem C27_blend_between_witness :
    min 0 100 ≤ blend_byte 3 0 100 ∧
    blend_byte 3 0 100 ≤ max 0 100 ∧
    ((blend_byte 3 0 100 : Nat) : Int)
      = Int.tdiv (((100 : Nat) : Int) * 3 + ((0 : Nat) : Int) * (TRANSITION_COUNT - 3))
          TRANSITION_COUNT ∧
    blend_byte TRANSITION_COUNT 0 100 = 100 :=
  C27_blend_between 3 0 100 (by decide) (by decide) (by decide) (by decide)

/-- C26: the debounce counter after an iteration is the counter before it,
plus one if the frame's source is neither disabled, active nor fading and the
counter is below SKIP_FIRST_N_FRAMES_IN_STREAM, and 0 at a promotion; frames of
the active, the fading or a disabled source leave it as it is, whatever source
counted before. So with source 1 active, five frames alternating between the
sources 2 and 3 bring the counter to 5 and the next frame, of source 3, is
promoted; and five frames of source 2, each followed by a frame of the active
source, bring it to 5 as well, and the next frame of source 2 is promoted. -/
theorem C26_debounce_counter_candidate_blind (tpm : Nat) (s : state_blend_common)
    (frame : video_frame) (e : environment) :
    (process_frame tpm s frame e).1.skipped =
      (if (s.disabled_ssrc frame.ssrc).isSome = true then s.skipped
       else if frame.ssrc ≠ s.current_ssrc ∧ frame.ssrc ≠ s.old_ssrc then
        (if SKIP_FIRST_N_FRAMES_IN_STREAM ≤ s.skipped then 0 else s.skipped + 1)
       else s.skipped) ∧
    ((run_frames 1 steady_sample alternating_sample).1.skipped = 5 ∧
      (run_frames 1 steady_sample alternating_sample).1.current_ssrc = 1 ∧
      (process_frame 1 (run_frames 1 steady_sample alternating_sample).1
        (sample_frame 3 5) sample_env).1.current_ssrc = 3) ∧
    ((run_frames 1 steady_sample stray_sample).1.skipped = 5 ∧
      (run_frames 1 steady_sample stray_sample).1.current_ssrc = 1 ∧
      (process_frame 1 (run_frames 1 steady_sample stray_sample).1
        (sample_frame 2 10) sample_env).1.current_ssrc = 2) :=
  ⟨process_frame_skipped tpm s frame e, by decide, by decide⟩

/-- C24 as amended: a frame of the active source arrives while a source fades
and prefilling is still true once the frame is buffered (the counter being
below TRANSITION_COUNT, as between iterations). If buffer[fading] is empty,
nothing is submitted and the state changes only by the frame buffered and by
the sweep, which erases the expired entries of disabled; otherwise the oldest frame of
buffer[fading] is removed and submitted unchanged. In both cases the
transition counter is not advanced. -/
theorem C24_prefill_shows_fading (tpm : Nat) (s : state_blend_common) (frame : video_frame)
    (e : environment)
    (hnd : s.disabled_ssrc frame.ssrc = none)
    (hcur : frame.ssrc = s.current_ssrc)
    (hold : s.old_ssrc ≠ 0)
    (hne : s.old_ssrc ≠ s.current_ssrc)
    (hpre : s.prefill = true)
    (hlen : (s.frames s.current_ssrc).length + 1 < BUFFER_LEN)
    (htr : s.transition < TRANSITION_COUNT) :
    (process_frame tpm s frame e).1.transition = s.transition ∧
    (process_frame tpm s frame e).1.prefill = true ∧
    (process_frame tpm s frame e).1.old_ssrc = s.old_ssrc ∧
    (process_frame tpm s frame e).1.frames s.current_ssrc
      = s.frames s.current_ssrc ++ [frame] ∧
    (match s.frames s.old_ssrc with
     | [] =>
       process_frame tpm s frame e =
         ({ s with
             frames := Function.update s.frames s.current_ssrc
               (s.frames s.current_ssrc ++ [frame])
             disabled_ssrc := sweep_disabled tpm e.now s.disabled_ssrc },
          [event.fprintf message.SMOLIK1]) ∧
       submitted (process_frame tpm s frame e).2 = []
     | front :: rest =>
       submitted (process_frame tpm s frame e).2 = [⟨s.current_ssrc, front.data⟩] ∧
       event.vf_free front ∈ (process_frame tpm s frame e).2 ∧
       (process_frame tpm s frame e).1.frames s.old_ssrc = rest) := by
  have hne2 : s.current_ssrc ≠ s.old_ssrc := fun h => hne h.symm
  cases hO : s.frames s.old_ssrc with
  | nil =>
    have h := process_frame_prefill_empty tpm s frame e hnd hcur hold hne hpre hlen htr hO
    rw [h]
    simp [hpre, submitted, Function.update_noteq hne]
  | cons front rest =>
    have h := process_frame_prefill_show tpm s frame e front rest hnd hcur hold hne hpre hlen
      htr hO
    rw [h]
    simp [hpre, submitted, submitted_append, submitted_check_reconf,
      Function.update_noteq hne2]

theorem C24_prefill_shows_fading_witness :
    (submitted (process_frame 1 prefill_sample (sample_frame 2 0) sample_env).2
        = [⟨2, (sample_frame 1 7).data⟩] ∧
      event.vf_free (sample_frame 1 7) ∈
        (process_frame 1 prefill_sample (sample_frame 2 0) sample_env).2 ∧
      (process_frame 1 prefill_sample (sample_frame 2 0) sample_env).1.frames 1
        = [sample_frame 1 8]) ∧
    (process_frame 1 prefill_starved_sample (sample_frame 2 0) sample_env =
        ({ prefill_starved_sample with
            frames := Function.update prefill_starved_sample.frames 2
              (prefill_starved_sample.frames 2 ++ [sample_frame 2 0])
            disabled_ssrc :=
              sweep_disabled 1 sample_env.now prefill_starved_sample.disabled_ssrc },
         [event.fprintf message.SMOLIK1]) ∧
      submitted (process_frame 1 prefill_starved_sample (sample_frame 2 0) sample_env).2 = []) :=
  ⟨(C24_prefill_shows_fading 1 prefill_sample (sample_frame 2 0) sample_env
      (by decide) (by decide) (by decide) (by decide) (by decide) (by decide)
      (by decide)).2.2.2.2,
   (C24_prefill_shows_fading 1 prefill_starved_sample (sample_frame 2 0) sample_env
      (by decide) (by decide) (by decide) (by decide) (by decide) (by decide)
      (by decide)).2.2.2.2⟩

/-- C25: a crossfade step (a frame of the active source arrives, a source
fades, prefilling is false once the frame is buffered) in which buffer[fading]
is empty submits nothing, takes no frame from buffer[active], and cancels the
transition within the same iteration: at its end fading = 0, transition = 0
and the former fading source is in disabled, with the time of the end of the
iteration. -/
theorem C25_crossfade_cancelled (tpm : Nat) (s : state_blend_common) (frame : video_frame)
    (e : environment)
    (hnd : s.disabled_ssrc frame.ssrc = none)
    (hcur : frame.ssrc = s.current_ssrc)
    (hold : s.old_ssrc ≠ 0)
    (hne : s.old_ssrc ≠ s.current_ssrc)
    (hpre : s.prefill = false ∨ BUFFER_LEN ≤ (s.frames s.current_ssrc).length + 1)
    (hO : s.frames s.old_ssrc = []) :
    (process_frame tpm s frame e).2 = [event.fprintf message.SMOLIK2] ∧
    submitted (process_frame tpm s frame e).2 = [] ∧
    (process_frame tpm s frame e).1.frames s.current_ssrc
      = s.frames s.current_ssrc ++ [frame] ∧
    (process_frame tpm s frame e).1.current_ssrc = s.current_ssrc ∧
    (process_frame tpm s frame e).1.old_ssrc = 0 ∧
    (process_frame tpm s frame e).1.transition = 0 ∧
    (process_frame tpm s frame e).1.disabled_ssrc s.old_ssrc = some e.now_end := by
  have hne2 : s.current_ssrc ≠ s.old_ssrc := fun h => hne h.symm
  rw [process_frame_cancel tpm s frame e hnd hcur hold hne hpre hO]
  simp [submitted, Function.update_noteq hne2]

theorem C25_crossfade_cancelled_witness :
    (process_frame 1 starved_sample (sample_frame 2 0) sample_env).2
      = [event.fprintf message.SMOLIK2] ∧
    submitted (process_frame 1 starved_sample (sample_frame 2 0) sample_env).2 = [] ∧
    (process_frame 1 starved_sample (sample_frame 2 0) sample_env).1.frames
      starved_sample.current_ssrc
      = starved_sample.frames starved_sample.current_ssrc ++ [sample_frame 2 0] ∧
    (process_frame 1 starved_sample (sample_frame 2 0) sample_env).1.current_ssrc
      = starved_sample.current_ssrc ∧
    (process_frame 1 starved_sample (sample_frame 2 0) sample_env).1.old_ssrc = 0 ∧
    (process_frame 1 starved_sample (sample_frame 2 0) sample_env).1.transition = 0 ∧
    (process_frame 1 starved_sample (sample_frame 2 0) sample_env).1.disabled_ssrc
      starved_sample.old_ssrc = some sample_env.now_end :=
  C25_crossfade_cancelled 1 starved_sample (sample_frame 2 0) sample_env
    (by decide) (by decide) (by decide) (by decide) (by decide) (by decide)

/-- C23: in every state the loop reaches from the initial state, a frame of
the fading source (a non-zero `old_ssrc`, which differs from the active
source) submits nothing and changes nothing but the buffer of its source, to
which the frame is appended, and the disabled entries, which are swept: the
prefill test of line 220 does not clear prefilling, and the active and the
fading source, the transition counter, the debounce counter and the output
descriptor stay as they are. -/
theorem C23_fading_frame_only_buffered (tpm : Nat) (fs : List (video_frame × environment))
    (frame : video_frame) (e : environment)
    (hold : frame.ssrc = (run_frames tpm init_state fs).1.old_ssrc)
    (h0 : (run_frames tpm init_state fs).1.old_ssrc ≠ 0) :
    process_frame tpm (run_frames tpm init_state fs).1 frame e =
      ({ (run_frames tpm init_state fs).1 with
          disabled_ssrc :=
            sweep_disabled tpm e.now (run_frames tpm init_state fs).1.disabled_ssrc
          frames := Function.update (run_frames tpm init_state fs).1.frames frame.ssrc
            ((run_frames tpm init_state fs).1.frames frame.ssrc ++ [frame]) }, []) ∧
    submitted (process_frame tpm (run_frames tpm init_state fs).1 frame e).2 = [] ∧
    (process_frame tpm (run_frames tpm init_state fs).1 frame e).1.prefill
      = (run_frames tpm init_state fs).1.prefill ∧
    (process_frame tpm (run_frames tpm init_state fs).1 frame e).1.transition
      = (run_frames tpm init_state fs).1.transition ∧
    (process_frame tpm (run_frames tpm init_state fs).1 frame e).1.old_ssrc
      = (run_frames tpm init_state fs).1.old_ssrc ∧
    (process_frame tpm (run_frames tpm init_state fs).1 frame e).1.current_ssrc
      = (run_frames tpm init_state fs).1.current_ssrc := by
  obtain ⟨i1, -, i3, -⟩ := selection_invariant_run tpm fs init_state selection_invariant_init
  have hp := prefill_invariant_run tpm fs init_state prefill_invariant_init
  have hstep := process_frame_fading tpm (run_frames tpm init_state fs).1 frame e
    (by rw [hold]; exact i3) hold (by rw [hold]; exact i1 h0) hp
  rw [hstep]
  exact ⟨rfl, rfl, rfl, rfl, rfl, rfl⟩

theorem C23_fading_frame_only_buffered_witness :
    process_frame 1 (run_frames 1 init_state switch_sample).1 (sample_frame 1 9) sample_env =
      ({ (run_frames 1 init_state switch_sample).1 with
          disabled_ssrc :=
            sweep_disabled 1 sample_env.now (run_frames 1 init_state switch_sample).1.disabled_ssrc
          frames := Function.update (run_frames 1 init_state switch_sample).1.frames
            (sample_frame 1 9).ssrc
            ((run_frames 1 init_state switch_sample).1.frames (sample_frame 1 9).ssrc
              ++ [sample_frame 1 9]) }, []) ∧
    submitted (process_frame 1 (run_frames 1 init_state switch_sample).1
      (sample_frame 1 9) sample_env).2 = [] ∧
    (process_frame 1 (run_frames 1 init_state switch_sample).1
      (sample_frame 1 9) sample_env).1.prefill
      = (run_frames 1 init_state switch_sample).1.prefill ∧
    (process_frame 1 (run_frames 1 init_state switch_sample).1
      (sample_frame 1 9) sample_env).1.transition
      = (run_frames 1 init_state switch_sample).1.transition ∧
    (process_frame 1 (run_frames 1 init_state switch_sample).1
      (sample_frame 1 9) sample_env).1.old_ssrc
      = (run_frames 1 init_state switch_sample).1.old_ssrc ∧
    (process_frame 1 (run_frames 1 init_state switch_sample).1
      (sample_frame 1 9) sample_env).1.current_ssrc
      = (run_frames 1 init_state switch_sample).1.current_ssrc :=
  C23_fading_frame_only_buffered 1 switch_sample (sample_frame 1 9) sample_env
    (by decide) (by decide)

/-- C30: the buffer of a fading source has no upper bound. For every n the
loop reaches, from the initial state, a state with a fading source whose
buffer holds exactly n frames (six frames of source 1, six of source 2, then n
frames of source 1, which fades while source 2 sends nothing); and in that
state a further frame of the fading source is appended to its buffer without
any output. -/
theorem C30_fading_buffer_unbounded (tpm : Nat) (n : Nat) :
    ∃ fs : List (video_frame × environment),
      (run_frames tpm init_state fs).1.old_ssrc ≠ 0 ∧
      ((run_frames tpm init_state fs).1.frames
        (run_frames tpm init_state fs).1.old_ssrc).length = n ∧
      ∀ (frame : video_frame) (e : environment),
        frame.ssrc = (run_frames tpm init_state fs).1.old_ssrc →
        (process_frame tpm (run_frames tpm init_state fs).1 frame e).1.frames frame.ssrc
          = (run_frames tpm init_state fs).1.frames frame.ssrc ++ [frame] ∧
        (process_frame tpm (run_frames tpm init_state fs).1 frame e).2 = [] := by
  obtain ⟨b1, b2, b3, -, -, -⟩ := switch_sample_state tpm
  obtain ⟨-, -, i3, -⟩ :=
    selection_invariant_run tpm switch_sample init_state selection_invariant_init
  have hp := prefill_invariant_run tpm switch_sample init_state prefill_invariant_init
  obtain ⟨r1, -, r3, -, -, -⟩ := run_frames_fading tpm 1 (burst 1 20 n)
    (run_frames tpm init_state switch_sample).1 (burst_ssrc 1 n 20) b2
    (by rw [b1]; decide) (by rw [← b2]; exact i3) hp
  have hrun : (run_frames tpm init_state (switch_sample ++ burst 1 20 n)).1
      = (run_frames tpm (run_frames tpm init_state switch_sample).1 (burst 1 20 n)).1 := by
    rw [run_frames_append]
  refine ⟨switch_sample ++ burst 1 20 n, ?_, ?_, ?_⟩
  · rw [hrun, r3]; decide
  · rw [hrun, r3, r1, b3]
    simp [burst_length]
  · intro frame e hf
    obtain ⟨j1, -, j3, -⟩ := selection_invariant_run tpm (switch_sample ++ burst 1 20 n)
      init_state selection_invariant_init
    have hq := prefill_invariant_run tpm (switch_sample ++ burst 1 20 n) init_state
      prefill_invariant_init
    have h0 : (run_frames tpm init_state (switch_sample ++ burst 1 20 n)).1.old_ssrc ≠ 0 := by
      rw [hrun, r3]; decide
    have hstep := process_frame_fading tpm
      (run_frames tpm init_state (switch_sample ++ burst 1 20 n)).1 frame e
      (by rw [hf]; exact j3) hf (by rw [hf]; exact j1 h0) hq
    rw [hstep]
    exact ⟨by simp, rfl⟩

/-- C21: a frame of a source that is neither active, fading nor disabled,
arriving when the debounce counter is at least `SKIP_FIRST_N_FRAMES_IN_STREAM`,
promotes its source. After lines 206-222 the fading source is the previous
active one (0 if there was none), the active source is the frame's, the
debounce counter is 0, the frame is at the back of the buffer of its source,
and prefilling is true unless that buffer then holds at least `BUFFER_LEN`
frames. The rest of the iteration starts from that state, keeps the active
source and the counter, and, when the buffer stays under `BUFFER_LEN` and the
transition counter is below `TRANSITION_COUNT`, also keeps the fading source,
prefilling and the buffer of the promoted source. -/
theorem C21_promotion_step (tpm : Nat) (s : state_blend_common) (frame : video_frame)
    (e : environment) (hnd : s.disabled_ssrc frame.ssrc = none)
    (hc : frame.ssrc ≠ s.current_ssrc) (ho : frame.ssrc ≠ s.old_ssrc)
    (hsk : SKIP_FIRST_N_FRAMES_IN_STREAM ≤ s.skipped) :
    (buffered_state tpm s frame e).old_ssrc = s.current_ssrc ∧
    (buffered_state tpm s frame e).current_ssrc = frame.ssrc ∧
    (buffered_state tpm s frame e).skipped = 0 ∧
    (buffered_state tpm s frame e).frames frame.ssrc = s.frames frame.ssrc ++ [frame] ∧
    ((buffered_state tpm s frame e).prefill = true ↔
      ¬ (BUFFER_LEN ≤ ((buffered_state tpm s frame e).frames frame.ssrc).length)) ∧
    process_frame tpm s frame e =
      ((finish_transition (output_decision (buffered_state tpm s frame e) e.reconf_ret).1
          e.now_end).1,
       (output_decision (buffered_state tpm s frame e) e.reconf_ret).2 ++
         (finish_transition (output_decision (buffered_state tpm s frame e) e.reconf_ret).1
           e.now_end).2) ∧
    (process_frame tpm s frame e).1.current_ssrc = frame.ssrc ∧
    (process_frame tpm s frame e).1.skipped = 0 ∧
    ((s.frames frame.ssrc).length + 1 < BUFFER_LEN → s.transition < TRANSITION_COUNT →
      (process_frame tpm s frame e).1.old_ssrc = s.current_ssrc ∧
      (process_frame tpm s frame e).1.prefill = true ∧
      (process_frame tpm s frame e).1.frames frame.ssrc = s.frames frame.ssrc ++ [frame]) := by
  have hsel : select_source
      { s with disabled_ssrc := sweep_disabled tpm e.now s.disabled_ssrc } frame.ssrc =
      ({ s with
          disabled_ssrc := sweep_disabled tpm e.now s.disabled_ssrc
          old_ssrc := s.current_ssrc
          current_ssrc := frame.ssrc
          prefill := true
          skipped := 0 }, true) := by
    unfold select_source
    simp [hc, ho, hsk]
  have hbuf : buffered_state tpm s frame e =
      { s with
          disabled_ssrc := sweep_disabled tpm e.now s.disabled_ssrc
          old_ssrc := s.current_ssrc
          current_ssrc := frame.ssrc
          skipped := 0
          frames := Function.update s.frames frame.ssrc (s.frames frame.ssrc ++ [frame])
          prefill := decide ((s.frames frame.ssrc).length + 1 < BUFFER_LEN) } := by
    unfold buffered_state
    rw [hsel, buffer_frame_active _ _ rfl]
    simp
  have h1 : (buffered_state tpm s frame e).old_ssrc = s.current_ssrc := by rw [hbuf]
  have h2 : (buffered_state tpm s frame e).current_ssrc = frame.ssrc := by rw [hbuf]
  have h3 : (buffered_state tpm s frame e).skipped = 0 := by rw [hbuf]
  have h4 : (buffered_state tpm s frame e).frames frame.ssrc = s.frames frame.ssrc ++ [frame] := by
    rw [hbuf]; simp
  have h5 : (buffered_state tpm s frame e).prefill
      = decide ((s.frames frame.ssrc).length + 1 < BUFFER_LEN) := by rw [hbuf]
  have h6 := process_frame_buffered tpm s frame e hnd (by rw [hsel])
  rw [if_neg (by rw [h2]; simp)] at h6
  obtain ⟨h7, h8⟩ := process_frame_promote_current tpm s frame e hnd hc ho hsk
  refine ⟨h1, h2, h3, h4, ?_, h6, h7, h8, ?_⟩
  · rw [h5, h4]
    simp
  · intro hlen htr
    have hp : (buffered_state tpm s frame e).prefill = true := by rw [h5]; simpa using hlen
    have ht : (buffered_state tpm s frame e).transition < TRANSITION_COUNT := by
      rw [hbuf]; exact htr
    obtain ⟨o1, o2, -, o4⟩ := output_while_prefilling (buffered_state tpm s frame e)
      e.reconf_ret e.now_end hp ht
    rw [h6]
    refine ⟨by rw [o1, h1], o2, ?_⟩
    rw [o4 frame.ssrc (by rw [h1]; exact hc), h4]

theorem C21_promotion_step_witness :
    (buffered_state 1 (run_frames 1 init_state (burst 1 0 7 ++ burst 2 10 5)).1
      (sample_frame 2 15) sample_env).old_ssrc = 1 ∧
    (buffered_state 1 (run_frames 1 init_state (burst 1 0 7 ++ burst 2 10 5)).1
      (sample_frame 2 15) sample_env).prefill = true ∧
    (process_frame 1 (run_frames 1 init_state (burst 1 0 7 ++ burst 2 10 5)).1
      (sample_frame 2 15) sample_env).1.old_ssrc = 1 ∧
    (process_frame 1 (run_frames 1 init_state (burst 1 0 7 ++ burst 2 10 5)).1
      (sample_frame 2 15) sample_env).1.frames 2 = [sample_frame 2 15] := by
  have h := C21_promotion_step 1 (run_frames 1 init_state (burst 1 0 7 ++ burst 2 10 5)).1
    (sample_frame 2 15) sample_env (by decide) (by decide) (by decide) (by decide)
  have hcur : (run_frames 1 init_state (burst 1 0 7 ++ burst 2 10 5)).1.current_ssrc = 1 := by
    decide
  have hfr : (run_frames 1 init_state (burst 1 0 7 ++ burst 2 10 5)).1.frames
      (sample_frame 2 15).ssrc = [] := by decide
  obtain ⟨a1, -, -, a4, a5, -, -, -, a9⟩ := h
  obtain ⟨b1, -, b3⟩ := a9 (by rw [hfr]; decide) (by decide)
  refine ⟨by rw [a1, hcur], ?_, by rw [b1, hcur], ?_⟩
  · rw [a5, a4, hfr]; decide
  · have := b3
    rw [hfr] at this
    exact this

/-- C22 (fails on the code): in the run of `third_source_sample` source 1 fades
while source 2 prefills, with two frames buffered. The next frame of source 3
promotes source 3 (lines 208-211): the fading source becomes 2, and source 1,
which has stopped being the fading source, is not in `disabled_ssrc` and keeps
its two buffered frames, which are not freed either. -/
theorem C22_displaced_fading_source_kept :
    (run_frames 1 init_state third_source_sample).1.old_ssrc = 1 ∧
    (run_frames 1 init_state third_source_sample).1.current_ssrc = 2 ∧
    (run_frames 1 init_state third_source_sample).1.frames 1
      = [sample_frame 1 20, sample_frame 1 21] ∧
    (process_frame 1 (run_frames 1 init_state third_source_sample).1
      (sample_frame 3 35) sample_env).1.old_ssrc = 2 ∧
    (process_frame 1 (run_frames 1 init_state third_source_sample).1
      (sample_frame 3 35) sample_env).1.current_ssrc = 3 ∧
    (process_frame 1 (run_frames 1 init_state third_source_sample).1
      (sample_frame 3 35) sample_env).1.disabled_ssrc 1 = none ∧
    (process_frame 1 (run_frames 1 init_state third_source_sample).1
      (sample_frame 3 35) sample_env).1.frames 1 = [sample_frame 1 20, sample_frame 1 21] ∧
    event.vf_free (sample_frame 1 20) ∉ (process_frame 1
      (run_frames 1 init_state third_source_sample).1 (sample_frame 3 35) sample_env).2 ∧
    event.vf_free (sample_frame 1 21) ∉ (process_frame 1
      (run_frames 1 init_state third_source_sample).1 (sample_frame 3 35) sample_env).2 := by
  decide

/-- C29: the output decision is reached only from the state after lines
218-222 and only by a frame of the active source, and there the buffer of the
active source contains the frame just buffered: the `new_list.empty()` test of
line 252 is false and the steady branch prints no "SMOLIK3". No iteration and
no run prints "SMOLIK3", from any state; and in the states the loop reaches
from the initial state, a "SMOLIK2" is printed only when the buffer of the
fading source is empty. -/
theorem C29_active_buffer_nonempty (tpm : Nat) (s : state_blend_common) (frame : video_frame)
    (e : environment) :
    (∀ s1 : state_blend_common, frame.ssrc = (buffer_frame s1 frame).current_ssrc →
      frame ∈ (buffer_frame s1 frame).frames (buffer_frame s1 frame).current_ssrc ∧
      ((advance_transition (buffer_frame s1 frame)).frames
        (advance_transition (buffer_frame s1 frame)).current_ssrc).isEmpty = false ∧
      event.fprintf message.SMOLIK3 ∉ (output_decision (buffer_frame s1 frame) e.reconf_ret).2) ∧
    (∀ m : message, event.fprintf m ∈ (process_frame tpm s frame e).2 →
      frame.ssrc = (buffered_state tpm s frame e).current_ssrc ∧
      event.fprintf m ∈ (output_decision (buffered_state tpm s frame e) e.reconf_ret).2) ∧
    event.fprintf message.SMOLIK3 ∉ (process_frame tpm s frame e).2 ∧
    (∀ fs : List (video_frame × environment),
      event.fprintf message.SMOLIK3 ∉ (run_frames tpm s fs).2) ∧
    (∀ fs : List (video_frame × environment),
      event.fprintf message.SMOLIK2 ∈
        (process_frame tpm (run_frames tpm init_state fs).1 frame e).2 →
      (buffered_state tpm (run_frames tpm init_state fs).1 frame e).frames
        (buffered_state tpm (run_frames tpm init_state fs).1 frame e).old_ssrc = []) := by
  have hmem : ∀ s1 : state_blend_common, frame.ssrc = (buffer_frame s1 frame).current_ssrc →
      (buffer_frame s1 frame).frames (buffer_frame s1 frame).current_ssrc ≠ [] := by
    intro s1 h hnil
    have := buffer_frame_mem s1 frame h
    rw [hnil] at this
    simp at this
  have hno : ∀ (s2 : state_blend_common) (f2 : video_frame) (e2 : environment),
      event.fprintf message.SMOLIK3 ∉ (process_frame tpm s2 f2 e2).2 := by
    intro s2 f2 e2 hm
    obtain ⟨-, hc, hod⟩ := process_frame_messages tpm s2 f2 e2 _ hm
    have hne : (buffered_state tpm s2 f2 e2).frames (buffered_state tpm s2 f2 e2).current_ssrc
        ≠ [] := by
      intro hnil
      have := buffer_frame_mem _ f2 hc
      unfold buffered_state at hnil
      rw [hnil] at this
      simp at this
    rcases output_decision_messages _ _ _ hod with h | h | h | h | h
    · exact absurd h (by decide)
    · exact absurd h (by decide)
    · exact absurd h.1 (by decide)
    · exact absurd h.1 (by decide)
    · exact hne h.2
  refine ⟨?_, ?_, hno s frame e, ?_, ?_⟩
  · intro s1 h
    refine ⟨buffer_frame_mem s1 frame h, ?_, ?_⟩
    · have := hmem s1 h
      simp only [advance_transition]
      cases hN : (buffer_frame s1 frame).frames (buffer_frame s1 frame).current_ssrc with
      | nil => exact absurd hN this
      | cons a b => rfl
    · intro hm
      rcases output_decision_messages _ _ _ hm with h2 | h2 | h2 | h2 | h2
      · exact absurd h2 (by decide)
      · exact absurd h2 (by decide)
      · exact absurd h2.1 (by decide)
      · exact absurd h2.1 (by decide)
      · exact hmem s1 h h2.2
  · intro m hm
    exact (process_frame_messages tpm s frame e m hm).2
  · intro fs
    exact run_frames_messages tpm _ fs s hno
  · intro fs hm
    obtain ⟨hnd, hc, hod⟩ := process_frame_messages tpm _ frame e _ hm
    obtain ⟨i1, -, -, -⟩ := selection_invariant_buffered tpm _ frame e hnd
      (selection_invariant_run tpm fs init_state selection_invariant_init)
    have hne : (buffered_state tpm (run_frames tpm init_state fs).1 frame e).frames
        (buffered_state tpm (run_frames tpm init_state fs).1 frame e).current_ssrc ≠ [] := by
      intro hnil
      have := buffer_frame_mem _ frame hc
      unfold buffered_state at hnil
      rw [hnil] at this
      simp at this
    rcases output_decision_messages _ _ _ hod with h | h | h | h | h
    · exact absurd h (by decide)
    · exact absurd h (by decide)
    · exact absurd h.1 (by decide)
    · rcases h.2 with h3 | h3 | h3
      · exact h3
      · exact absurd h3 hne
      · by_cases h0 : (buffered_state tpm (run_frames tpm init_state fs).1 frame e).old_ssrc = 0
        · exfalso
          have hod2 := hod
          unfold output_decision at hod2
          simp only [h0, ne_eq, not_true_eq_false, if_false] at hod2
          unfold output_steady at hod2
          split_ifs at hod2
          · revert hod2
            split
            · simp
            · simp [put_copy, check_reconf_events]
          · simp at hod2
        · exact absurd h3 (i1 h0)
    · exact absurd h.1 (by decide)

/-- C28: a promotion while the transition counter is t, 0 < t <
`TRANSITION_COUNT`, does not reset the counter: after lines 206-222 it is still
t, the former active source fades and the promoted one is active; the rest of
the promoting iteration and every iteration in which the promoted source still
prefills keep it at t. The crossfade towards the promoted source is therefore
entered with the counter t: fed frames of the promoted source, it takes
`TRANSITION_COUNT - t` blend steps, fewer than `TRANSITION_COUNT`; before the
last of them the fading source is still there and the counter is t plus the
number of steps done, and the last one ends the transition. -/
theorem C28_promotion_keeps_transition (tpm : Nat) (s : state_blend_common)
    (frame : video_frame) (e : environment) (hnd : s.disabled_ssrc frame.ssrc = none)
    (hc : frame.ssrc ≠ s.current_ssrc) (ho : frame.ssrc ≠ s.old_ssrc)
    (hsk : SKIP_FIRST_N_FRAMES_IN_STREAM ≤ s.skipped)
    (h0 : 0 < s.transition) (h1 : s.transition < TRANSITION_COUNT) :
    (buffered_state tpm s frame e).transition = s.transition ∧
    (buffered_state tpm s frame e).old_ssrc = s.current_ssrc ∧
    (buffered_state tpm s frame e).current_ssrc = frame.ssrc ∧
    ((s.frames frame.ssrc).length + 1 < BUFFER_LEN →
      (process_frame tpm s frame e).1.transition = s.transition ∧
      (process_frame tpm s frame e).1.prefill = true) ∧
    (∀ (s1 : state_blend_common) (r now_end : Int),
      s1.prefill = true → s1.transition = s.transition →
      (finish_transition (output_decision s1 r).1 now_end).1.transition = s.transition) ∧
    (∀ (s2 : state_blend_common) (d : video_desc) (fs : List (video_frame × environment)),
      s2.transition = s.transition →
      s2.old_ssrc ≠ 0 → s2.old_ssrc ≠ s2.current_ssrc →
      (s2.prefill = false ∨ BUFFER_LEN ≤ (s2.frames s2.current_ssrc).length + 1) →
      s2.disabled_ssrc s2.current_ssrc = none →
      (∀ p ∈ fs, p.1.ssrc = s2.current_ssrc ∧ p.1.desc = d) →
      (∀ f ∈ s2.frames s2.old_ssrc, f.desc = d) →
      (∀ f ∈ s2.frames s2.current_ssrc, f.desc = d) →
      fs.length ≤ (s2.frames s2.old_ssrc).length →
      (fs.length : Int) = TRANSITION_COUNT - s.transition →
      fs.length < 10 ∧
      (∀ k, k < fs.length →
        (run_frames tpm s2 (fs.take k)).1.old_ssrc = s2.old_ssrc ∧
        (run_frames tpm s2 (fs.take k)).1.transition = s.transition + k ∧
        (submitted (run_frames tpm s2 (fs.take k)).2).length = k) ∧
      (run_frames tpm s2 fs).1.old_ssrc = 0 ∧
      (run_frames tpm s2 fs).1.transition = 0 ∧
      (run_frames tpm s2 fs).1.current_ssrc = s2.current_ssrc ∧
      submitted (run_frames tpm s2 fs).2 =
        crossfade_frames s2.current_ssrc s.transition (s2.frames s2.old_ssrc)
          (s2.frames s2.current_ssrc ++ fs.map Prod.fst) fs.length ∧
      (submitted (run_frames tpm s2 fs).2).length = fs.length) := by
  have hsel : select_source
      { s with disabled_ssrc := sweep_disabled tpm e.now s.disabled_ssrc } frame.ssrc =
      ({ s with
          disabled_ssrc := sweep_disabled tpm e.now s.disabled_ssrc
          old_ssrc := s.current_ssrc
          current_ssrc := frame.ssrc
          prefill := true
          skipped := 0 }, true) := by
    unfold select_source
    simp [hc, ho, hsk]
  have hb := buffer_frame_same (select_source
    { s with disabled_ssrc := sweep_disabled tpm e.now s.disabled_ssrc } frame.ssrc).1 frame
  have g1 : (buffered_state tpm s frame e).transition = s.transition := by
    unfold buffered_state
    rw [hb.2.2.2.2.1, hsel]
  have g2 : (buffered_state tpm s frame e).old_ssrc = s.current_ssrc := by
    unfold buffered_state
    rw [hb.2.1, hsel]
  have g3 : (buffered_state tpm s frame e).current_ssrc = frame.ssrc := by
    unfold buffered_state
    rw [hb.1, hsel]
  refine ⟨g1, g2, g3, ?_, ?_, ?_⟩
  · intro hlen
    have hp : (buffered_state tpm s frame e).prefill = true := by
      unfold buffered_state
      rw [hsel, buffer_frame_active _ _ rfl]
      simpa using hlen
    have h6 := process_frame_buffered tpm s frame e hnd (by rw [hsel])
    rw [if_neg (by rw [g3]; simp)] at h6
    obtain ⟨-, o2, o3, -⟩ := output_while_prefilling (buffered_state tpm s frame e)
      e.reconf_ret e.now_end hp (by rw [g1]; exact h1)
    rw [h6]
    exact ⟨by rw [o3, g1], o2⟩
  · intro s1 r now_end hp ht
    obtain ⟨-, -, o3, -⟩ := output_while_prefilling s1 r now_end hp (by rw [ht]; exact h1)
    rw [o3, ht]
  · intro s2 d fs ht hold hne hpre hd hfs hdo hdn hlen hcount
    have hne0 : fs ≠ [] := by
      intro h
      rw [h] at hcount
      simp only [List.length_nil, Nat.cast_zero] at hcount
      omega
    have hlt : fs.length < 10 := by
      have : (fs.length : Int) < 10 := by
        rw [hcount]
        simp only [TRANSITION_COUNT]
        omega
      exact_mod_cast this
    have h := run_frames_crossfade_span tpm s2 d fs hold hne hpre hd hfs hdo hdn hlen hne0
      (by rw [ht, hcount]; ring)
    rw [ht] at h
    exact ⟨hlt, h⟩

theorem C28_promotion_keeps_transition_witness :
    (run_frames 1 init_state interrupted_sample).1.old_ssrc = 1 ∧
    (run_frames 1 init_state interrupted_sample).1.transition = 3 ∧
    (process_frame 1 (run_frames 1 init_state interrupted_sample).1
      (sample_frame 3 205) sample_env).1.transition = 3 ∧
    (run_frames 1 init_state interrupted_prefilled_sample).1.old_ssrc = 2 ∧
    (run_frames 1 (run_frames 1 init_state interrupted_prefilled_sample).1
      ((burst 3 209 7).take 6)).1.old_ssrc = 2 ∧
    (run_frames 1 (run_frames 1 init_state interrupted_prefilled_sample).1
      (burst 3 209 7)).1.old_ssrc = 0 ∧
    (submitted (run_frames 1 (run_frames 1 init_state interrupted_prefilled_sample).1
      (burst 3 209 7)).2).length = 7 := by
  have h := C28_promotion_keeps_transition 1 (run_frames 1 init_state interrupted_sample).1
    (sample_frame 3 205) sample_env (by decide!) (by decide!) (by decide!) (by decide!)
    (by decide!) (by decide!)
  obtain ⟨-, -, -, a4, -, a6⟩ := h
  have b := a6 (run_frames 1 init_state interrupted_prefilled_sample).1 sample_desc
    (burst 3 209 7) (by decide!) (by decide!) (by decide!) (Or.inr (by decide!)) (by decide!)
    (by decide!) (by decide!) (by decide!) (by decide!) (by decide!)
  obtain ⟨-, b2, b3, -, -, -, b7⟩ := b
  have ht : (run_frames 1 init_state interrupted_sample).1.transition = 3 := by decide!
  have ho : (run_frames 1 init_state interrupted_prefilled_sample).1.old_ssrc = 2 := by decide!
  refine ⟨by decide!, ht, ?_, ho, ?_, b3, b7⟩
  · rw [(a4 (by decide!)).1, ht]
  · rw [(b2 6 (by decide!)).1, ho]

/-- C24, the claim as stated fails where an entry of `disabled_ssrc` expires: after
`expiring_sample` source 4 is active and prefilling, source 3 fades with an
empty buffer and source 1 is disabled since the time 1000. A frame of source 4
at the time 2000 submits nothing, but the state changes by more than the frame
buffered: the sweep of lines 196-204 has erased the entry of source 1. -/
theorem C24_sweep_changes_state :
    (run_frames 1 init_state expiring_sample).1.current_ssrc = 4 ∧
    (run_frames 1 init_state expiring_sample).1.old_ssrc = 3 ∧
    (run_frames 1 init_state expiring_sample).1.prefill = true ∧
    (run_frames 1 init_state expiring_sample).1.frames 3 = [] ∧
    (run_frames 1 init_state expiring_sample).1.disabled_ssrc 1 = some 1000 ∧
    submitted (process_frame 1 (run_frames 1 init_state expiring_sample).1
      (sample_frame 4 50) ⟨2000, 2000, 1⟩).2 = [] ∧
    (process_frame 1 (run_frames 1 init_state expiring_sample).1
      (sample_frame 4 50) ⟨2000, 2000, 1⟩).1.prefill = true ∧
    (process_frame 1 (run_frames 1 init_state expiring_sample).1
      (sample_frame 4 50) ⟨2000, 2000, 1⟩).1.disabled_ssrc 1 = none ∧
    (process_frame 1 (run_frames 1 init_state expiring_sample).1
      (sample_frame 4 50) ⟨2000, 2000, 1⟩).1 ≠
      { (run_frames 1 init_state expiring_sample).1 with
          frames := Function.update (run_frames 1 init_state expiring_sample).1.frames 4
            ((run_frames 1 init_state expiring_sample).1.frames 4 ++ [sample_frame 4 50]) } := by
  refine ⟨by decide!, by decide!, by decide!, by decide!, by decide!, by decide!, by decide!,
    by decide!, ?_⟩
  intro h
  have h2 := congrArg (fun t : state_blend_common => t.disabled_ssrc 1) h
  have h3 : (process_frame 1 (run_frames 1 init_state expiring_sample).1
      (sample_frame 4 50) ⟨2000, 2000, 1⟩).1.disabled_ssrc 1 = none := by decide!
  have h4 : (run_frames 1 init_state expiring_sample).1.disabled_ssrc 1 = some 1000 := by
    decide!
  simp only [h3] at h2
  rw [h4] at h2
  exact absurd h2 (by decide)

end Blend
